import Mathlib

/-!
# ESI bundle lowering (`lib/Dialect/ESI/Passes/ESILowerBundles.cpp`)

A shallow embedding of the port conversions `BundlePort` and `ArrayBundlePort`,
of the selector `ESIBundleConversionBuilder::build` and of the pass driver
`ESIBundlesPass::runOnOperation`.

Conventions of the embedding:

* MLIR handles (`Type`, `Value`, `Operation *`, `Block *`) become plain data.
  An operation is identified by a number `id`; a `Value` names the block
  argument, operation result or backedge it stands for and carries its type.
* Mutable objects are passed in and handed back: a callback that mutates the
  converter, the `PortConversion` object, a block or the `newOperands` vector
  returns the new versions of them.
* A failed `cast<...>`, an index outside a vector and any other violated
  assertion make the callback return `none`.
* Source locations and port attributes carry no behaviour and are left out.
-/

namespace circt

/-! ## Types -/

/-- The two directions of a channel in a bundle (`esi::ChannelDirection`). -/
inductive ChannelDirection
  | to
  | «from»
  deriving DecidableEq, Repr

mutual
/-- The MLIR types the pass distinguishes: the null type, a type of any other
kind (here an integer of some width), an ESI channel, an ESI channel bundle and
an `hw` array. -/
inductive Ty
  | none
  | integer (width : Nat)
  | channel (inner : Ty)
  | bundle (channels : List BundledChannel)
  | array (elementType : Ty) (numElements : Nat)
/-- One entry of a bundle (`esi::BundledChannel`): name, direction, type. -/
inductive BundledChannel
  | mk (name : String) (direction : ChannelDirection) (type : Ty)
end

/-- Field `name` of a `BundledChannel`. -/
def BundledChannel.name : BundledChannel → String
  | .mk n _ _ => n

/-- Field `direction` of a `BundledChannel`. -/
def BundledChannel.direction : BundledChannel → ChannelDirection
  | .mk _ d _ => d

/-- Field `type` of a `BundledChannel`. -/
def BundledChannel.type : BundledChannel → Ty
  | .mk _ _ t => t

mutual
/-- Equality of types is decidable. -/
def Ty.decEq : (a b : Ty) → Decidable (a = b)
  | .none, .none => isTrue rfl
  | .integer w, .integer v =>
    if h : w = v then isTrue (by rw [h]) else isFalse (by intro e; cases e; exact h rfl)
  | .channel a, .channel b =>
    match Ty.decEq a b with
    | isTrue h => isTrue (by rw [h])
    | isFalse h => isFalse (by intro e; cases e; exact h rfl)
  | .bundle a, .bundle b =>
    match decEqChannels a b with
    | isTrue h => isTrue (by rw [h])
    | isFalse h => isFalse (by intro e; cases e; exact h rfl)
  | .array a n, .array b m =>
    match Ty.decEq a b with
    | isTrue h =>
      if h2 : n = m then isTrue (by rw [h, h2])
      else isFalse (by intro e; cases e; exact h2 rfl)
    | isFalse h => isFalse (by intro e; cases e; exact h rfl)
  | .none, .integer _ => isFalse (by intro e; cases e)
  | .none, .channel _ => isFalse (by intro e; cases e)
  | .none, .bundle _ => isFalse (by intro e; cases e)
  | .none, .array _ _ => isFalse (by intro e; cases e)
  | .integer _, .none => isFalse (by intro e; cases e)
  | .integer _, .channel _ => isFalse (by intro e; cases e)
  | .integer _, .bundle _ => isFalse (by intro e; cases e)
  | .integer _, .array _ _ => isFalse (by intro e; cases e)
  | .channel _, .none => isFalse (by intro e; cases e)
  | .channel _, .integer _ => isFalse (by intro e; cases e)
  | .channel _, .bundle _ => isFalse (by intro e; cases e)
  | .channel _, .array _ _ => isFalse (by intro e; cases e)
  | .bundle _, .none => isFalse (by intro e; cases e)
  | .bundle _, .integer _ => isFalse (by intro e; cases e)
  | .bundle _, .channel _ => isFalse (by intro e; cases e)
  | .bundle _, .array _ _ => isFalse (by intro e; cases e)
  | .array _ _, .none => isFalse (by intro e; cases e)
  | .array _ _, .integer _ => isFalse (by intro e; cases e)
  | .array _ _, .channel _ => isFalse (by intro e; cases e)
  | .array _ _, .bundle _ => isFalse (by intro e; cases e)
/-- Equality of bundle entries is decidable. -/
def BundledChannel.decEq : (a b : BundledChannel) → Decidable (a = b)
  | .mk n d t, .mk n2 d2 t2 =>
    if h1 : n = n2 then
      if h2 : d = d2 then
        match Ty.decEq t t2 with
        | isTrue h => isTrue (by rw [h1, h2, h])
        | isFalse h => isFalse (by intro e; cases e; exact h rfl)
      else isFalse (by intro e; cases e; exact h2 rfl)
    else isFalse (by intro e; cases e; exact h1 rfl)
/-- Equality of channel lists is decidable. -/
def decEqChannels : (a b : List BundledChannel) → Decidable (a = b)
  | [], [] => isTrue rfl
  | [], _ :: _ => isFalse (by intro e; cases e)
  | _ :: _, [] => isFalse (by intro e; cases e)
  | x :: xs, y :: ys =>
    match BundledChannel.decEq x y with
    | isTrue h =>
      match decEqChannels xs ys with
      | isTrue h2 => isTrue (by rw [h, h2])
      | isFalse h2 => isFalse (by intro e; cases e; exact h2 rfl)
    | isFalse h => isFalse (by intro e; cases e; exact h rfl)
end

instance : DecidableEq Ty := Ty.decEq

instance : DecidableEq BundledChannel := BundledChannel.decEq

/-- A type known to be a channel bundle (`esi::ChannelBundleType`). -/
structure ChannelBundleType where
  channels : List BundledChannel
  deriving DecidableEq

/-- Accessor `ChannelBundleType::getChannels`. -/
def ChannelBundleType.getChannels (t : ChannelBundleType) : List BundledChannel :=
  t.channels

/-- A `ChannelBundleType` seen as a `Type`. -/
def ChannelBundleType.toTy (t : ChannelBundleType) : Ty :=
  Ty.bundle t.channels

/-- A type known to be an array (`hw::ArrayType`). -/
structure ArrayType where
  elementType : Ty
  numElements : Nat
  deriving DecidableEq

/-- Accessor `hw::ArrayType::getElementType`. -/
def ArrayType.getElementType (t : ArrayType) : Ty :=
  t.elementType

/-- Accessor `hw::ArrayType::getNumElements`. -/
def ArrayType.getNumElements (t : ArrayType) : Nat :=
  t.numElements

/-- Constructor `hw::ArrayType::get(elementType, numElements)`. -/
def ArrayType.get (elementType : Ty) (numElements : Nat) : Ty :=
  Ty.array elementType numElements

/-- Test `isa<esi::ChannelBundleType>(t)`. -/
def isaChannelBundleType : Ty → Bool
  | .bundle _ => true
  | _ => false

/-- Test `isa<hw::ArrayType>(t)`. -/
def isaArrayType : Ty → Bool
  | .array _ _ => true
  | _ => false

/-- Checked cast `cast<ChannelBundleType>(t)`: fails on any other type. -/
def castChannelBundleType : Ty → Option ChannelBundleType
  | .bundle chs => some ⟨chs⟩
  | _ => Option.none

/-- Checked cast `cast<hw::ArrayType>(t)`: fails on any other type. -/
def castArrayType : Ty → Option ArrayType
  | .array e n => some ⟨e, n⟩
  | _ => Option.none

/-! ## Ports, values, operations, blocks -/

/-- Direction of a module port (`hw::ModulePort::Direction`). -/
inductive Direction
  | Input
  | Output
  | InOut
  deriving DecidableEq, Repr

/-- A module port (`hw::PortInfo`): name, type, direction and the position
`argNum` among the ports of its direction. -/
structure PortInfo where
  name : String
  type : Ty
  dir : Direction
  argNum : Nat
  deriving DecidableEq

/-- A default-constructed `hw::PortInfo`, as `SmallVector::resize` creates. -/
def PortInfo.default : PortInfo :=
  { name := "", type := Ty.none, dir := Direction.Input, argNum := 4294967295 }

/-- An SSA value (`mlir::Value`): the null value, a block argument, a result of
an operation, or a backedge standing for a result of the instance that
replaces the one being rewritten. -/
inductive Value
  | null
  | blockArgument (argNum : Nat) (type : Ty)
  | opResult (owner : Nat) (resultNumber : Nat) (type : Ty)
  | backedge (index : Nat) (type : Ty)
  deriving DecidableEq

/-- Accessor `Value::getType`. -/
def Value.getType : Value → Ty
  | .null => Ty.none
  | .blockArgument _ t => t
  | .opResult _ _ t => t
  | .backedge _ t => t

/-- The kinds of operation the pass creates or meets. -/
inductive OpKind
  | pack
  | unpack
  | arrayGet (index : Nat)
  | arrayCreate
  | inst (moduleName : String)
  | output
  | other (name : String)
  deriving DecidableEq

/-- An operation: identity, kind, operands, result types. -/
structure Operation where
  id : Nat
  kind : OpKind
  operands : List Value
  resultTypes : List Ty
  deriving DecidableEq

/-- Accessor `Operation::getOperand(idx)`. -/
def Operation.getOperand (op : Operation) (idx : Nat) : Option Value :=
  op.operands[idx]?

/-- Accessor `Operation::getResults`. -/
def Operation.getResults (op : Operation) : List Value :=
  op.resultTypes.enum.map (fun p => Value.opResult op.id p.1 p.2)

/-- Accessor `Operation::getResult(idx)`. -/
def Operation.getResult (op : Operation) (idx : Nat) : Option Value :=
  op.getResults[idx]?

/-- Replace `old` by `new` in the operand list of one operation. -/
def Operation.replaceUses (old new : Value) (op : Operation) : Operation :=
  { op with operands := op.operands.map (fun v => if v = old then new else v) }

/-- A block: argument types, the operations before the terminator, the
terminator, and the identity the next created operation receives. -/
structure Block where
  arguments : List Ty
  ops : List Operation
  terminator : Operation
  nextOp : Nat
  deriving DecidableEq

/-- Accessor `Block::getArgument(i)`. -/
def Block.getArgument (b : Block) (i : Nat) : Option Value :=
  b.arguments[i]?.map (fun t => Value.blockArgument i t)

/-- Method `Block::addArgument(type, loc)`: the new argument goes last. -/
def Block.addArgument (b : Block) (type : Ty) : Value × Block :=
  (Value.blockArgument b.arguments.length type,
   { b with arguments := b.arguments ++ [type] })

/-- Method `Value::replaceAllUsesWith`, for values used in block `b`. -/
def Block.replaceAllUsesWith (b : Block) (old new : Value) : Block :=
  { b with ops := b.ops.map (Operation.replaceUses old new),
           terminator := Operation.replaceUses old new b.terminator }

/-- Where a builder inserts: at the start of the block, before the operation
with a given identity, or before the terminator. -/
inductive InsertPoint
  | blockBegin
  | beforeOp (id : Nat)
  | blockTerminator
  deriving DecidableEq

/-- Insert `op` before the operation named `id` (last when there is none). -/
def insertBefore (id : Nat) (op : Operation) : List Operation → List Operation
  | [] => [op]
  | x :: xs => if x.id = id then op :: x :: xs else x :: insertBefore id op xs

/-- Insert `op` in `b` at the insertion point. -/
def Block.insert (b : Block) (pt : InsertPoint) (op : Operation) : Block :=
  match pt with
  | .blockBegin => { b with ops := op :: b.ops }
  | .beforeOp id => { b with ops := insertBefore id op b.ops }
  | .blockTerminator => { b with ops := b.ops ++ [op] }

/-- Create an operation at the insertion point (`OpBuilder::create`). -/
def Block.create (b : Block) (pt : InsertPoint) (kind : OpKind)
    (operands : List Value) (resultTypes : List Ty) : Operation × Block :=
  let op : Operation :=
    { id := b.nextOp, kind := kind, operands := operands, resultTypes := resultTypes }
  (op, { b.insert pt op with nextOp := b.nextOp + 1 })

/-! ## The port-converter framework (`circt/Dialect/HW/PortConverter.h`) -/

/-- One port created through the converter: the original port and the suffix
of the request, the `PortInfo` handed back, and the value that goes with it
(the new block argument of an input, the value wired to an output; null when
there is none). -/
structure NewPort where
  origPort : PortInfo
  suffix : String
  info : PortInfo
  value : Value
  deriving DecidableEq

/-- The state of `PortConverterImpl` the conversions see: the body of the
module (absent for a declaration) and the ports created so far, inputs and
outputs apart, in creation order. -/
structure PortConverterImpl where
  body : Option Block
  newInputs : List NewPort
  newOutputs : List NewPort
  deriving DecidableEq

/-- Modelled from the spec: `PortConverterImpl::createNewInput` is declared in
`PortConverter.h`, outside this file (section 6: `createNewInput(origPort,
suffixName, type) -> value, portInfo`). The new port is named
`origPort.name ++ suffix`, is an input of the given type and takes the next
position among the new inputs; with a body the value is a new block argument
of that type, without a body it is null. -/
def PortConverterImpl.createNewInput (c : PortConverterImpl) (origPort : PortInfo)
    (suffix : String) (type : Ty) : Value × PortInfo × PortConverterImpl :=
  let newPort : PortInfo :=
    { name := origPort.name ++ suffix, type := type, dir := Direction.Input,
      argNum := c.newInputs.length }
  match c.body with
  | Option.none =>
    (Value.null, newPort,
     { c with newInputs := c.newInputs ++ [⟨origPort, suffix, newPort, Value.null⟩] })
  | some body =>
    let r := body.addArgument type
    (r.1, newPort,
     { c with body := some r.2,
              newInputs := c.newInputs ++ [⟨origPort, suffix, newPort, r.1⟩] })

/-- Modelled from the spec: `PortConverterImpl::createNewOutput` is declared in
`PortConverter.h`, outside this file (section 6: `createNewOutput(origPort,
suffixName, type, optionalWiredValue) -> portInfo`). The new port is named
`origPort.name ++ suffix`, is an output of the given type and takes the next
position among the new outputs; the wired value is recorded with it. -/
def PortConverterImpl.createNewOutput (c : PortConverterImpl) (origPort : PortInfo)
    (suffix : String) (type : Ty) (output : Value) : PortInfo × PortConverterImpl :=
  let newPort : PortInfo :=
    { name := origPort.name ++ suffix, type := type, dir := Direction.Output,
      argNum := c.newOutputs.length }
  (newPort, { c with newOutputs := c.newOutputs ++ [⟨origPort, suffix, newPort, output⟩] })

/-! ## The adapter operations (`circt/Dialect/ESI/ESIOps.h`) -/

/-- Result types of a Pack of bundle type `t`: the bundle, then one result per
`from` channel, in declaration order. -/
def PackBundleOp.resultTypes (t : ChannelBundleType) : List Ty :=
  t.toTy :: (t.getChannels.filter (fun ch => ch.direction = ChannelDirection.from)).map
    BundledChannel.type

/-- Result types of an Unpack of a bundle of type `t`: one result per `to`
channel, in declaration order. -/
def UnpackBundleOp.resultTypes (t : ChannelBundleType) : List Ty :=
  (t.getChannels.filter (fun ch => ch.direction = ChannelDirection.to)).map
    BundledChannel.type

/-- Modelled from the spec: the builder of `PackBundleOp` lives in the ESI
dialect, outside this file (section 6: `Pack(bundleType, channelValues) ->
(bundleValue, channelValues)`). As the source uses it, the operands are the
values of the `to` channels and the results are the bundle followed by the
`from` channels (`getBundle`, `getFromChannels`). -/
def PackBundleOp.create (b : Block) (pt : InsertPoint) (bundleType : ChannelBundleType)
    (toChannels : List Value) : Operation × Block :=
  b.create pt OpKind.pack toChannels (PackBundleOp.resultTypes bundleType)

/-- Accessor `PackBundleOp::getBundle`: result 0. -/
def PackBundleOp.getBundle (op : Operation) : Option Value :=
  op.getResult 0

/-- Accessor `PackBundleOp::getFromChannels`: the results after the bundle. -/
def PackBundleOp.getFromChannels (op : Operation) : List Value :=
  op.getResults.drop 1

/-- Modelled from the spec: the builder of `UnpackBundleOp` lives in the ESI
dialect, outside this file (section 6: `Unpack(bundleValue, channelValues) ->
channelValues`). As the source uses it, the operands are the bundle followed
by the values of the `from` channels and the results are the `to` channels of
the bundle's type (`getToChannels`); the bundle operand must have a bundle
type. -/
def UnpackBundleOp.create (b : Block) (pt : InsertPoint) (bundle : Value)
    (fromChannels : List Value) : Option (Operation × Block) :=
  (castChannelBundleType bundle.getType).map (fun t =>
    b.create pt OpKind.unpack (bundle :: fromChannels) (UnpackBundleOp.resultTypes t))

/-- Accessor `UnpackBundleOp::getToChannels`: all results. -/
def UnpackBundleOp.getToChannels (op : Operation) : List Value :=
  op.getResults

/-- Accessor `UnpackBundleOp::getBundle`: operand 0. -/
def UnpackBundleOp.getBundle (op : Operation) : Option Value :=
  op.getOperand 0

/-- Accessor `UnpackBundleOp::getFromChannels`: the operands after the bundle. -/
def UnpackBundleOp.getFromChannels (op : Operation) : List Value :=
  op.operands.drop 1

/-- Modelled from the spec: the builder of `hw::ArrayGetOp` lives in the HW
dialect, outside this file (section 4.2, step 2: an array-element-access
operation). It takes an array value and a constant index and has one result,
of the element type of the array. -/
def ArrayGetOp.create (b : Block) (pt : InsertPoint) (input : Value) (idx : Nat) :
    Option (Operation × Block) :=
  (castArrayType input.getType).map (fun t =>
    b.create pt (OpKind.arrayGet idx) [input] [t.getElementType])

/-- Modelled from the spec: the builder of `hw::ArrayCreateOp` lives in the HW
dialect, outside this file (section 4.2, step 4: an array-construction
operation). It takes the elements and has one result, an array of as many
elements, of the type of the first one. -/
def ArrayCreateOp.create (b : Block) (pt : InsertPoint) (inputs : List Value) :
    Operation × Block :=
  b.create pt OpKind.arrayCreate inputs
    [ArrayType.get ((inputs.head?.map Value.getType).getD Ty.none) inputs.length]

/-- Method `SmallVector::resize(n)` on a vector of `PortInfo`. -/
def resizePorts (v : List PortInfo) (n : Nat) : List PortInfo :=
  v.take n ++ List.replicate (n - v.length) PortInfo.default

/-- Assignment `v[i] = x` to an element of a vector: `i` must be in range. -/
def assignAt {α : Type} (v : List α) (i : Nat) (x : α) : Option (List α) :=
  if i < v.length then some (v.set i x) else Option.none

/-! ## `BundlePort` and `ArrayBundlePort`: the module side -/

/-- The members of a `BundlePort` object: the original port and the two
vectors `newInputChannels` and `newOutputChannels`. The members `converter`
and `body` of the base class are the converter state passed to each method
and its field `body`. -/
structure BundlePort where
  origPort : PortInfo
  newInputChannels : List PortInfo
  newOutputChannels : List PortInfo
  deriving DecidableEq

/-- The constructor `BundlePort(converter, origPort)`. -/
def BundlePort.new (origPort : PortInfo) : BundlePort :=
  { origPort := origPort, newInputChannels := [], newOutputChannels := [] }

/-- The members of an `ArrayBundlePort` object, as for `BundlePort`. -/
structure ArrayBundlePort where
  origPort : PortInfo
  newInputChannels : List PortInfo
  newOutputChannels : List PortInfo
  deriving DecidableEq

/-- The constructor `ArrayBundlePort(converter, origPort)`. -/
def ArrayBundlePort.new (origPort : PortInfo) : ArrayBundlePort :=
  { origPort := origPort, newInputChannels := [], newOutputChannels := [] }

/-- The variables the first loop of a build method updates. -/
structure InputLoopState where
  converter : PortConverterImpl
  newInputChannels : List PortInfo
  newInputValues : List Value
  outputChannels : List BundledChannel

/-- One iteration of the loop over `bundleType.getChannels()` (lines 159-170
with `dir = to`; lines 198-210 with `dir = from`, where the vector is called
`unpackChannels` and `unpackOpResultTypes` is written but never read; lines
279-290 with `dir = to`): a channel of direction `dir` becomes a new input
named with the suffix `"_" + ch.name`, any other channel is kept for later. -/
def channelStep (origPort : PortInfo) (dir : ChannelDirection) (st : InputLoopState)
    (ch : BundledChannel) : InputLoopState :=
  if ch.direction = dir then
    let r := st.converter.createNewInput origPort ("_" ++ ch.name) ch.type
    { st with converter := r.2.2,
              newInputValues := st.newInputValues ++ [r.1],
              newInputChannels := st.newInputChannels ++ [r.2.1] }
  else
    { st with outputChannels := st.outputChannels ++ [ch] }

/-- The loop over `bundleType.getChannels()`, in declaration order. -/
def channelLoop (origPort : PortInfo) (dir : ChannelDirection)
    (chs : List BundledChannel) (st : InputLoopState) : InputLoopState :=
  chs.foldl (channelStep origPort dir) st

/-- The argument `op ? results[idx] : nullptr` of `createNewOutput` (lines 186,
225, 306, 391): `results` is absent when no adapter was built. -/
def outputValue (results : Option (List Value)) (idx : Nat) : Option Value :=
  match results with
  | Option.none => some Value.null
  | some rs => rs[idx]?

/-- The loop `for (auto [idx, ch] : llvm::enumerate(outputChannels))` that ends
each build method (lines 184-187, 223-226, 304-307 with `portType ch = ch.type`;
lines 388-391 with `portType ch = ArrayType::get(ch.type, numBundles)`), from
index `idx` on. `results` is absent when no adapter was built (the wired value
is then null), else it holds the values indexed by `idx`. The new `PortInfo`
is written to `newOutputChannels[idx]`. -/
def createOutputsLoop (origPort : PortInfo) (portType : BundledChannel → Ty)
    (results : Option (List Value)) :
    Nat → List BundledChannel → PortConverterImpl × List PortInfo →
      Option (PortConverterImpl × List PortInfo)
  | _, [], st => some st
  | idx, ch :: rest, st =>
    (outputValue results idx).bind fun output =>
    let r := st.1.createNewOutput origPort ("_" ++ ch.name) (portType ch) output
    (assignAt st.2 idx r.1).bind fun outs =>
    createOutputsLoop origPort portType results (idx + 1) rest (r.2, outs)

/-- Method `BundlePort::buildInputSignals` (lines 154-188). -/
def BundlePort.buildInputSignals (self : BundlePort) (converter : PortConverterImpl) :
    Option (BundlePort × PortConverterImpl) :=
  (castChannelBundleType self.origPort.type).bind fun bundleType =>
  let st := channelLoop self.origPort ChannelDirection.to bundleType.getChannels
    { converter := converter, newInputChannels := self.newInputChannels,
      newInputValues := [], outputChannels := [] }
  -- `PackBundleOp pack; if (body) { ... }`
  (match st.converter.body with
    | Option.none => some (Option.none, st.converter)
    | some body =>
      let r := PackBundleOp.create body InsertPoint.blockBegin bundleType st.newInputValues
      (r.2.getArgument self.origPort.argNum).bind fun arg =>
      (PackBundleOp.getBundle r.1).bind fun bundle =>
      some (some r.1, { st.converter with body := some (r.2.replaceAllUsesWith arg bundle) })
    ).bind fun (pc : Option Operation × PortConverterImpl) =>
  (createOutputsLoop self.origPort BundledChannel.type
      (pc.1.map PackBundleOp.getFromChannels) 0 st.outputChannels
      (pc.2, resizePorts self.newOutputChannels st.outputChannels.length)).bind fun r =>
  some ({ self with newInputChannels := st.newInputChannels, newOutputChannels := r.2 }, r.1)

/-- Method `BundlePort::buildOutputSignals` (lines 192-227). -/
def BundlePort.buildOutputSignals (self : BundlePort) (converter : PortConverterImpl) :
    Option (BundlePort × PortConverterImpl) :=
  (castChannelBundleType self.origPort.type).bind fun bundleType =>
  let st := channelLoop self.origPort ChannelDirection.from bundleType.getChannels
    { converter := converter, newInputChannels := self.newInputChannels,
      newInputValues := [], outputChannels := [] }
  -- `UnpackBundleOp unpack; if (body) unpack = ...`
  (match st.converter.body with
    | Option.none => some (Option.none, st.converter)
    | some body =>
      (body.terminator.getOperand self.origPort.argNum).bind fun bundle =>
      (UnpackBundleOp.create body InsertPoint.blockTerminator bundle
        st.newInputValues).bind fun r =>
      some (some r.1, { st.converter with body := some r.2 })
    ).bind fun (uc : Option Operation × PortConverterImpl) =>
  (createOutputsLoop self.origPort BundledChannel.type
      (uc.1.map UnpackBundleOp.getToChannels) 0 st.outputChannels
      (uc.2, resizePorts self.newOutputChannels st.outputChannels.length)).bind fun r =>
  some ({ self with newInputChannels := st.newInputChannels, newOutputChannels := r.2 }, r.1)

/-- Method `ArrayBundlePort::buildInputSignals` (lines 274-308). -/
def ArrayBundlePort.buildInputSignals (self : ArrayBundlePort)
    (converter : PortConverterImpl) : Option (ArrayBundlePort × PortConverterImpl) :=
  (castChannelBundleType self.origPort.type).bind fun bundleType =>
  let st := channelLoop self.origPort ChannelDirection.to bundleType.getChannels
    { converter := converter, newInputChannels := self.newInputChannels,
      newInputValues := [], outputChannels := [] }
  (match st.converter.body with
    | Option.none => some (Option.none, st.converter)
    | some body =>
      let r := PackBundleOp.create body InsertPoint.blockBegin bundleType st.newInputValues
      (r.2.getArgument self.origPort.argNum).bind fun arg =>
      (PackBundleOp.getBundle r.1).bind fun bundle =>
      some (some r.1, { st.converter with body := some (r.2.replaceAllUsesWith arg bundle) })
    ).bind fun (pc : Option Operation × PortConverterImpl) =>
  (createOutputsLoop self.origPort BundledChannel.type
      (pc.1.map PackBundleOp.getFromChannels) 0 st.outputChannels
      (pc.2, resizePorts self.newOutputChannels st.outputChannels.length)).bind fun r =>
  some ({ self with newInputChannels := st.newInputChannels, newOutputChannels := r.2 }, r.1)

/-- Statement `v[i].push_back(x)` on a vector of vectors: `i` must be in range. -/
def pushBackAt (v : List (List Value)) (i : Nat) (x : Value) : Option (List (List Value)) :=
  v[i]?.map (fun row => v.set i (row ++ [x]))

/-- One iteration of the loop over `bundleNum` at lines 349-353: read element
`bundleNum` of the new array input and append it to `fromChannels[bundleNum]`. -/
def arrayGetStep (arrayOfChannels : Value) (st : Block × List (List Value))
    (bundleNum : Nat) : Option (Block × List (List Value)) :=
  (ArrayGetOp.create st.1 InsertPoint.blockTerminator arrayOfChannels bundleNum).bind fun r =>
  (r.1.getResult 0).bind fun channel =>
  (pushBackAt st.2 bundleNum channel).bind fun fromChannels =>
  some (r.2, fromChannels)

/-- One iteration of the loop over `fromChannelTypes` at lines 341-354: a new
input of type array of `numBundles` channels, and, with a body, the loop over
`bundleNum`. -/
def fromChannelStep (origPort : PortInfo) (numBundles : Nat)
    (st : PortConverterImpl × List (List Value)) (ch : BundledChannel) :
    Option (PortConverterImpl × List (List Value)) :=
  let chanArrayTy := ArrayType.get ch.type numBundles
  let r := st.1.createNewInput origPort ("_" ++ ch.name) chanArrayTy
  match r.2.2.body with
  | Option.none => some (r.2.2, st.2)
  | some body =>
    ((List.range numBundles).foldlM (arrayGetStep r.1) (body, st.2)).bind fun s =>
    some ({ r.2.2 with body := some s.1 }, s.2)

/-- The loop `for (auto [idx, toChannel] : llvm::enumerate(...))` at lines
373-374, from index `idx` on: `toChannels[idx].push_back(toChannel)`. -/
def pushToChannels : Nat → List Value → List (List Value) → Option (List (List Value))
  | _, [], toChannels => some toChannels
  | idx, toChannel :: rest, toChannels =>
    (pushBackAt toChannels idx toChannel).bind (pushToChannels (idx + 1) rest)

/-- One iteration of the loop over `bundleNum` at lines 368-375: read bundle
`bundleNum` of the original array, unpack it with `fromChannels[bundleNum]`
and distribute the results over `toChannels`. -/
def unpackStep (origBundleArray : Value) (fromChannels : List (List Value))
    (st : Block × List (List Value)) (bundleNum : Nat) :
    Option (Block × List (List Value)) :=
  (ArrayGetOp.create st.1 InsertPoint.blockTerminator origBundleArray bundleNum).bind fun g =>
  (g.1.getResult 0).bind fun bundle =>
  (fromChannels[bundleNum]?).bind fun channels =>
  (UnpackBundleOp.create g.2 InsertPoint.blockTerminator bundle channels).bind fun u =>
  (pushToChannels 0 (UnpackBundleOp.getToChannels u.1) st.2).bind fun toChannels =>
  some (u.2, toChannels)

/-- One iteration of the loop over `toChannels` at lines 377-381: build the
array of one channel and append it to `outputChannelArrays`. -/
def arrayCreateStep (st : Block × List Value) (channelArrayList : List Value) :
    Option (Block × List Value) :=
  let r := ArrayCreateOp.create st.1 InsertPoint.blockTerminator channelArrayList
  (r.1.getResult 0).bind fun v => some (r.2, st.2 ++ [v])

/-- Method `ArrayBundlePort::buildOutputSignals` (lines 315-392). The new
input ports are not recorded in `newInputChannels`. -/
def ArrayBundlePort.buildOutputSignals (self : ArrayBundlePort)
    (converter : PortConverterImpl) : Option (ArrayBundlePort × PortConverterImpl) :=
  (castArrayType self.origPort.type).bind fun arrayType =>
  (castChannelBundleType arrayType.getElementType).bind fun bundleType =>
  let numBundles := arrayType.getNumElements
  let toChannelTypes :=
    bundleType.getChannels.filter (fun ch => ch.direction = ChannelDirection.to)
  let fromChannelTypes :=
    bundleType.getChannels.filter (fun ch => ch.direction = ChannelDirection.from)
  -- Construct the new input channels
  (fromChannelTypes.foldlM (fromChannelStep self.origPort numBundles)
      (converter, List.replicate numBundles [])).bind fun s1 =>
  -- Unpack the channels
  (match s1.1.body with
    | Option.none => some (s1.1, Option.none)
    | some body =>
      (body.terminator.getOperand self.origPort.argNum).bind fun origBundleArray =>
      ((List.range numBundles).foldlM (unpackStep origBundleArray s1.2)
          (body, List.replicate toChannelTypes.length [])).bind fun s2 =>
      (s2.2.foldlM arrayCreateStep (s2.1, [])).bind fun s3 =>
      some ({ s1.1 with body := some s3.1 }, some s3.2)
    ).bind fun (ca : PortConverterImpl × Option (List Value)) =>
  -- Build new ports
  (createOutputsLoop self.origPort (fun ch => ArrayType.get ch.type numBundles)
      ca.2 0 toChannelTypes
      (ca.1, resizePorts self.newOutputChannels toChannelTypes.length)).bind fun r =>
  some ({ self with newOutputChannels := r.2 }, r.1)

/-! ## `BundlePort` and `ArrayBundlePort`: the instance side -/

/-- An `OpBuilder`: the block it inserts into and its insertion point. -/
structure OpBuilder where
  block : Block
  point : InsertPoint
  deriving DecidableEq

/-- The range `map_range(ports, [&](PortInfo port) { return newResults[port.argNum]; })`
collected in a vector (lines 115-118, 136-139, 235-238, 256-259). -/
def gatherResults (newResults : List Value) : List PortInfo → Option (List Value)
  | [] => some []
  | port :: rest =>
    (newResults[port.argNum]?).bind fun v =>
    (gatherResults newResults rest).map (fun vs => v :: vs)

/-- The loop `for (auto [idx, inPort] : llvm::enumerate(newInputChannels))
newOperands[inPort.argNum] = results[idx]` (lines 126-127, 146-147, 246-247,
266-267), from index `idx` on. -/
def connectInputs (results : List Value) :
    Nat → List PortInfo → List Value → Option (List Value)
  | _, [], newOperands => some newOperands
  | idx, inPort :: rest, newOperands =>
    (results[idx]?).bind fun v =>
    (assignAt newOperands inPort.argNum v).bind (connectInputs results (idx + 1) rest)

/-- Method `BundlePort::mapInputSignals` (lines 111-128). Returns the block
after the insertion and the new `newOperands`. `toChannelTypes` is computed in
the source but never read. -/
def BundlePort.mapInputSignals (self : BundlePort) (b : OpBuilder) (inst : Operation)
    (newOperands : List Value) (newResults : List Value) : Option (Block × List Value) :=
  (gatherResults newResults self.newOutputChannels).bind fun fromChannels =>
  (inst.getOperand self.origPort.argNum).bind fun bundle =>
  (UnpackBundleOp.create b.block b.point bundle fromChannels).bind fun unpack =>
  (connectInputs unpack.1.getResults 0 self.newInputChannels newOperands).bind fun ops =>
  some (unpack.2, ops)

/-- Method `BundlePort::mapOutputSignals` (lines 132-150). Returns the block
after the insertion and the replacement of uses, and the new `newOperands`.
`fromChannelTypes` is computed in the source but never read. -/
def BundlePort.mapOutputSignals (self : BundlePort) (b : OpBuilder) (inst : Operation)
    (newOperands : List Value) (newResults : List Value) : Option (Block × List Value) :=
  (gatherResults newResults self.newOutputChannels).bind fun toChannels =>
  (castChannelBundleType self.origPort.type).bind fun bundleType =>
  let pack := PackBundleOp.create b.block b.point bundleType toChannels
  (connectInputs (PackBundleOp.getFromChannels pack.1) 0 self.newInputChannels
      newOperands).bind fun ops =>
  (inst.getResult self.origPort.argNum).bind fun old =>
  (PackBundleOp.getBundle pack.1).bind fun bundle =>
  some (pack.2.replaceAllUsesWith old bundle, ops)

/-- Method `ArrayBundlePort::mapInputSignals` (lines 231-248). -/
def ArrayBundlePort.mapInputSignals (self : ArrayBundlePort) (b : OpBuilder)
    (inst : Operation) (newOperands : List Value) (newResults : List Value) :
    Option (Block × List Value) :=
  (gatherResults newResults self.newOutputChannels).bind fun fromChannels =>
  (inst.getOperand self.origPort.argNum).bind fun bundle =>
  (UnpackBundleOp.create b.block b.point bundle fromChannels).bind fun unpack =>
  (connectInputs unpack.1.getResults 0 self.newInputChannels newOperands).bind fun ops =>
  some (unpack.2, ops)

/-- Method `ArrayBundlePort::mapOutputSignals` (lines 252-270). -/
def ArrayBundlePort.mapOutputSignals (self : ArrayBundlePort) (b : OpBuilder)
    (inst : Operation) (newOperands : List Value) (newResults : List Value) :
    Option (Block × List Value) :=
  (gatherResults newResults self.newOutputChannels).bind fun toChannels =>
  (castChannelBundleType self.origPort.type).bind fun bundleType =>
  let pack := PackBundleOp.create b.block b.point bundleType toChannels
  (connectInputs (PackBundleOp.getFromChannels pack.1) 0 self.newInputChannels
      newOperands).bind fun ops =>
  (inst.getResult self.origPort.argNum).bind fun old =>
  (PackBundleOp.getBundle pack.1).bind fun bundle =>
  some (pack.2.replaceAllUsesWith old bundle, ops)

/-! ## The selector -/

/-- What `ESIBundleConversionBuilder::build` hands back: a `BundlePort`, an
`ArrayBundlePort`, or whatever the base class `PortConversionBuilder::build`
produced (of a type `α` left open). -/
inductive PortConversion (α : Type)
  | bundlePort (p : BundlePort)
  | arrayBundlePort (p : ArrayBundlePort)
  | base (x : α)

/-- Method `ESIBundleConversionBuilder::build` (lines 91-105). `baseBuild` is
`PortConversionBuilder::build`, the default handler of the framework; `none`
is the failure of `FailureOr`. -/
def ESIBundleConversionBuilder.build {α : Type} (baseBuild : PortInfo → Option α)
    (port : PortInfo) : Option (PortConversion α) :=
  match port.type with
  | Ty.bundle _ => some (PortConversion.bundlePort (BundlePort.new port))
  | Ty.array elementType _ =>
    if isaChannelBundleType elementType then
      some (PortConversion.arrayBundlePort (ArrayBundlePort.new port))
    else (baseBuild port).map PortConversion.base
  | _ => (baseBuild port).map PortConversion.base

/-! ## The pass -/

/-- An operation at the top level of the design: its symbol name, whether it
implements `HWMutableModuleLike`, and its body (absent for a declaration). -/
structure TopLevelOp where
  name : String
  isMutableModule : Bool
  body : Option Block
  deriving DecidableEq

/-- The design the pass runs on (`mlir::ModuleOp`). -/
structure ModuleOp where
  ops : List TopLevelOp
  deriving DecidableEq

/-- The `PackBundleOp`s of a block (regions nested in operations are not
represented). -/
def Block.packOps (b : Block) : List Operation :=
  (b.ops ++ [b.terminator]).filter (fun op => op.kind = OpKind.pack)

/-- The `PackBundleOp`s that `top.walk` visits, in walk order. -/
def ModuleOp.packOps (top : ModuleOp) : List Operation :=
  top.ops.flatMap (fun m => match m.body with
    | Option.none => []
    | some b => b.packOps)

/-- The calls the pass makes to the code around it, in the order made. -/
inductive Call
  | portConverter (moduleName : String)
  | applyPatterns
  | walk
  deriving DecidableEq

/-- What a run of the pass leaves behind: the design, whether
`signalPassFailure` was called, the operations `emitError` was called on, and
the calls made. -/
structure PassResult where
  top : ModuleOp
  failed : Bool
  diagnostics : List Operation
  calls : List Call
  deriving DecidableEq

/-- The loop over `top.getOps<HWMutableModuleLike>()` (lines 410-414).
`run top name` stands for `PortConverter<ESIBundleConversionBuilder>(instanceGraph,
mod).run()` on the module called `name`: it gives `true` for success and the
design as it leaves it. The loop stops at the first failure. -/
def convertModules (run : ModuleOp → String → Bool × ModuleOp) :
    List String → ModuleOp × List Call → Bool × ModuleOp × List Call
  | [], st => (true, st)
  | name :: rest, st =>
    let r := run st.1 name
    if r.1 then convertModules run rest (r.2, st.2 ++ [Call.portConverter name])
    else (false, r.2, st.2 ++ [Call.portConverter name])

/-- Method `ESIBundlesPass::runOnOperation` (lines 403-429). `run` is the port
converter of the framework and `applyPatterns` is `applyPatternsAndFoldGreedily`
with the canonicalization patterns of Pack and Unpack; each gives `true` for
success and the design as it leaves it. -/
def ESIBundlesPass.runOnOperation (run : ModuleOp → String → Bool × ModuleOp)
    (applyPatterns : ModuleOp → Bool × ModuleOp) (top : ModuleOp) : PassResult :=
  let mods := (top.ops.filter (fun m => m.isMutableModule)).map (fun m => m.name)
  let r := convertModules run mods (top, [])
  if r.1 then
    let c := applyPatterns r.2.1
    -- `if (failed(applyPatternsAndFoldGreedily(...))) signalPassFailure();`
    let afterCleanup : PassResult :=
      { top := c.2, failed := !c.1, diagnostics := [],
        calls := r.2.2 ++ [Call.applyPatterns, Call.walk] }
    -- `top.walk([&](PackBundleOp pack) { pack.emitError(...); signalPassFailure(); });`
    c.2.packOps.foldl
      (fun st pack => { st with diagnostics := st.diagnostics ++ [pack], failed := true })
      afterCleanup
  else
    { top := r.2.1, failed := true, diagnostics := [], calls := r.2.2 }

/-! ## Vocabulary of the statements -/

/-- The port `origPort` is an input of the module being converted: with a
body, the block has an argument at the port's index. -/
def isInputOf (origPort : PortInfo) (c : PortConverterImpl) : Prop :=
  match c.body with
  | Option.none => True
  | some b => origPort.argNum < b.arguments.length

/-- The port `origPort` is an output of the module being converted: with a
body, the terminator has an operand at the port's index, of the port's type. -/
def isOutputOf (origPort : PortInfo) (c : PortConverterImpl) : Prop :=
  match c.body with
  | Option.none => True
  | some b => b.terminator.operands[origPort.argNum]?.map Value.getType = some origPort.type

/-- The record of a new input created for channel `ch`. -/
def declaredInput (origPort : PortInfo) (portType : BundledChannel → Ty) (argNum : Nat)
    (blockArg : Option Nat) (ch : BundledChannel) : NewPort :=
  { origPort := origPort, suffix := "_" ++ ch.name,
    info := { name := origPort.name ++ ("_" ++ ch.name), type := portType ch,
              dir := Direction.Input, argNum := argNum },
    value := match blockArg with
      | Option.none => Value.null
      | some a => Value.blockArgument a (portType ch) }

/-- The records of the new inputs created for the channels `chs`, the first
one at position `argNum` and, with a body, as block argument `blockArg`. -/
def declaredInputs (origPort : PortInfo) (portType : BundledChannel → Ty) :
    Nat → Option Nat → List BundledChannel → List NewPort
  | _, _, [] => []
  | argNum, blockArg, ch :: rest =>
    declaredInput origPort portType argNum blockArg ch ::
      declaredInputs origPort portType (argNum + 1) (blockArg.map (· + 1)) rest

/-- The value wired to the output created at index `idx`. -/
def wiredValue (results : Option (List Value)) (idx : Nat) : Value :=
  match results with
  | Option.none => Value.null
  | some rs => rs.getD idx Value.null

/-- The record of a new output created for channel `ch`. -/
def declaredOutput (origPort : PortInfo) (portType : BundledChannel → Ty) (argNum : Nat)
    (output : Value) (ch : BundledChannel) : NewPort :=
  { origPort := origPort, suffix := "_" ++ ch.name,
    info := { name := origPort.name ++ ("_" ++ ch.name), type := portType ch,
              dir := Direction.Output, argNum := argNum },
    value := output }

/-- The records of the new outputs created for the channels `chs`, the first
one at position `argNum` and wired to the value at index `idx`. -/
def declaredOutputs (origPort : PortInfo) (portType : BundledChannel → Ty)
    (results : Option (List Value)) : Nat → Nat → List BundledChannel → List NewPort
  | _, _, [] => []
  | argNum, idx, ch :: rest =>
    declaredOutput origPort portType argNum (wiredValue results idx) ch ::
      declaredOutputs origPort portType results (argNum + 1) (idx + 1) rest

/-- The Pack that `buildInputSignals` creates in a body `b`. -/
def inputPack (b : Block) (chs : List BundledChannel) (operands : List Value) : Operation :=
  { id := b.nextOp, kind := OpKind.pack, operands := operands,
    resultTypes := PackBundleOp.resultTypes ⟨chs⟩ }

/-- The Unpack that `buildOutputSignals` creates in a body `b`. -/
def outputUnpack (b : Block) (chs : List BundledChannel) (operands : List Value) : Operation :=
  { id := b.nextOp, kind := OpKind.unpack, operands := operands,
    resultTypes := UnpackBundleOp.resultTypes ⟨chs⟩ }

instance (origPort : PortInfo) (c : PortConverterImpl) : Decidable (isInputOf origPort c) := by
  unfold isInputOf
  split <;> infer_instance

instance (origPort : PortInfo) (c : PortConverterImpl) : Decidable (isOutputOf origPort c) := by
  unfold isOutputOf
  split <;> infer_instance

/-- Modelled from the spec: the cancellation rule of Pack and Unpack belongs to
the ESI dialect, outside this file (section 6: both operations support a
canonicalization rule that eliminates a Pack/Unpack pair when one directly
produces the other's sole input; section 4.4, step 4). Read for a Pack fed by
an Unpack: when the operands of the Pack are, in order, all the results of the
Unpack, and the channel operands of the Unpack are, in order, all the
from-channel results of the Pack, the pair cancels and the bundle of the Pack
is the bundle the Unpack consumes. -/
def cancelPackOfUnpack (pack unpack : Operation) : Option Value :=
  if pack.kind = OpKind.pack ∧ unpack.kind = OpKind.unpack ∧
      pack.operands = UnpackBundleOp.getToChannels unpack ∧
      UnpackBundleOp.getFromChannels unpack = PackBundleOp.getFromChannels pack then
    UnpackBundleOp.getBundle unpack
  else Option.none

/-- The value that stands for `v` under the connections `pairs`: the second
component of the first pair whose first component is `v`, and `v` itself when
no pair names it. -/
def connectValue : List (Value × Value) → Value → Value
  | [], v => v
  | p :: rest, v => if v = p.1 then p.2 else connectValue rest v

/-- The operation `op` with every operand read through the connections. -/
def Operation.connectOperands (pairs : List (Value × Value)) (op : Operation) : Operation :=
  { op with operands := op.operands.map (connectValue pairs) }

/-- Modelled from the spec: what an instance connects on the input side
(section 3, an Instance has one operand per input port, positionally aligned
with the target's ports). Inside the body the value of the new input port `p`
stands for the operand the instance passes at position `p.info.argNum`. -/
def inputConnections (ins : List NewPort) (newOperands : List Value) : List (Value × Value) :=
  ins.map (fun p => (p.value, newOperands.getD p.info.argNum Value.null))

/-- Modelled from the spec: what an instance connects on the output side
(section 3, an Instance has one result per output port, positionally aligned
with the target's ports). At the instance the result at position
`q.info.argNum` stands for the value the body wires to the new output port
`q`. -/
def outputConnections (outs : List NewPort) (newResults : List Value) : List (Value × Value) :=
  outs.map (fun q => (newResults.getD q.info.argNum Value.null, q.value))

/-- The array accesses created on the array value `a` with elements of type
`e`, one per index in the list, the first with identity `n`. -/
def getOps (a : Value) (e : Ty) : Nat → List Nat → List Operation
  | _, [] => []
  | n, j :: rest =>
    { id := n, kind := OpKind.arrayGet j, operands := [a], resultTypes := [e] } ::
      getOps a e (n + 1) rest

/-- The results of those array accesses that read index `j`. -/
def getVals (e : Ty) (j : Nat) : Nat → List Nat → List Value
  | _, [] => []
  | n, k :: rest =>
    (if k = j then [Value.opResult n 0 e] else []) ++ getVals e j (n + 1) rest

/-- The array accesses created for the `from` channels `chs` of an array of
`numBundles` bundles: for each channel, one access per bundle to the new input
of the channel (block argument `a`, then `a + 1`, ...), identities from `n`. -/
def fromGets (numBundles : Nat) : Nat → Nat → List BundledChannel → List Operation
  | _, _, [] => []
  | n, a, ch :: rest =>
    getOps (Value.blockArgument a (ArrayType.get ch.type numBundles)) ch.type n
        (List.range numBundles) ++
      fromGets numBundles (n + numBundles) (a + 1) rest

/-- The values gathered in `fromChannels[j]`: for each `from` channel, the
result of the access to element `j` of its new input. -/
def fromRow (numBundles j : Nat) : Nat → List BundledChannel → List Value
  | _, [] => []
  | n, ch :: rest => Value.opResult (n + j) 0 ch.type :: fromRow numBundles j (n + numBundles) rest

/-- The operations created by the loop that unpacks the bundles: for each
index `j` in the list, the access to element `j` of the original array `v` and
the Unpack of that element with `fromChannels[j]`, identities from `n`. -/
def unpackOps (v : Value) (chs : List BundledChannel) (fromChannels : List (List Value)) :
    Nat → List Nat → List Operation
  | _, [] => []
  | n, j :: rest =>
    { id := n, kind := OpKind.arrayGet j, operands := [v], resultTypes := [Ty.bundle chs] } ::
    { id := n + 1, kind := OpKind.unpack,
      operands := Value.opResult n 0 (Ty.bundle chs) :: fromChannels.getD j [],
      resultTypes := UnpackBundleOp.resultTypes ⟨chs⟩ } ::
      unpackOps v chs fromChannels (n + 2) rest

/-- The Unpacks among those operations. -/
def unpacksOf (chs : List BundledChannel) (fromChannels : List (List Value)) :
    Nat → List Nat → List Operation
  | _, [] => []
  | n, j :: rest =>
    { id := n + 1, kind := OpKind.unpack,
      operands := Value.opResult n 0 (Ty.bundle chs) :: fromChannels.getD j [],
      resultTypes := UnpackBundleOp.resultTypes ⟨chs⟩ } ::
      unpacksOf chs fromChannels (n + 2) rest

/-- The values gathered in `toChannels[i]`: result `i`, of type `ty`, of each
Unpack. -/
def toColumn (i : Nat) (ty : Ty) : Nat → List Nat → List Value
  | _, [] => []
  | n, _ :: rest => Value.opResult (n + 1) i ty :: toColumn i ty (n + 2) rest

/-- The array constructions created for the rows of `toChannels`, identities
from `n`. -/
def createOps : Nat → List (List Value) → List Operation
  | _, [] => []
  | n, row :: rest =>
    { id := n, kind := OpKind.arrayCreate, operands := row,
      resultTypes := [ArrayType.get ((row.head?.map Value.getType).getD Ty.none) row.length] } ::
      createOps (n + 1) rest

/-- The results of those array constructions. -/
def createVals : Nat → List (List Value) → List Value
  | _, [] => []
  | n, row :: rest =>
    Value.opResult n 0 (ArrayType.get ((row.head?.map Value.getType).getD Ty.none) row.length) ::
      createVals (n + 1) rest

/-! ## Concrete designs -/

/-- The bundle of Scenario A: `to req : channel<i1>`, `from resp : channel<i8>`. -/
def exampleChannels : List BundledChannel :=
  [BundledChannel.mk "req" ChannelDirection.to (Ty.channel (Ty.integer 1)),
   BundledChannel.mk "resp" ChannelDirection.from (Ty.channel (Ty.integer 8))]

/-- A port `x` of that bundle type, at index 0. -/
def examplePort : PortInfo :=
  { name := "x", type := Ty.bundle exampleChannels, dir := Direction.Input, argNum := 0 }

/-- A body whose argument 0 is the bundle, used by one operation and by the
terminator. -/
def exampleBody : Block :=
  { arguments := [Ty.bundle exampleChannels],
    ops := [{ id := 7, kind := OpKind.other "use",
              operands := [Value.blockArgument 0 (Ty.bundle exampleChannels)],
              resultTypes := [] }],
    terminator := { id := 8, kind := OpKind.output,
                    operands := [Value.blockArgument 0 (Ty.bundle exampleChannels)],
                    resultTypes := [] },
    nextOp := 9 }

/-- A converter on a module with that body and no new port yet. -/
def exampleConverter : PortConverterImpl :=
  { body := some exampleBody, newInputs := [], newOutputs := [] }

/-- A port `y` of type array of 2 such bundles, at index 0. -/
def exampleArrayPort : PortInfo :=
  { name := "y", type := Ty.array (Ty.bundle exampleChannels) 2, dir := Direction.Output,
    argNum := 0 }

/-- A body whose terminator returns an array of 2 bundles made by operation 7. -/
def exampleArrayBody : Block :=
  { arguments := [],
    ops := [{ id := 7, kind := OpKind.other "make", operands := [],
              resultTypes := [Ty.array (Ty.bundle exampleChannels) 2] }],
    terminator := { id := 8, kind := OpKind.output,
                    operands := [Value.opResult 7 0 (Ty.array (Ty.bundle exampleChannels) 2)],
                    resultTypes := [] },
    nextOp := 9 }

/-- A converter on a module with that body and no new port yet. -/
def exampleArrayConverter : PortConverterImpl :=
  { body := some exampleArrayBody, newInputs := [], newOutputs := [] }

/-- The bundle value `V` that drives the instance: result 0 of operation 19. -/
def exampleBundleValue : Value :=
  Value.opResult 19 0 (Ty.bundle exampleChannels)

/-- An instance (operation 20) of the module with input port `x`, driven by `V`. -/
def exampleInstance : Operation :=
  { id := 20, kind := OpKind.inst "M", operands := [exampleBundleValue], resultTypes := [] }

/-- A builder placed before that instance, in a block that also holds the
producer of `V`. -/
def exampleBuilder : OpBuilder :=
  { block := { arguments := [],
               ops := [{ id := 19, kind := OpKind.other "make", operands := [],
                         resultTypes := [Ty.bundle exampleChannels] },
                       exampleInstance],
               terminator := { id := 21, kind := OpKind.output, operands := [],
                               resultTypes := [] },
               nextOp := 22 },
    point := InsertPoint.beforeOp 20 }

/-- An instance (operation 20) of the module with output port `x`. -/
def exampleOutInstance : Operation :=
  { id := 20, kind := OpKind.inst "M", operands := [],
    resultTypes := [Ty.bundle exampleChannels] }

/-- A builder placed before that instance, in a block where operation 21 and
the terminator use the bundle the instance returns. -/
def exampleOutBuilder : OpBuilder :=
  { block := { arguments := [],
               ops := [exampleOutInstance,
                       { id := 21, kind := OpKind.other "use",
                         operands := [Value.opResult 20 0 (Ty.bundle exampleChannels)],
                         resultTypes := [] }],
               terminator := { id := 22, kind := OpKind.output,
                               operands := [Value.opResult 20 0 (Ty.bundle exampleChannels)],
                               resultTypes := [] },
               nextOp := 23 },
    point := InsertPoint.beforeOp 20 }

/-- A design with three modules `A`, `B`, `C` without bodies and an operation
`D` that is not a module. -/
def exampleDesign : ModuleOp :=
  { ops := [{ name := "A", isMutableModule := true, body := Option.none },
            { name := "B", isMutableModule := true, body := Option.none },
            { name := "D", isMutableModule := false, body := Option.none },
            { name := "C", isMutableModule := true, body := Option.none }] }

/-- A port converter that fails on module `B` and leaves the design as it is. -/
def exampleRun (top : ModuleOp) (name : String) : Bool × ModuleOp :=
  (name != "B", top)

/-- A port converter that always succeeds and leaves the design as it is. -/
def exampleRunOk (top : ModuleOp) (_name : String) : Bool × ModuleOp :=
  (true, top)

/-- A cleanup that succeeds and leaves the design as it is. -/
def exampleCleanup (top : ModuleOp) : Bool × ModuleOp :=
  (true, top)

/-- A converter on a module without a body and no new port yet. -/
def exampleExternConverter : PortConverterImpl :=
  { body := Option.none, newInputs := [], newOutputs := [] }

/-- An input port `z` of type array of 2 bundles of Scenario A, at index 0. -/
def exampleArrayInPort : PortInfo :=
  { name := "z", type := Ty.array (Ty.bundle exampleChannels) 2, dir := Direction.Input,
    argNum := 0 }

/-- A body whose argument 0 is an array of 2 bundles, used by one operation. -/
def exampleArrayInBody : Block :=
  { arguments := [Ty.array (Ty.bundle exampleChannels) 2],
    ops := [{ id := 7, kind := OpKind.other "use",
              operands := [Value.blockArgument 0 (Ty.array (Ty.bundle exampleChannels) 2)],
              resultTypes := [] }],
    terminator := { id := 8, kind := OpKind.output, operands := [], resultTypes := [] },
    nextOp := 9 }

/-- A converter on a module with that body and no new port yet. -/
def exampleArrayInConverter : PortConverterImpl :=
  { body := some exampleArrayInBody, newInputs := [], newOutputs := [] }

/-- An input port `z` of type array of 0 bundles of Scenario A, at index 0. -/
def exampleEmptyArrayInPort : PortInfo :=
  { name := "z", type := Ty.array (Ty.bundle exampleChannels) 0, dir := Direction.Input,
    argNum := 0 }

/-- A converter on a module whose body has that empty array as argument 0. -/
def exampleEmptyArrayInConverter : PortConverterImpl :=
  { body := some { arguments := [Ty.array (Ty.bundle exampleChannels) 0], ops := [],
                   terminator := { id := 8, kind := OpKind.output, operands := [],
                                   resultTypes := [] },
                   nextOp := 9 },
    newInputs := [], newOutputs := [] }

/-- An instance (operation 20) of the module with the array output port `y`. -/
def exampleArrayOutInstance : Operation :=
  { id := 20, kind := OpKind.inst "M", operands := [],
    resultTypes := [Ty.array (Ty.bundle exampleChannels) 2] }

/-- A builder placed before that instance, in a block whose terminator uses the
array the instance returns. -/
def exampleArrayOutBuilder : OpBuilder :=
  { block := { arguments := [],
               ops := [exampleArrayOutInstance],
               terminator := { id := 21, kind := OpKind.output,
                               operands := [Value.opResult 20 0
                                 (Ty.array (Ty.bundle exampleChannels) 2)],
                               resultTypes := [] },
               nextOp := 22 },
    point := InsertPoint.beforeOp 20 }

/-- An instance (operation 20) of the module with the array input port `z`,
driven by result 0 of operation 19. -/
def exampleArrayInInstance : Operation :=
  { id := 20, kind := OpKind.inst "M",
    operands := [Value.opResult 19 0 (Ty.array (Ty.bundle exampleChannels) 2)],
    resultTypes := [] }

/-- A builder placed before that instance, in a block that also holds the
producer of its operand. -/
def exampleArrayInBuilder : OpBuilder :=
  { block := { arguments := [],
               ops := [{ id := 19, kind := OpKind.other "make", operands := [],
                         resultTypes := [Ty.array (Ty.bundle exampleChannels) 2] },
                       exampleArrayInInstance],
               terminator := { id := 21, kind := OpKind.output, operands := [],
                               resultTypes := [] },
               nextOp := 22 },
    point := InsertPoint.beforeOp 20 }

/-- A design whose module `A` holds one Unpack (operation 5) and no Pack. -/
def exampleUnpackDesign : ModuleOp :=
  { ops := [{ name := "A", isMutableModule := true,
              body := some
                { arguments := [Ty.bundle exampleChannels, Ty.channel (Ty.integer 8)],
                  ops := [{ id := 5, kind := OpKind.unpack,
                            operands := [Value.blockArgument 0 (Ty.bundle exampleChannels),
                                         Value.blockArgument 1 (Ty.channel (Ty.integer 8))],
                            resultTypes := [Ty.channel (Ty.integer 1)] }],
                  terminator := { id := 6, kind := OpKind.output,
                                  operands := [Value.opResult 5 0 (Ty.channel (Ty.integer 1))],
                                  resultTypes := [] },
                  nextOp := 7 } }] }

/-- A Pack (operation 5) of the bundle of Scenario A, fed by block argument 0. -/
def examplePack : Operation :=
  { id := 5, kind := OpKind.pack,
    operands := [Value.blockArgument 0 (Ty.channel (Ty.integer 1))],
    resultTypes := [Ty.bundle exampleChannels, Ty.channel (Ty.integer 8)] }

/-- A body that holds that Pack: operation 6 reads its bundle and the
terminator returns its from-channel result. -/
def examplePackBody : Block :=
  { arguments := [Ty.channel (Ty.integer 1)],
    ops := [examplePack,
            { id := 6, kind := OpKind.other "use",
              operands := [Value.opResult 5 0 (Ty.bundle exampleChannels)],
              resultTypes := [] }],
    terminator := { id := 7, kind := OpKind.output,
                    operands := [Value.opResult 5 1 (Ty.channel (Ty.integer 8))],
                    resultTypes := [] },
    nextOp := 8 }

/-- A design whose module `A` has that body. -/
def examplePackDesign : ModuleOp :=
  { ops := [{ name := "A", isMutableModule := true, body := some examplePackBody }] }

/-- A cleanup that reports failure and leaves the design as it is. -/
def exampleCleanupFails (top : ModuleOp) : Bool × ModuleOp :=
  (false, top)

/-- An output port `w` of type array of 1 bundle of Scenario A, at index 0. -/
def exampleSingletonPort : PortInfo :=
  { name := "w", type := Ty.array (Ty.bundle exampleChannels) 1, dir := Direction.Output,
    argNum := 0 }

/-- A converter on a module whose terminator returns an array of 1 bundle made
by operation 7. -/
def exampleSingletonConverter : PortConverterImpl :=
  { body := some
      { arguments := [],
        ops := [{ id := 7, kind := OpKind.other "make", operands := [],
                  resultTypes := [Ty.array (Ty.bundle exampleChannels) 1] }],
        terminator := { id := 8, kind := OpKind.output,
                        operands := [Value.opResult 7 0 (Ty.array (Ty.bundle exampleChannels) 1)],
                        resultTypes := [] },
        nextOp := 9 },
    newInputs := [], newOutputs := [] }

/-! ## Lemmas on the loops and the build methods -/

theorem declaredInputs_length (origPort : PortInfo) (portType : BundledChannel → Ty)
    (chs : List BundledChannel) : ∀ (n : Nat) (a : Option Nat),
    (declaredInputs origPort portType n a chs).length = chs.length := by
  induction chs with
  | nil => intro n a; rfl
  | cons ch rest ih => intro n a; simp [declaredInputs, ih]

theorem channelStep_to (origPort : PortInfo) (dir : ChannelDirection) (st : InputLoopState)
    (ch : BundledChannel) (h : ch.direction = dir) :
    channelStep origPort dir st ch =
      { converter :=
          { body := st.converter.body.map (fun b => { b with arguments := b.arguments ++ [ch.type] }),
            newInputs := st.converter.newInputs ++
              [declaredInput origPort BundledChannel.type st.converter.newInputs.length
                (st.converter.body.map (fun b => b.arguments.length)) ch],
            newOutputs := st.converter.newOutputs },
        newInputChannels := st.newInputChannels ++
          [(declaredInput origPort BundledChannel.type st.converter.newInputs.length
                (st.converter.body.map (fun b => b.arguments.length)) ch).info],
        newInputValues := st.newInputValues ++
          [(declaredInput origPort BundledChannel.type st.converter.newInputs.length
                (st.converter.body.map (fun b => b.arguments.length)) ch).value],
        outputChannels := st.outputChannels } := by
  obtain ⟨c, nic, niv, oc⟩ := st
  obtain ⟨body, ni, no⟩ := c
  cases body <;>
    simp [channelStep, h, PortConverterImpl.createNewInput, declaredInput, Block.addArgument]

theorem channelLoop_spec (origPort : PortInfo) (dir : ChannelDirection)
    (chs : List BundledChannel) : ∀ st : InputLoopState,
    channelLoop origPort dir chs st =
      { converter :=
          { body := st.converter.body.map (fun b =>
              { b with arguments := b.arguments ++
                  (chs.filter (fun ch => ch.direction = dir)).map BundledChannel.type }),
            newInputs := st.converter.newInputs ++
              declaredInputs origPort BundledChannel.type st.converter.newInputs.length
                (st.converter.body.map (fun b => b.arguments.length))
                (chs.filter (fun ch => ch.direction = dir)),
            newOutputs := st.converter.newOutputs },
        newInputChannels := st.newInputChannels ++
          (declaredInputs origPort BundledChannel.type st.converter.newInputs.length
            (st.converter.body.map (fun b => b.arguments.length))
            (chs.filter (fun ch => ch.direction = dir))).map NewPort.info,
        newInputValues := st.newInputValues ++
          (declaredInputs origPort BundledChannel.type st.converter.newInputs.length
            (st.converter.body.map (fun b => b.arguments.length))
            (chs.filter (fun ch => ch.direction = dir))).map NewPort.value,
        outputChannels := st.outputChannels ++
          chs.filter (fun ch => ¬ ch.direction = dir) } := by
  induction chs with
  | nil =>
    intro st
    obtain ⟨c, nic, niv, oc⟩ := st
    obtain ⟨body, ni, no⟩ := c
    cases body <;> simp [channelLoop, declaredInputs]
  | cons ch rest ih =>
    intro st
    have hstep : channelLoop origPort dir (ch :: rest) st =
        channelLoop origPort dir rest (channelStep origPort dir st ch) := rfl
    rw [hstep, ih]
    by_cases h : ch.direction = dir
    · rw [channelStep_to origPort dir st ch h]
      obtain ⟨c, nic, niv, oc⟩ := st
      obtain ⟨body, ni, no⟩ := c
      cases body <;> simp [h, declaredInputs, List.filter_cons]
    · obtain ⟨c, nic, niv, oc⟩ := st
      obtain ⟨body, ni, no⟩ := c
      cases body <;> simp [channelStep, h, declaredInputs, List.filter_cons]

theorem declaredOutputs_length (origPort : PortInfo) (portType : BundledChannel → Ty)
    (results : Option (List Value)) (chs : List BundledChannel) : ∀ (n idx : Nat),
    (declaredOutputs origPort portType results n idx chs).length = chs.length := by
  induction chs with
  | nil => intro n a; rfl
  | cons ch rest ih => intro n a; simp [declaredOutputs, ih]

theorem take_set_succ {α : Type} (l : List α) (i : Nat) (x : α) (h : i < l.length) :
    (l.set i x).take (i + 1) = l.take i ++ [x] := by
  induction l generalizing i with
  | nil => simp at h
  | cons a t ih =>
    cases i with
    | zero => simp
    | succ j =>
      simp only [List.length_cons, Nat.add_lt_add_iff_right] at h
      simp [List.set, ih j h]

theorem drop_set_gt {α : Type} (l : List α) (i j : Nat) (x : α) (h : i < j) :
    (l.set i x).drop j = l.drop j := by
  induction l generalizing i j with
  | nil => simp
  | cons a t ih =>
    cases j with
    | zero => omega
    | succ k =>
      cases i with
      | zero => simp
      | succ m => simp [List.set, ih m k (by omega)]

theorem createOutputsLoop_spec (origPort : PortInfo) (portType : BundledChannel → Ty)
    (results : Option (List Value)) (chs : List BundledChannel) :
    ∀ (idx : Nat) (c : PortConverterImpl) (outs : List PortInfo),
    idx + chs.length ≤ outs.length →
    (∀ rs, results = some rs → idx + chs.length ≤ rs.length) →
    createOutputsLoop origPort portType results idx chs (c, outs) =
      some ({ c with newOutputs := c.newOutputs ++
                declaredOutputs origPort portType results c.newOutputs.length idx chs },
            outs.take idx ++
              (declaredOutputs origPort portType results c.newOutputs.length idx chs).map
                NewPort.info ++
              outs.drop (idx + chs.length)) := by
  induction chs with
  | nil =>
    intro idx c outs _ _
    simp [createOutputsLoop, declaredOutputs]
  | cons ch rest ih =>
    intro idx c outs hlen hres
    simp only [List.length_cons] at hlen hres
    have hv : outputValue results idx = some (wiredValue results idx) := by
      cases results with
      | none => rfl
      | some rs =>
        have := hres rs rfl
        have hlt : idx < rs.length := by omega
        simp [outputValue, wiredValue, List.getD, List.getElem?_eq_getElem hlt]
    have hidx : idx < outs.length := by omega
    simp only [createOutputsLoop, hv, Option.some_bind, assignAt, hidx, if_true]
    rw [ih (idx + 1) _ _ (by simp; omega) (by intro rs h; have := hres rs h; omega)]
    simp only [PortConverterImpl.createNewOutput, declaredOutputs, List.length_append,
      List.length_singleton, List.append_assoc, List.singleton_append, List.map_cons,
      List.cons_append]
    rw [take_set_succ outs idx _ hidx, drop_set_gt outs idx _ _ (by omega)]
    simp [declaredOutput, Nat.add_assoc, Nat.add_comm 1]

theorem filter_not_to (chs : List BundledChannel) :
    chs.filter (fun ch => ¬ ch.direction = ChannelDirection.to) =
      chs.filter (fun ch => ch.direction = ChannelDirection.from) := by
  apply List.filter_congr
  intro ch _
  cases h : ch.direction <;> simp

theorem filter_not_from (chs : List BundledChannel) :
    chs.filter (fun ch => ¬ ch.direction = ChannelDirection.from) =
      chs.filter (fun ch => ch.direction = ChannelDirection.to) := by
  apply List.filter_congr
  intro ch _
  cases h : ch.direction <;> simp

theorem getResults_length (op : Operation) : op.getResults.length = op.resultTypes.length := by
  simp [Operation.getResults]

theorem resizePorts_nil (n : Nat) : resizePorts [] n = List.replicate n PortInfo.default := by
  simp [resizePorts]

theorem buildInputSignals_noBody (origPort : PortInfo) (chs : List BundledChannel)
    (c : PortConverterImpl) (hty : origPort.type = Ty.bundle chs) (hb : c.body = Option.none) :
    (BundlePort.new origPort).buildInputSignals c =
      some
        ({ origPort := origPort,
           newInputChannels :=
             (declaredInputs origPort BundledChannel.type c.newInputs.length Option.none
               (chs.filter (fun ch => ch.direction = ChannelDirection.to))).map NewPort.info,
           newOutputChannels :=
             (declaredOutputs origPort BundledChannel.type Option.none c.newOutputs.length 0
               (chs.filter (fun ch => ch.direction = ChannelDirection.from))).map NewPort.info },
         { body := Option.none,
           newInputs := c.newInputs ++
             declaredInputs origPort BundledChannel.type c.newInputs.length Option.none
               (chs.filter (fun ch => ch.direction = ChannelDirection.to)),
           newOutputs := c.newOutputs ++
             declaredOutputs origPort BundledChannel.type Option.none c.newOutputs.length 0
               (chs.filter (fun ch => ch.direction = ChannelDirection.from)) }) := by
  simp only [BundlePort.buildInputSignals, BundlePort.new, hty, castChannelBundleType,
    Option.some_bind, ChannelBundleType.getChannels, channelLoop_spec, hb, Option.map_none',
    List.nil_append, resizePorts_nil, filter_not_to, Option.map_none]
  rw [createOutputsLoop_spec _ _ _ _ _ _ _ (by simp) (by intro rs h; cases h)]
  simp [declaredOutputs_length]

theorem buildInputSignals_body (origPort : PortInfo) (chs : List BundledChannel)
    (c : PortConverterImpl) (b : Block) (hty : origPort.type = Ty.bundle chs)
    (hb : c.body = some b) (targ : Ty) (harg : b.arguments[origPort.argNum]? = some targ) :
    (BundlePort.new origPort).buildInputSignals c =
      some
        ({ origPort := origPort,
           newInputChannels :=
             (declaredInputs origPort BundledChannel.type c.newInputs.length
               (some b.arguments.length)
               (chs.filter (fun ch => ch.direction = ChannelDirection.to))).map NewPort.info,
           newOutputChannels :=
             (declaredOutputs origPort BundledChannel.type
               (some (PackBundleOp.getFromChannels (inputPack b chs [])))
               c.newOutputs.length 0
               (chs.filter (fun ch => ch.direction = ChannelDirection.from))).map NewPort.info },
         { body := some
             (Block.replaceAllUsesWith
               { arguments := b.arguments ++
                   (chs.filter (fun ch => ch.direction = ChannelDirection.to)).map
                     BundledChannel.type,
                 ops := inputPack b chs
                   ((declaredInputs origPort BundledChannel.type c.newInputs.length
                     (some b.arguments.length)
                     (chs.filter (fun ch => ch.direction = ChannelDirection.to))).map
                       NewPort.value) :: b.ops,
                 terminator := b.terminator,
                 nextOp := b.nextOp + 1 }
               (Value.blockArgument origPort.argNum targ)
               (Value.opResult b.nextOp 0 (Ty.bundle chs))),
           newInputs := c.newInputs ++
             declaredInputs origPort BundledChannel.type c.newInputs.length
               (some b.arguments.length)
               (chs.filter (fun ch => ch.direction = ChannelDirection.to)),
           newOutputs := c.newOutputs ++
             declaredOutputs origPort BundledChannel.type
               (some (PackBundleOp.getFromChannels (inputPack b chs [])))
               c.newOutputs.length 0
               (chs.filter (fun ch => ch.direction = ChannelDirection.from)) }) := by
  have hlt : origPort.argNum < b.arguments.length := by
    by_contra hge
    rw [List.getElem?_eq_none (by omega)] at harg
    cases harg
  have hget : (b.arguments ++ (chs.filter (fun ch => ch.direction = ChannelDirection.to)).map
      BundledChannel.type)[origPort.argNum]? = some targ := by
    rw [List.getElem?_append_left hlt, harg]
  simp only [BundlePort.buildInputSignals, BundlePort.new, hty, castChannelBundleType,
    Option.some_bind, ChannelBundleType.getChannels, channelLoop_spec, hb, Option.map_some',
    List.nil_append, resizePorts_nil, filter_not_to, PackBundleOp.create, Block.create,
    Block.insert, Block.getArgument, hget, PackBundleOp.getBundle, Operation.getResult,
    Operation.getResults, PackBundleOp.resultTypes, List.enum_cons, List.map_cons,
    List.getElem?_cons_zero, ChannelBundleType.toTy, Option.map_some]
  rw [createOutputsLoop_spec _ _ _ _ _ _ _ (by simp) (by
    intro rs h
    cases h
    simp [PackBundleOp.getFromChannels, Operation.getResults, ChannelBundleType.getChannels])]
  simp [declaredOutputs_length, inputPack, PackBundleOp.getFromChannels, Operation.getResults,
    PackBundleOp.resultTypes, ChannelBundleType.toTy, ChannelBundleType.getChannels]

theorem buildOutputSignals_noBody (origPort : PortInfo) (chs : List BundledChannel)
    (c : PortConverterImpl) (hty : origPort.type = Ty.bundle chs) (hb : c.body = Option.none) :
    (BundlePort.new origPort).buildOutputSignals c =
      some
        ({ origPort := origPort,
           newInputChannels :=
             (declaredInputs origPort BundledChannel.type c.newInputs.length Option.none
               (chs.filter (fun ch => ch.direction = ChannelDirection.from))).map NewPort.info,
           newOutputChannels :=
             (declaredOutputs origPort BundledChannel.type Option.none c.newOutputs.length 0
               (chs.filter (fun ch => ch.direction = ChannelDirection.to))).map NewPort.info },
         { body := Option.none,
           newInputs := c.newInputs ++
             declaredInputs origPort BundledChannel.type c.newInputs.length Option.none
               (chs.filter (fun ch => ch.direction = ChannelDirection.from)),
           newOutputs := c.newOutputs ++
             declaredOutputs origPort BundledChannel.type Option.none c.newOutputs.length 0
               (chs.filter (fun ch => ch.direction = ChannelDirection.to)) }) := by
  simp only [BundlePort.buildOutputSignals, BundlePort.new, hty, castChannelBundleType,
    Option.some_bind, ChannelBundleType.getChannels, channelLoop_spec, hb, Option.map_none',
    List.nil_append, resizePorts_nil, filter_not_from, Option.map_none]
  rw [createOutputsLoop_spec _ _ _ _ _ _ _ (by simp) (by intro rs h; cases h)]
  simp [declaredOutputs_length]

theorem buildOutputSignals_body (origPort : PortInfo) (chs : List BundledChannel)
    (c : PortConverterImpl) (b : Block) (hty : origPort.type = Ty.bundle chs)
    (hb : c.body = some b) (v : Value) (hv : b.terminator.operands[origPort.argNum]? = some v)
    (hvt : v.getType = Ty.bundle chs) :
    (BundlePort.new origPort).buildOutputSignals c =
      some
        ({ origPort := origPort,
           newInputChannels :=
             (declaredInputs origPort BundledChannel.type c.newInputs.length
               (some b.arguments.length)
               (chs.filter (fun ch => ch.direction = ChannelDirection.from))).map NewPort.info,
           newOutputChannels :=
             (declaredOutputs origPort BundledChannel.type
               (some (UnpackBundleOp.getToChannels (outputUnpack b chs [])))
               c.newOutputs.length 0
               (chs.filter (fun ch => ch.direction = ChannelDirection.to))).map NewPort.info },
         { body := some
             { arguments := b.arguments ++
                 (chs.filter (fun ch => ch.direction = ChannelDirection.from)).map
                   BundledChannel.type,
               ops := b.ops ++ [outputUnpack b chs
                 (v :: (declaredInputs origPort BundledChannel.type c.newInputs.length
                   (some b.arguments.length)
                   (chs.filter (fun ch => ch.direction = ChannelDirection.from))).map
                     NewPort.value)],
               terminator := b.terminator,
               nextOp := b.nextOp + 1 },
           newInputs := c.newInputs ++
             declaredInputs origPort BundledChannel.type c.newInputs.length
               (some b.arguments.length)
               (chs.filter (fun ch => ch.direction = ChannelDirection.from)),
           newOutputs := c.newOutputs ++
             declaredOutputs origPort BundledChannel.type
               (some (UnpackBundleOp.getToChannels (outputUnpack b chs [])))
               c.newOutputs.length 0
               (chs.filter (fun ch => ch.direction = ChannelDirection.to)) }) := by
  simp only [BundlePort.buildOutputSignals, BundlePort.new, hty, castChannelBundleType,
    Option.some_bind, ChannelBundleType.getChannels, channelLoop_spec, hb, Option.map_some',
    List.nil_append, resizePorts_nil, filter_not_from, UnpackBundleOp.create, Block.create,
    Block.insert, Operation.getOperand, hv, hvt, Option.map_some]
  rw [createOutputsLoop_spec _ _ _ _ _ _ _ (by simp) (by
    intro rs h
    cases h
    simp [UnpackBundleOp.getToChannels, Operation.getResults, UnpackBundleOp.resultTypes,
      ChannelBundleType.getChannels])]
  simp [declaredOutputs_length, outputUnpack, UnpackBundleOp.getToChannels,
    Operation.getResults, UnpackBundleOp.resultTypes, ChannelBundleType.getChannels]

theorem pushBackAt_some (v : List (List Value)) (i : Nat) (x : Value) (h : i < v.length) :
    ∃ v', pushBackAt v i x = some v' ∧ v'.length = v.length := by
  refine ⟨v.set i (v[i] ++ [x]), ?_, by simp⟩
  simp [pushBackAt, List.getElem?_eq_getElem h]

theorem arrayGetLoop_some (arrayOfChannels : Value) (e : Ty) (n : Nat)
    (hty : arrayOfChannels.getType = Ty.array e n) (idxs : List Nat) :
    ∀ (b : Block) (fc : List (List Value)), (∀ i ∈ idxs, i < fc.length) →
    ∃ b' fc', idxs.foldlM (arrayGetStep arrayOfChannels) (b, fc) = some (b', fc') ∧
      fc'.length = fc.length ∧ b'.terminator = b.terminator ∧ b'.arguments = b.arguments := by
  induction idxs with
  | nil => intro b fc _; exact ⟨b, fc, rfl, rfl, rfl, rfl⟩
  | cons i rest ih =>
    intro b fc hin
    have hi : i < fc.length := hin i (by simp)
    obtain ⟨fc1, hpush, hlen1⟩ := pushBackAt_some fc i
      (Value.opResult b.nextOp 0 e) hi
    have hstep : arrayGetStep arrayOfChannels (b, fc) i =
        some ({ b with ops := b.ops ++ [⟨b.nextOp, OpKind.arrayGet i, [arrayOfChannels], [e]⟩],
                       nextOp := b.nextOp + 1 }, fc1) := by
      simp [arrayGetStep, ArrayGetOp.create, hty, castArrayType, Block.create, Block.insert,
        Operation.getResult, Operation.getResults, ArrayType.getElementType, hpush]
    obtain ⟨b', fc', hrest, hlen, hterm, hargs⟩ := ih
      { b with ops := b.ops ++ [⟨b.nextOp, OpKind.arrayGet i, [arrayOfChannels], [e]⟩],
               nextOp := b.nextOp + 1 } fc1
      (by intro j hj; rw [hlen1]; exact hin j (by simp [hj]))
    refine ⟨b', fc', ?_, by rw [hlen, hlen1], hterm, hargs⟩
    rw [List.foldlM_cons, hstep]
    exact hrest

theorem fromChannelLoop_some (origPort : PortInfo) (numBundles : Nat)
    (chs : List BundledChannel) :
    ∀ (c : PortConverterImpl) (fc : List (List Value)), fc.length = numBundles →
    ∃ c' fc', chs.foldlM (fromChannelStep origPort numBundles) (c, fc) = some (c', fc') ∧
      c'.newInputs = c.newInputs ++
        declaredInputs origPort (fun ch => ArrayType.get ch.type numBundles)
          c.newInputs.length (c.body.map (fun b => b.arguments.length)) chs ∧
      c'.newOutputs = c.newOutputs ∧ fc'.length = numBundles ∧
      (c.body = Option.none → c'.body = Option.none) ∧
      (∀ b, c.body = some b → ∃ b', c'.body = some b' ∧ b'.terminator = b.terminator) := by
  induction chs with
  | nil =>
    intro c fc hfc
    refine ⟨c, fc, rfl, by simp [declaredInputs], rfl, hfc, fun h => h, ?_⟩
    intro b hb
    exact ⟨b, hb, rfl⟩
  | cons ch rest ih =>
    intro c fc hfc
    obtain ⟨body, ni, no⟩ := c
    cases body with
    | none =>
      have hstep : fromChannelStep origPort numBundles (⟨Option.none, ni, no⟩, fc) ch =
          some (⟨Option.none, ni ++ [declaredInput origPort
            (fun ch => ArrayType.get ch.type numBundles) ni.length Option.none ch], no⟩, fc) := by
        simp [fromChannelStep, PortConverterImpl.createNewInput, declaredInput]
      obtain ⟨c', fc', hrest, hin, hout, hlen, hnone, _⟩ := ih
        ⟨Option.none, ni ++ [declaredInput origPort
            (fun ch => ArrayType.get ch.type numBundles) ni.length Option.none ch], no⟩ fc hfc
      refine ⟨c', fc', ?_, ?_, hout, hlen, fun _ => hnone rfl, ?_⟩
      · rw [List.foldlM_cons, hstep]; exact hrest
      · rw [hin]; simp [declaredInputs]
      · intro b hb; cases hb
    | some b =>
      obtain ⟨b1, fc1, hloop, hlen1, hterm1, hargs1⟩ := arrayGetLoop_some
        (Value.blockArgument b.arguments.length (ArrayType.get ch.type numBundles))
        ch.type numBundles rfl (List.range numBundles)
        { b with arguments := b.arguments ++ [ArrayType.get ch.type numBundles] } fc
        (by intro i hi; rw [hfc]; exact List.mem_range.mp hi)
      have hstep : fromChannelStep origPort numBundles (⟨some b, ni, no⟩, fc) ch =
          some (⟨some b1, ni ++ [declaredInput origPort
            (fun ch => ArrayType.get ch.type numBundles) ni.length
            (some b.arguments.length) ch], no⟩, fc1) := by
        simp [fromChannelStep, PortConverterImpl.createNewInput, declaredInput,
          Block.addArgument, hloop]
      obtain ⟨c', fc', hrest, hin, hout, hlen, _, hsome⟩ := ih
        ⟨some b1, ni ++ [declaredInput origPort
            (fun ch => ArrayType.get ch.type numBundles) ni.length
            (some b.arguments.length) ch], no⟩ fc1 (by rw [hlen1, hfc])
      refine ⟨c', fc', ?_, ?_, hout, hlen, ?_, ?_⟩
      · rw [List.foldlM_cons, hstep]; exact hrest
      · rw [hin]; simp [declaredInputs, hargs1]
      · intro h; cases h
      · intro b0 hb0
        cases hb0
        obtain ⟨b', hb', hterm'⟩ := hsome b1 rfl
        exact ⟨b', hb', by rw [hterm', hterm1]⟩

theorem pushToChannels_some (vals : List Value) :
    ∀ (idx : Nat) (tc : List (List Value)), idx + vals.length ≤ tc.length →
    ∃ tc', pushToChannels idx vals tc = some tc' ∧ tc'.length = tc.length := by
  induction vals with
  | nil => intro idx tc _; exact ⟨tc, rfl, rfl⟩
  | cons v rest ih =>
    intro idx tc h
    simp only [List.length_cons] at h
    obtain ⟨tc1, hpush, hlen1⟩ := pushBackAt_some tc idx v (by omega)
    obtain ⟨tc', hrest, hlen⟩ := ih (idx + 1) tc1 (by omega)
    refine ⟨tc', ?_, by rw [hlen, hlen1]⟩
    simp [pushToChannels, hpush, hrest]

theorem unpackLoop_some (origBundleArray : Value) (chs : List BundledChannel) (n : Nat)
    (hty : origBundleArray.getType = Ty.array (Ty.bundle chs) n)
    (fromChannels : List (List Value)) (idxs : List Nat) :
    ∀ (b : Block) (tc : List (List Value)), (∀ i ∈ idxs, i < fromChannels.length) →
    tc.length = (chs.filter (fun ch => ch.direction = ChannelDirection.to)).length →
    ∃ b' tc', idxs.foldlM (unpackStep origBundleArray fromChannels) (b, tc) = some (b', tc') ∧
      tc'.length = tc.length ∧ b'.terminator = b.terminator := by
  induction idxs with
  | nil => intro b tc _ _; exact ⟨b, tc, rfl, rfl, rfl⟩
  | cons i rest ih =>
    intro b tc hin htc
    have hi : i < fromChannels.length := hin i (by simp)
    obtain ⟨tc1, hpush, hlen1⟩ := pushToChannels_some
      (UnpackBundleOp.getToChannels
        ⟨b.nextOp + 1, OpKind.unpack,
          Value.opResult b.nextOp 0 (Ty.bundle chs) :: fromChannels[i],
          UnpackBundleOp.resultTypes ⟨chs⟩⟩) 0 tc
      (by simp [UnpackBundleOp.getToChannels, Operation.getResults,
            UnpackBundleOp.resultTypes, ChannelBundleType.getChannels, htc])
    have hstep : unpackStep origBundleArray fromChannels (b, tc) i =
        some ({ b with
                  ops := (b.ops ++ [⟨b.nextOp, OpKind.arrayGet i, [origBundleArray],
                      [Ty.bundle chs]⟩]) ++
                    [⟨b.nextOp + 1, OpKind.unpack,
                      Value.opResult b.nextOp 0 (Ty.bundle chs) :: fromChannels[i],
                      UnpackBundleOp.resultTypes ⟨chs⟩⟩],
                  nextOp := b.nextOp + 1 + 1 }, tc1) := by
      have hres : (Value.opResult b.nextOp 0 (Ty.bundle chs)).getType = Ty.bundle chs := rfl
      simp [unpackStep, ArrayGetOp.create, hty, castArrayType, Block.create, Block.insert,
        Operation.getResult, Operation.getResults, ArrayType.getElementType,
        List.getElem?_eq_getElem hi, UnpackBundleOp.create, hres,
        castChannelBundleType, hpush]
    obtain ⟨b', tc', hrest, hlen, hterm⟩ := ih
      { b with
          ops := (b.ops ++ [⟨b.nextOp, OpKind.arrayGet i, [origBundleArray],
              [Ty.bundle chs]⟩]) ++
            [⟨b.nextOp + 1, OpKind.unpack,
              Value.opResult b.nextOp 0 (Ty.bundle chs) :: fromChannels[i],
              UnpackBundleOp.resultTypes ⟨chs⟩⟩],
          nextOp := b.nextOp + 1 + 1 } tc1
      (by intro j hj; exact hin j (by simp [hj])) (by rw [hlen1, htc])
    refine ⟨b', tc', ?_, by rw [hlen, hlen1], by rw [hterm]⟩
    rw [List.foldlM_cons, hstep]
    exact hrest

theorem arrayCreateLoop_some (lists : List (List Value)) :
    ∀ (b : Block) (acc : List Value),
    ∃ b' acc', lists.foldlM arrayCreateStep (b, acc) = some (b', acc') ∧
      acc'.length = acc.length + lists.length ∧ b'.terminator = b.terminator := by
  induction lists with
  | nil => intro b acc; exact ⟨b, acc, rfl, rfl, rfl⟩
  | cons l rest ih =>
    intro b acc
    have hstep : arrayCreateStep (b, acc) l =
        some ({ b with
                  ops := b.ops ++ [⟨b.nextOp, OpKind.arrayCreate, l,
                    [ArrayType.get ((l.head?.map Value.getType).getD Ty.none) l.length]⟩],
                  nextOp := b.nextOp + 1 },
              acc ++ [Value.opResult b.nextOp 0
                (ArrayType.get ((l.head?.map Value.getType).getD Ty.none) l.length)]) := by
      simp [arrayCreateStep, ArrayCreateOp.create, Block.create, Block.insert,
        Operation.getResult, Operation.getResults]
    obtain ⟨b', acc', hrest, hlen, hterm⟩ := ih
      { b with
          ops := b.ops ++ [⟨b.nextOp, OpKind.arrayCreate, l,
            [ArrayType.get ((l.head?.map Value.getType).getD Ty.none) l.length]⟩],
          nextOp := b.nextOp + 1 }
      (acc ++ [Value.opResult b.nextOp 0
        (ArrayType.get ((l.head?.map Value.getType).getD Ty.none) l.length)])
    refine ⟨b', acc', ?_, by rw [hlen]; simp; omega, by rw [hterm]⟩
    rw [List.foldlM_cons, hstep]
    exact hrest

/-- What `ArrayBundlePort::buildOutputSignals` does to the converter on an
output port of type array of `numBundles` bundles with channels `chs`: with a
body whose terminator has, at the port's index, an operand of the port's type
(or with no body) it returns, and the ports it created are one array input per
`from` channel and one array output per `to` channel, in declaration order. -/
theorem arrayBuildOutputSignals_spec (origPort : PortInfo) (chs : List BundledChannel)
    (numBundles : Nat) (c : PortConverterImpl)
    (hty : origPort.type = Ty.array (Ty.bundle chs) numBundles)
    (hbody : ∀ b, c.body = some b → ∃ v, b.terminator.operands[origPort.argNum]? = some v ∧
      v.getType = origPort.type) :
    ∃ bp c' results, (ArrayBundlePort.new origPort).buildOutputSignals c = some (bp, c') ∧
      c'.newInputs = c.newInputs ++
        declaredInputs origPort (fun ch => ArrayType.get ch.type numBundles)
          c.newInputs.length (c.body.map (fun b => b.arguments.length))
          (chs.filter (fun ch => ch.direction = ChannelDirection.from)) ∧
      c'.newOutputs = c.newOutputs ++
        declaredOutputs origPort (fun ch => ArrayType.get ch.type numBundles) results
          c.newOutputs.length 0
          (chs.filter (fun ch => ch.direction = ChannelDirection.to)) ∧
      bp.newInputChannels = [] ∧
      bp.newOutputChannels =
        (declaredOutputs origPort (fun ch => ArrayType.get ch.type numBundles) results
          c.newOutputs.length 0
          (chs.filter (fun ch => ch.direction = ChannelDirection.to))).map NewPort.info ∧
      (c.body = Option.none → results = Option.none ∧ c'.body = Option.none) ∧
      (c.body.isSome → c'.body.isSome ∧ ∃ rs, results = some rs ∧
        rs.length = (chs.filter (fun ch => ch.direction = ChannelDirection.to)).length) := by
  obtain ⟨c1, fc1, hloop1, hin1, hout1, hlen1, hnone1, hsome1⟩ :=
    fromChannelLoop_some origPort numBundles
      (chs.filter (fun ch => ch.direction = ChannelDirection.from)) c
      (List.replicate numBundles []) (by simp)
  cases hcb : c.body with
  | none =>
    have hb1 : c1.body = Option.none := hnone1 hcb
    have hout := createOutputsLoop_spec origPort (fun ch => ArrayType.get ch.type numBundles)
      Option.none (chs.filter (fun ch => ch.direction = ChannelDirection.to)) 0 c1
      (List.replicate (chs.filter (fun ch => ch.direction = ChannelDirection.to)).length
        PortInfo.default) (by simp) (by intro rs h; cases h)
    simp only [ArrayBundlePort.buildOutputSignals, ArrayBundlePort.new, hty, castArrayType,
      Option.some_bind, ArrayType.getElementType, castChannelBundleType,
      ChannelBundleType.getChannels, ArrayType.getNumElements, hloop1, hb1,
      resizePorts_nil, hout]
    refine ⟨_, _, Option.none, rfl, ?_, ?_, rfl, ?_, ?_, ?_⟩
    · simp [hin1, hcb]
    · simp [hout1]
    · simp [declaredOutputs_length, hout1]
    · intro _; exact ⟨rfl, by simp [hb1]⟩
    · intro h; simp at h
  | some b =>
    obtain ⟨b1, hb1, hterm1⟩ := hsome1 b hcb
    obtain ⟨v, hv, hvt⟩ := hbody b hcb
    rw [hty] at hvt
    obtain ⟨b2, tc2, hloop2, hlen2, _⟩ := unpackLoop_some v chs numBundles hvt fc1
      (List.range numBundles) b1
      (List.replicate (chs.filter (fun ch => ch.direction = ChannelDirection.to)).length [])
      (by intro i hi; rw [hlen1]; exact List.mem_range.mp hi) (by simp)
    obtain ⟨b3, arrs, hloop3, hlen3, _⟩ := arrayCreateLoop_some tc2 b2 []
    have harrs : arrs.length =
        (chs.filter (fun ch => ch.direction = ChannelDirection.to)).length := by
      rw [hlen3, hlen2]; simp
    have hout := createOutputsLoop_spec origPort (fun ch => ArrayType.get ch.type numBundles)
      (some arrs) (chs.filter (fun ch => ch.direction = ChannelDirection.to)) 0
      { c1 with body := some b3 }
      (List.replicate (chs.filter (fun ch => ch.direction = ChannelDirection.to)).length
        PortInfo.default) (by simp) (by intro rs h; cases h; simp [harrs])
    simp only [ArrayBundlePort.buildOutputSignals, ArrayBundlePort.new, hty, castArrayType,
      Option.some_bind, ArrayType.getElementType, castChannelBundleType,
      ChannelBundleType.getChannels, ArrayType.getNumElements, hloop1, hb1,
      resizePorts_nil, Operation.getOperand, hterm1, hv, hloop2, hloop3, hout]
    refine ⟨_, _, some arrs, rfl, ?_, ?_, rfl, ?_, ?_, ?_⟩
    · simp [hin1, hcb]
    · simp [hout1]
    · simp [declaredOutputs_length, hout1]
    · intro h; cases h
    · intro _; exact ⟨rfl, arrs, rfl, harrs⟩

theorem declaredInputs_map {α : Type} (origPort : PortInfo) (portType : BundledChannel → Ty)
    (f : NewPort → α) (g : BundledChannel → α)
    (hfg : ∀ n a ch, f (declaredInput origPort portType n a ch) = g ch)
    (chs : List BundledChannel) : ∀ (n : Nat) (a : Option Nat),
    (declaredInputs origPort portType n a chs).map f = chs.map g := by
  induction chs with
  | nil => intro n a; rfl
  | cons ch rest ih => intro n a; simp [declaredInputs, hfg, ih]

theorem declaredOutputs_map {α : Type} (origPort : PortInfo) (portType : BundledChannel → Ty)
    (results : Option (List Value)) (f : NewPort → α) (g : BundledChannel → α)
    (hfg : ∀ n v ch, f (declaredOutput origPort portType n v ch) = g ch)
    (chs : List BundledChannel) : ∀ (n idx : Nat),
    (declaredOutputs origPort portType results n idx chs).map f = chs.map g := by
  induction chs with
  | nil => intro n a; rfl
  | cons ch rest ih => intro n a; simp [declaredOutputs, hfg, ih]

theorem buildInputSignals_ports (origPort : PortInfo) (chs : List BundledChannel)
    (c : PortConverterImpl) (hty : origPort.type = Ty.bundle chs)
    (hin : isInputOf origPort c) :
    ∃ bp c' results, (BundlePort.new origPort).buildInputSignals c = some (bp, c') ∧
      c'.newInputs = c.newInputs ++
        declaredInputs origPort BundledChannel.type c.newInputs.length
          (c.body.map (fun b => b.arguments.length))
          (chs.filter (fun ch => ch.direction = ChannelDirection.to)) ∧
      c'.newOutputs = c.newOutputs ++
        declaredOutputs origPort BundledChannel.type results c.newOutputs.length 0
          (chs.filter (fun ch => ch.direction = ChannelDirection.from)) := by
  cases hb : c.body with
  | none => exact ⟨_, _, Option.none, buildInputSignals_noBody origPort chs c hty hb, rfl, rfl⟩
  | some b =>
    have hlt : origPort.argNum < b.arguments.length := by
      simpa [isInputOf, hb] using hin
    exact ⟨_, _, _, buildInputSignals_body origPort chs c b hty hb _
      (List.getElem?_eq_getElem hlt), rfl, rfl⟩

theorem buildOutputSignals_ports (origPort : PortInfo) (chs : List BundledChannel)
    (c : PortConverterImpl) (hty : origPort.type = Ty.bundle chs)
    (hout : isOutputOf origPort c) :
    ∃ bp c' results, (BundlePort.new origPort).buildOutputSignals c = some (bp, c') ∧
      c'.newInputs = c.newInputs ++
        declaredInputs origPort BundledChannel.type c.newInputs.length
          (c.body.map (fun b => b.arguments.length))
          (chs.filter (fun ch => ch.direction = ChannelDirection.from)) ∧
      c'.newOutputs = c.newOutputs ++
        declaredOutputs origPort BundledChannel.type results c.newOutputs.length 0
          (chs.filter (fun ch => ch.direction = ChannelDirection.to)) := by
  cases hb : c.body with
  | none => exact ⟨_, _, Option.none, buildOutputSignals_noBody origPort chs c hty hb, rfl, rfl⟩
  | some b =>
    obtain ⟨v, hv, hvt⟩ : ∃ v, b.terminator.operands[origPort.argNum]? = some v ∧
        v.getType = origPort.type := by
      simpa [isOutputOf, hb] using hout
    rw [hty] at hvt
    exact ⟨_, _, _, buildOutputSignals_body origPort chs c b hty hb v hv hvt, rfl, rfl⟩

theorem arrayBuildOutputSignals_ports (origPort : PortInfo) (chs : List BundledChannel)
    (numBundles : Nat) (c : PortConverterImpl)
    (hty : origPort.type = Ty.array (Ty.bundle chs) numBundles)
    (hout : isOutputOf origPort c) :
    ∃ bp c' results, (ArrayBundlePort.new origPort).buildOutputSignals c = some (bp, c') ∧
      c'.newInputs = c.newInputs ++
        declaredInputs origPort (fun ch => ArrayType.get ch.type numBundles)
          c.newInputs.length (c.body.map (fun b => b.arguments.length))
          (chs.filter (fun ch => ch.direction = ChannelDirection.from)) ∧
      c'.newOutputs = c.newOutputs ++
        declaredOutputs origPort (fun ch => ArrayType.get ch.type numBundles) results
          c.newOutputs.length 0
          (chs.filter (fun ch => ch.direction = ChannelDirection.to)) := by
  obtain ⟨bp, c', results, hcall, hin', hout', _⟩ :=
    arrayBuildOutputSignals_spec origPort chs numBundles c hty (by
      intro b hb
      simpa [isOutputOf, hb] using hout)
  exact ⟨bp, c', results, hcall, hin', hout'⟩

theorem filter_to_from_length (chs : List BundledChannel) :
    (chs.filter (fun ch => ch.direction = ChannelDirection.to)).length +
      (chs.filter (fun ch => ch.direction = ChannelDirection.from)).length = chs.length := by
  induction chs with
  | nil => rfl
  | cons ch rest ih =>
    cases h : ch.direction <;> simp [List.filter_cons, h] <;> omega

theorem filter_to_from_perm {α : Type} (g : BundledChannel → α) (chs : List BundledChannel) :
    ((chs.filter (fun ch => ch.direction = ChannelDirection.to)).map g ++
      (chs.filter (fun ch => ch.direction = ChannelDirection.from)).map g).Perm
      (chs.map g) := by
  rw [← List.map_append]
  apply List.Perm.map
  rw [← filter_not_to]
  have := List.filter_append_perm (fun ch : BundledChannel => decide (ch.direction = ChannelDirection.to)) chs
  simpa using this

/-! ## Lemmas on the instance side -/

theorem declaredInputs_argNum (origPort : PortInfo) (portType : BundledChannel → Ty)
    (chs : List BundledChannel) : ∀ (n : Nat) (a : Option Nat),
    (declaredInputs origPort portType n a chs).map (fun p => p.info.argNum) =
      List.range' n chs.length := by
  induction chs with
  | nil => intro n a; rfl
  | cons ch rest ih => intro n a; simp [declaredInputs, declaredInput, ih, List.range'_succ]

theorem declaredOutputs_argNum (origPort : PortInfo) (portType : BundledChannel → Ty)
    (results : Option (List Value)) (chs : List BundledChannel) : ∀ (n idx : Nat),
    (declaredOutputs origPort portType results n idx chs).map (fun p => p.info.argNum) =
      List.range' n chs.length := by
  induction chs with
  | nil => intro n a; rfl
  | cons ch rest ih => intro n a; simp [declaredOutputs, declaredOutput, ih, List.range'_succ]

theorem declaredInputs_value_ge (origPort : PortInfo) (portType : BundledChannel → Ty)
    (chs : List BundledChannel) : ∀ (n a : Nat),
    ∀ v ∈ (declaredInputs origPort portType n (some a) chs).map NewPort.value,
      ∃ k t, v = Value.blockArgument k t ∧ a ≤ k := by
  induction chs with
  | nil => intro n a v hv; simp [declaredInputs] at hv
  | cons ch rest ih =>
    intro n a v hv
    simp only [declaredInputs, List.map_cons, List.mem_cons, Option.map_some'] at hv
    rcases hv with h | h
    · exact ⟨a, portType ch, by simp [h, declaredInput], Nat.le_refl a⟩
    · obtain ⟨k, t, hk, hle⟩ := ih (n + 1) (a + 1) v h
      exact ⟨k, t, hk, by omega⟩

theorem declaredOutputs_value (origPort : PortInfo) (portType : BundledChannel → Ty)
    (rs : List Value) (chs : List BundledChannel) : ∀ (n idx : Nat),
    idx + chs.length = rs.length →
    (declaredOutputs origPort portType (some rs) n idx chs).map NewPort.value = rs.drop idx := by
  induction chs with
  | nil =>
    intro n idx h
    simp only [List.length_nil, Nat.add_zero] at h
    simp [declaredOutputs, h]
  | cons ch rest ih =>
    intro n idx h
    simp only [List.length_cons] at h
    have hlt : idx < rs.length := by omega
    rw [List.drop_eq_getElem_cons hlt]
    simp [declaredOutputs, declaredOutput, wiredValue, ih (n + 1) (idx + 1) (by omega),
      List.getD, List.getElem?_eq_getElem hlt]

theorem gatherResults_spec (newResults : List Value) (ports : List PortInfo)
    (h : ∀ p ∈ ports, p.argNum < newResults.length) :
    ∃ vs, gatherResults newResults ports = some vs ∧
      vs.map some = ports.map (fun p => newResults[p.argNum]?) := by
  induction ports with
  | nil => exact ⟨[], rfl, rfl⟩
  | cons p rest ih =>
    obtain ⟨vs, hvs, hmap⟩ := ih (fun q hq => h q (by simp [hq]))
    have hp : p.argNum < newResults.length := h p (by simp)
    refine ⟨newResults[p.argNum] :: vs, ?_, ?_⟩
    · simp [gatherResults, List.getElem?_eq_getElem hp, hvs]
    · simp [hmap, List.getElem?_eq_getElem hp]

theorem connectInputs_spec (results : List Value) (ports : List PortInfo) :
    ∀ (idx : Nat) (ops : List Value), (∀ p ∈ ports, p.argNum < ops.length) →
    idx + ports.length ≤ results.length →
    ∃ ops', connectInputs results idx ports ops = some ops' ∧ ops'.length = ops.length ∧
      (∀ j, (∀ p ∈ ports, p.argNum ≠ j) → ops'[j]? = ops[j]?) ∧
      ((ports.map (fun p => p.argNum)).Nodup →
        ∀ k (hk : k < ports.length), ops'[ports[k].argNum]? = results[idx + k]?) := by
  induction ports with
  | nil =>
    intro idx ops _ _
    exact ⟨ops, rfl, rfl, fun _ _ => rfl, fun _ k hk => by simp at hk⟩
  | cons p rest ih =>
    intro idx ops hin hlen
    simp only [List.length_cons] at hlen
    have hp : p.argNum < ops.length := hin p (by simp)
    have hidx : idx < results.length := by omega
    obtain ⟨ops', hcall, hl, hkeep, hset⟩ := ih (idx + 1) (ops.set p.argNum results[idx])
      (by intro q hq; simp; exact hin q (by simp [hq])) (by omega)
    refine ⟨ops', ?_, by simp [hl], ?_, ?_⟩
    · simp [connectInputs, List.getElem?_eq_getElem hidx, assignAt, hp, hcall]
    · intro j hj
      rw [hkeep j (fun q hq => hj q (by simp [hq]))]
      have : p.argNum ≠ j := hj p (by simp)
      simp [List.getElem?_set, this]
    · intro hnd k hk
      simp only [List.map_cons, List.nodup_cons, List.mem_map, not_exists, not_and] at hnd
      cases k with
      | zero =>
        simp only [List.getElem_cons_zero, Nat.add_zero]
        rw [hkeep p.argNum (fun q hq heq => hnd.1 q hq heq)]
        simp [List.getElem?_set, hp, List.getElem?_eq_getElem hidx]
      | succ m =>
        simp only [List.length_cons, Nat.add_lt_add_iff_right] at hk
        simp only [List.getElem_cons_succ]
        rw [hset hnd.2 m hk]
        congr 1
        omega

theorem mapInputSignals_spec (bp : BundlePort) (b : OpBuilder) (inst : Operation)
    (newOperands newResults : List Value) (V : Value) (chs : List BundledChannel)
    (hV : inst.operands[bp.origPort.argNum]? = some V) (hVt : V.getType = Ty.bundle chs)
    (hres : ∀ p ∈ bp.newOutputChannels, p.argNum < newResults.length)
    (hops : ∀ p ∈ bp.newInputChannels, p.argNum < newOperands.length)
    (hcnt : bp.newInputChannels.length ≤
      (chs.filter (fun ch => ch.direction = ChannelDirection.to)).length) :
    ∃ fromChannels ops',
      bp.mapInputSignals b inst newOperands newResults =
        some ((b.block.create b.point OpKind.unpack (V :: fromChannels)
          (UnpackBundleOp.resultTypes ⟨chs⟩)).2, ops') ∧
      fromChannels.map some = bp.newOutputChannels.map (fun p => newResults[p.argNum]?) ∧
      ops'.length = newOperands.length ∧
      (∀ j, (∀ p ∈ bp.newInputChannels, p.argNum ≠ j) → ops'[j]? = newOperands[j]?) ∧
      ((bp.newInputChannels.map (fun p => p.argNum)).Nodup →
        ∀ k (hk : k < bp.newInputChannels.length),
          ops'[bp.newInputChannels[k].argNum]? =
            (b.block.create b.point OpKind.unpack (V :: fromChannels)
              (UnpackBundleOp.resultTypes ⟨chs⟩)).1.getResults[k]?) := by
  obtain ⟨vs, hvs, hmap⟩ := gatherResults_spec newResults bp.newOutputChannels hres
  obtain ⟨ops', hcall, hl, hkeep, hset⟩ := connectInputs_spec
    (b.block.create b.point OpKind.unpack (V :: vs)
      (UnpackBundleOp.resultTypes ⟨chs⟩)).1.getResults bp.newInputChannels 0 newOperands hops
    (by simp [Operation.getResults, Block.create, UnpackBundleOp.resultTypes,
          ChannelBundleType.getChannels]; exact hcnt)
  refine ⟨vs, ops', ?_, hmap, hl, hkeep, ?_⟩
  · simp [BundlePort.mapInputSignals, hvs, Operation.getOperand, hV, UnpackBundleOp.create,
      hVt, castChannelBundleType, hcall]
  · intro hnd k hk
    have := hset hnd k hk
    simpa using this

theorem mapOutputSignals_spec (bp : BundlePort) (b : OpBuilder) (inst : Operation)
    (newOperands newResults : List Value) (chs : List BundledChannel)
    (hty : bp.origPort.type = Ty.bundle chs)
    (hinst : bp.origPort.argNum < inst.resultTypes.length)
    (hres : ∀ p ∈ bp.newOutputChannels, p.argNum < newResults.length)
    (hops : ∀ p ∈ bp.newInputChannels, p.argNum < newOperands.length)
    (hcnt : bp.newInputChannels.length ≤
      (chs.filter (fun ch => ch.direction = ChannelDirection.from)).length) :
    ∃ toChannels ops',
      bp.mapOutputSignals b inst newOperands newResults =
        some (Block.replaceAllUsesWith
          (b.block.create b.point OpKind.pack toChannels (PackBundleOp.resultTypes ⟨chs⟩)).2
          (Value.opResult inst.id bp.origPort.argNum inst.resultTypes[bp.origPort.argNum])
          (Value.opResult b.block.nextOp 0 (Ty.bundle chs)), ops') ∧
      toChannels.map some = bp.newOutputChannels.map (fun p => newResults[p.argNum]?) ∧
      ops'.length = newOperands.length ∧
      (∀ j, (∀ p ∈ bp.newInputChannels, p.argNum ≠ j) → ops'[j]? = newOperands[j]?) ∧
      ((bp.newInputChannels.map (fun p => p.argNum)).Nodup →
        ∀ k (hk : k < bp.newInputChannels.length),
          ops'[bp.newInputChannels[k].argNum]? =
            (PackBundleOp.getFromChannels
              (b.block.create b.point OpKind.pack toChannels
                (PackBundleOp.resultTypes ⟨chs⟩)).1)[k]?) := by
  obtain ⟨vs, hvs, hmap⟩ := gatherResults_spec newResults bp.newOutputChannels hres
  obtain ⟨ops', hcall, hl, hkeep, hset⟩ := connectInputs_spec
    (PackBundleOp.getFromChannels
      (b.block.create b.point OpKind.pack vs (PackBundleOp.resultTypes ⟨chs⟩)).1)
    bp.newInputChannels 0 newOperands hops
    (by simp [PackBundleOp.getFromChannels, Operation.getResults, Block.create,
          PackBundleOp.resultTypes, ChannelBundleType.getChannels]; exact hcnt)
  refine ⟨vs, ops', ?_, hmap, hl, hkeep, ?_⟩
  · simp only [BundlePort.mapOutputSignals, hvs, hty, castChannelBundleType,
      PackBundleOp.create, Option.some_bind, hcall]
    simp [Operation.getResult, Operation.getResults, List.getElem?_eq_getElem hinst,
      PackBundleOp.getBundle, Block.create, PackBundleOp.resultTypes, ChannelBundleType.toTy]
  · intro hnd k hk
    have := hset hnd k hk
    simpa using this

theorem range'_bound (n len : Nat) (l : List PortInfo)
    (h : l.map (fun p => p.argNum) = List.range' n len) :
    (∀ p ∈ l, p.argNum < n + len) ∧ (l.map (fun p => p.argNum)).Nodup := by
  constructor
  · intro p hp
    have : p.argNum ∈ l.map (fun p => p.argNum) := List.mem_map_of_mem _ hp
    rw [h, List.mem_range'_1] at this
    exact this.2
  · rw [h]
    exact List.nodup_range' n len

theorem buildInputSignals_members (origPort : PortInfo) (chs : List BundledChannel)
    (c : PortConverterImpl) (hty : origPort.type = Ty.bundle chs)
    (hin : isInputOf origPort c) :
    ∃ bp c' ins outs, (BundlePort.new origPort).buildInputSignals c = some (bp, c') ∧
      bp.origPort = origPort ∧
      c'.newInputs = c.newInputs ++ ins ∧ c'.newOutputs = c.newOutputs ++ outs ∧
      bp.newInputChannels = ins.map NewPort.info ∧
      bp.newOutputChannels = outs.map NewPort.info ∧
      ins.map (fun p => p.info.argNum) = List.range' c.newInputs.length
        (chs.filter (fun ch => ch.direction = ChannelDirection.to)).length ∧
      outs.map (fun p => p.info.argNum) = List.range' c.newOutputs.length
        (chs.filter (fun ch => ch.direction = ChannelDirection.from)).length := by
  cases hb : c.body with
  | none =>
    exact ⟨_, _, _, _, buildInputSignals_noBody origPort chs c hty hb, rfl, rfl, rfl, rfl, rfl,
      declaredInputs_argNum _ _ _ _ _, declaredOutputs_argNum _ _ _ _ _ _⟩
  | some b =>
    have hlt : origPort.argNum < b.arguments.length := by
      simpa [isInputOf, hb] using hin
    exact ⟨_, _, _, _, buildInputSignals_body origPort chs c b hty hb _
      (List.getElem?_eq_getElem hlt), rfl, rfl, rfl, rfl, rfl,
      declaredInputs_argNum _ _ _ _ _, declaredOutputs_argNum _ _ _ _ _ _⟩

theorem buildOutputSignals_members (origPort : PortInfo) (chs : List BundledChannel)
    (c : PortConverterImpl) (hty : origPort.type = Ty.bundle chs)
    (hout : isOutputOf origPort c) :
    ∃ bp c' ins outs, (BundlePort.new origPort).buildOutputSignals c = some (bp, c') ∧
      bp.origPort = origPort ∧
      c'.newInputs = c.newInputs ++ ins ∧ c'.newOutputs = c.newOutputs ++ outs ∧
      bp.newInputChannels = ins.map NewPort.info ∧
      bp.newOutputChannels = outs.map NewPort.info ∧
      ins.map (fun p => p.info.argNum) = List.range' c.newInputs.length
        (chs.filter (fun ch => ch.direction = ChannelDirection.from)).length ∧
      outs.map (fun p => p.info.argNum) = List.range' c.newOutputs.length
        (chs.filter (fun ch => ch.direction = ChannelDirection.to)).length := by
  cases hb : c.body with
  | none =>
    exact ⟨_, _, _, _, buildOutputSignals_noBody origPort chs c hty hb, rfl, rfl, rfl, rfl, rfl,
      declaredInputs_argNum _ _ _ _ _, declaredOutputs_argNum _ _ _ _ _ _⟩
  | some b =>
    obtain ⟨v, hv, hvt⟩ : ∃ v, b.terminator.operands[origPort.argNum]? = some v ∧
        v.getType = origPort.type := by
      simpa [isOutputOf, hb] using hout
    rw [hty] at hvt
    exact ⟨_, _, _, _, buildOutputSignals_body origPort chs c b hty hb v hv hvt, rfl, rfl, rfl,
      rfl, rfl, declaredInputs_argNum _ _ _ _ _, declaredOutputs_argNum _ _ _ _ _ _⟩

theorem map_info_argNum (l : List NewPort) :
    (l.map NewPort.info).map (fun p => p.argNum) = l.map (fun p => p.info.argNum) := by
  simp [List.map_map, Function.comp_def]

theorem replaceUses_inputPack (b : Block) (chs : List BundledChannel) (operands : List Value)
    (argNum : Nat) (targ : Ty) (new : Value) (hlt : argNum < b.arguments.length)
    (hge : ∀ v ∈ operands, ∃ k t, v = Value.blockArgument k t ∧ b.arguments.length ≤ k) :
    Operation.replaceUses (Value.blockArgument argNum targ) new (inputPack b chs operands) =
      inputPack b chs operands := by
  have hmap : operands.map (fun v => if v = Value.blockArgument argNum targ then new else v) =
      operands := by
    conv => rhs; rw [← List.map_id operands]
    apply List.map_congr_left
    intro v hv
    obtain ⟨k, t, hk, hle⟩ := hge v hv
    have : v ≠ Value.blockArgument argNum targ := by
      rw [hk]
      intro h
      injection h with h1 _
      omega
    simp [this]
  simp [Operation.replaceUses, inputPack, hmap]

theorem map_eq_of_getElem_opt {α β : Type} (l : List α) (r : List β) (f : α → β)
    (hlen : l.length = r.length)
    (h : ∀ i (hi : i < l.length), some (f l[i]) = r[i]?) : l.map f = r := by
  apply List.ext_getElem?
  intro i
  by_cases hi : i < l.length
  · rw [← h i hi]
    simp [List.getElem?_eq_getElem hi]
  · have h1 : l.length ≤ i := Nat.le_of_not_lt hi
    rw [List.getElem?_eq_none (by simpa using h1), List.getElem?_eq_none (by omega)]

/-! ## Lemmas on the pass -/

theorem walk_foldl (packs : List Operation) : ∀ st : PassResult,
    packs.foldl
      (fun st pack => { st with diagnostics := st.diagnostics ++ [pack], failed := true }) st =
    { st with diagnostics := st.diagnostics ++ packs,
              failed := st.failed || !packs.isEmpty } := by
  induction packs with
  | nil => intro st; simp
  | cons p rest ih => intro st; simp [List.foldl_cons, ih]

theorem convertModules_append (run : ModuleOp → String → Bool × ModuleOp)
    (pre rest : List String) : ∀ st : ModuleOp × List Call,
    convertModules run (pre ++ rest) st =
      if (convertModules run pre st).1 then convertModules run rest (convertModules run pre st).2
      else convertModules run pre st := by
  induction pre with
  | nil => intro st; simp [convertModules]
  | cons m pre ih =>
    intro st
    simp only [List.cons_append, convertModules]
    cases h : (run st.1 m).1
    · simp
    · simp [ih]

theorem convertModules_calls (run : ModuleOp → String → Bool × ModuleOp)
    (mods : List String) : ∀ st : ModuleOp × List Call,
    (convertModules run mods st).1 = true →
    (convertModules run mods st).2.2 = st.2 ++ mods.map Call.portConverter := by
  induction mods with
  | nil => intro st _; simp [convertModules]
  | cons m rest ih =>
    intro st h
    simp only [convertModules] at h ⊢
    cases hr : (run st.1 m).1
    · simp [hr] at h
    · simp only [hr, if_true] at h ⊢
      rw [ih _ h]
      simp

/-! ## Lemmas on modules without a body -/

theorem declaredInputs_proj (origPort : PortInfo) (portType : BundledChannel → Ty)
    (chs : List BundledChannel) : ∀ (n : Nat) (a a2 : Option Nat),
    (declaredInputs origPort portType n a chs).map (fun p => (p.origPort, p.suffix, p.info)) =
      (declaredInputs origPort portType n a2 chs).map
        (fun p => (p.origPort, p.suffix, p.info)) := by
  induction chs with
  | nil => intro n a a2; rfl
  | cons ch rest ih =>
    intro n a a2
    simp only [declaredInputs, List.map_cons]
    rw [ih (n + 1) (a.map (· + 1)) (a2.map (· + 1))]
    rfl

theorem declaredOutputs_proj (origPort : PortInfo) (portType : BundledChannel → Ty)
    (r r2 : Option (List Value)) (chs : List BundledChannel) : ∀ (n idx : Nat),
    (declaredOutputs origPort portType r n idx chs).map
        (fun p => (p.origPort, p.suffix, p.info)) =
      (declaredOutputs origPort portType r2 n idx chs).map
        (fun p => (p.origPort, p.suffix, p.info)) := by
  induction chs with
  | nil => intro n idx; rfl
  | cons ch rest ih =>
    intro n idx
    simp only [declaredOutputs, List.map_cons]
    rw [ih (n + 1) (idx + 1)]
    rfl

theorem declaredOutputs_null (origPort : PortInfo) (portType : BundledChannel → Ty)
    (chs : List BundledChannel) : ∀ (n idx : Nat),
    ∀ p ∈ declaredOutputs origPort portType Option.none n idx chs, p.value = Value.null := by
  induction chs with
  | nil => intro n idx p hp; simp [declaredOutputs] at hp
  | cons ch rest ih =>
    intro n idx p hp
    simp only [declaredOutputs, List.mem_cons] at hp
    rcases hp with h | h
    · rw [h]; rfl
    · exact ih _ _ p h

/-! ## Lemmas on the casts of `ArrayBundlePort` -/

theorem arrayBuildInputSignals_none (self : ArrayBundlePort) (e : Ty) (n : Nat)
    (c : PortConverterImpl) (hty : self.origPort.type = Ty.array e n) :
    self.buildInputSignals c = Option.none := by
  simp [ArrayBundlePort.buildInputSignals, hty, castChannelBundleType]

theorem arrayMapOutputSignals_none (self : ArrayBundlePort) (e : Ty) (n : Nat)
    (b : OpBuilder) (inst : Operation) (newOperands newResults : List Value)
    (hty : self.origPort.type = Ty.array e n) :
    self.mapOutputSignals b inst newOperands newResults = Option.none := by
  cases h : gatherResults newResults self.newOutputChannels <;>
    simp [ArrayBundlePort.mapOutputSignals, h, hty, castChannelBundleType]

theorem arrayMapInputSignals_none (self : ArrayBundlePort) (e : Ty) (n : Nat)
    (b : OpBuilder) (inst : Operation) (newOperands newResults : List Value) (V : Value)
    (hV : inst.getOperand self.origPort.argNum = some V) (hVt : V.getType = Ty.array e n) :
    self.mapInputSignals b inst newOperands newResults = Option.none := by
  cases h : gatherResults newResults self.newOutputChannels <;>
    simp [ArrayBundlePort.mapInputSignals, h, hV, UnpackBundleOp.create, hVt,
      castChannelBundleType]

theorem arrayMapSignals_eq_scalar (origPort : PortInfo) (ins outs : List PortInfo)
    (b : OpBuilder) (inst : Operation) (newOperands newResults : List Value) :
    ArrayBundlePort.mapInputSignals ⟨origPort, ins, outs⟩ b inst newOperands newResults =
      BundlePort.mapInputSignals ⟨origPort, ins, outs⟩ b inst newOperands newResults ∧
    ArrayBundlePort.mapOutputSignals ⟨origPort, ins, outs⟩ b inst newOperands newResults =
      BundlePort.mapOutputSignals ⟨origPort, ins, outs⟩ b inst newOperands newResults :=
  ⟨rfl, rfl⟩

/-! ## Lemmas on the operations of `ArrayBundlePort::buildOutputSignals` -/

theorem pushBackAt_get (v : List (List Value)) (i : Nat) (x : Value) (h : i < v.length) :
    ∃ v', pushBackAt v i x = some v' ∧ v'.length = v.length ∧
      ∀ j, v'[j]? = (v[j]?).map (fun row => if i = j then row ++ [x] else row) := by
  refine ⟨v.set i (v[i] ++ [x]), ?_, by simp, ?_⟩
  · simp [pushBackAt, List.getElem?_eq_getElem h]
  · intro j
    by_cases hij : i = j
    · subst hij
      simp [List.getElem?_set, h, List.getElem?_eq_getElem h]
    · simp [List.getElem?_set, hij]

theorem arrayGetLoop_spec (a : Value) (e : Ty) (n : Nat)
    (hty : a.getType = Ty.array e n) (idxs : List Nat) :
    ∀ (b : Block) (fc : List (List Value)), (∀ i ∈ idxs, i < fc.length) →
    ∃ fc', idxs.foldlM (arrayGetStep a) (b, fc) =
        some ({ b with ops := b.ops ++ getOps a e b.nextOp idxs,
                       nextOp := b.nextOp + idxs.length }, fc') ∧
      fc'.length = fc.length ∧
      ∀ j, fc'[j]? = (fc[j]?).map (fun row => row ++ getVals e j b.nextOp idxs) := by
  induction idxs with
  | nil =>
    intro b fc _
    refine ⟨fc, by simp [getOps], rfl, ?_⟩
    intro j
    cases fc[j]? <;> simp [getVals]
  | cons i rest ih =>
    intro b fc hin
    have hi : i < fc.length := hin i (by simp)
    obtain ⟨fc1, hpush, hlen1, hget1⟩ := pushBackAt_get fc i (Value.opResult b.nextOp 0 e) hi
    have hstep : arrayGetStep a (b, fc) i =
        some ({ b with ops := b.ops ++ [⟨b.nextOp, OpKind.arrayGet i, [a], [e]⟩],
                       nextOp := b.nextOp + 1 }, fc1) := by
      simp [arrayGetStep, ArrayGetOp.create, hty, castArrayType, Block.create, Block.insert,
        Operation.getResult, Operation.getResults, ArrayType.getElementType, hpush]
    obtain ⟨fc', hrest, hlen, hget⟩ := ih
      { b with ops := b.ops ++ [⟨b.nextOp, OpKind.arrayGet i, [a], [e]⟩],
               nextOp := b.nextOp + 1 } fc1
      (by intro j hj; rw [hlen1]; exact hin j (by simp [hj]))
    refine ⟨fc', ?_, by rw [hlen, hlen1], ?_⟩
    · rw [List.foldlM_cons, hstep]
      simp only [Option.bind_eq_bind, Option.some_bind]
      rw [hrest]
      simp [getOps, Nat.add_assoc, Nat.add_comm 1]
    · intro j
      rw [hget j, hget1 j]
      cases fc[j]? with
      | none => rfl
      | some row =>
        by_cases hij : i = j <;> simp [getVals, hij]

theorem getVals_range' (e : Ty) (j : Nat) (len : Nat) : ∀ (n s : Nat),
    getVals e j n (List.range' s len) =
      if s ≤ j ∧ j < s + len then [Value.opResult (n + (j - s)) 0 e] else [] := by
  induction len with
  | zero =>
    intro n s
    have : ¬ (s ≤ j ∧ j < s + 0) := by omega
    simp [getVals, this]
  | succ len ih =>
    intro n s
    rw [List.range'_succ]
    simp only [getVals, ih]
    by_cases h1 : s = j
    · subst h1
      have h2 : ¬ (s + 1 ≤ s ∧ s < s + 1 + len) := by omega
      simp [h2]
    · by_cases h3 : s ≤ j ∧ j < s + (len + 1)
      · have h4 : s + 1 ≤ j ∧ j < s + 1 + len := by omega
        have h5 : n + 1 + (j - (s + 1)) = n + (j - s) := by omega
        simp [h1, h3, h4, h5]
      · have h4 : ¬ (s + 1 ≤ j ∧ j < s + 1 + len) := by omega
        simp [h1, h3, h4]

theorem getVals_range (e : Ty) (j n numBundles : Nat) (hj : j < numBundles) :
    getVals e j n (List.range numBundles) = [Value.opResult (n + j) 0 e] := by
  rw [List.range_eq_range', getVals_range']
  simp [hj]

theorem mem_getOps_range' (a : Value) (e : Ty) (len : Nat) : ∀ (n s j : Nat),
    s ≤ j → j < s + len →
    ({ id := n + (j - s), kind := OpKind.arrayGet j, operands := [a], resultTypes := [e] } :
      Operation) ∈ getOps a e n (List.range' s len) := by
  induction len with
  | zero => intro n s j h1 h2; omega
  | succ len ih =>
    intro n s j h1 h2
    rw [List.range'_succ]
    simp only [getOps, List.mem_cons]
    by_cases h : s = j
    · subst h
      left
      simp
    · right
      have := ih (n + 1) (s + 1) j (by omega) (by omega)
      have h5 : n + 1 + (j - (s + 1)) = n + (j - s) := by omega
      rw [h5] at this
      exact this

theorem mem_getOps_range (a : Value) (e : Ty) (n numBundles j : Nat) (hj : j < numBundles) :
    ({ id := n + j, kind := OpKind.arrayGet j, operands := [a], resultTypes := [e] } :
      Operation) ∈ getOps a e n (List.range numBundles) := by
  rw [List.range_eq_range']
  have := mem_getOps_range' a e numBundles n 0 j (Nat.zero_le j) (by omega)
  simpa using this

theorem fromChannelLoop_spec (origPort : PortInfo) (numBundles : Nat)
    (chs : List BundledChannel) :
    ∀ (b : Block) (ni no : List NewPort) (fc : List (List Value)),
    fc.length = numBundles →
    ∃ fc', chs.foldlM (fromChannelStep origPort numBundles) (⟨some b, ni, no⟩, fc) =
        some (⟨some { arguments := b.arguments ++
                        chs.map (fun ch => ArrayType.get ch.type numBundles),
                      ops := b.ops ++ fromGets numBundles b.nextOp b.arguments.length chs,
                      terminator := b.terminator,
                      nextOp := b.nextOp + chs.length * numBundles },
               ni ++ declaredInputs origPort (fun ch => ArrayType.get ch.type numBundles)
                 ni.length (some b.arguments.length) chs,
               no⟩, fc') ∧
      fc'.length = numBundles ∧
      ∀ j, j < numBundles →
        fc'[j]? = (fc[j]?).map (fun row => row ++ fromRow numBundles j b.nextOp chs) := by
  induction chs with
  | nil =>
    intro b ni no fc hfc
    refine ⟨fc, by simp [fromGets, declaredInputs], hfc, ?_⟩
    intro j _
    cases fc[j]? <;> simp [fromRow]
  | cons ch rest ih =>
    intro b ni no fc hfc
    obtain ⟨fc1, hloop, hlen1, hget1⟩ := arrayGetLoop_spec
      (Value.blockArgument b.arguments.length (ArrayType.get ch.type numBundles))
      ch.type numBundles rfl (List.range numBundles)
      { b with arguments := b.arguments ++ [ArrayType.get ch.type numBundles] } fc
      (by intro i hi; rw [hfc]; exact List.mem_range.mp hi)
    have hstep : fromChannelStep origPort numBundles (⟨some b, ni, no⟩, fc) ch =
        some (⟨some { arguments := b.arguments ++ [ArrayType.get ch.type numBundles],
                      ops := b.ops ++ getOps
                        (Value.blockArgument b.arguments.length
                          (ArrayType.get ch.type numBundles))
                        ch.type b.nextOp (List.range numBundles),
                      terminator := b.terminator,
                      nextOp := b.nextOp + numBundles },
               ni ++ [declaredInput origPort (fun ch => ArrayType.get ch.type numBundles)
                 ni.length (some b.arguments.length) ch], no⟩, fc1) := by
      simp [fromChannelStep, PortConverterImpl.createNewInput, declaredInput,
        Block.addArgument, hloop]
    obtain ⟨fc', hrest, hlen, hget⟩ := ih
      { arguments := b.arguments ++ [ArrayType.get ch.type numBundles],
        ops := b.ops ++ getOps
          (Value.blockArgument b.arguments.length (ArrayType.get ch.type numBundles))
          ch.type b.nextOp (List.range numBundles),
        terminator := b.terminator,
        nextOp := b.nextOp + numBundles }
      (ni ++ [declaredInput origPort (fun ch => ArrayType.get ch.type numBundles)
        ni.length (some b.arguments.length) ch]) no fc1 (by rw [hlen1, hfc])
    refine ⟨fc', ?_, hlen, ?_⟩
    · rw [List.foldlM_cons, hstep]
      simp only [Option.bind_eq_bind, Option.some_bind]
      rw [hrest]
      simp [fromGets, declaredInputs, Nat.add_mul, Nat.add_assoc, Nat.add_comm numBundles]
    · intro j hj
      rw [hget j hj, hget1 j]
      cases fc[j]? with
      | none => rfl
      | some row => simp [fromRow, getVals_range _ _ _ _ hj]

theorem pushToChannels_get (vals : List Value) :
    ∀ (idx : Nat) (tc : List (List Value)), idx + vals.length ≤ tc.length →
    ∃ tc', pushToChannels idx vals tc = some tc' ∧ tc'.length = tc.length ∧
      ∀ i, tc'[i]? = (tc[i]?).map
        (fun row => row ++ (if idx ≤ i then (vals[i - idx]?).toList else [])) := by
  induction vals with
  | nil =>
    intro idx tc _
    refine ⟨tc, rfl, rfl, ?_⟩
    intro i
    cases tc[i]? <;> simp
  | cons v rest ih =>
    intro idx tc h
    simp only [List.length_cons] at h
    obtain ⟨tc1, hpush, hlen1, hget1⟩ := pushBackAt_get tc idx v (by omega)
    obtain ⟨tc', hrest, hlen, hget⟩ := ih (idx + 1) tc1 (by omega)
    refine ⟨tc', by simp [pushToChannels, hpush, hrest], by rw [hlen, hlen1], ?_⟩
    intro i
    rw [hget i, hget1 i]
    cases tc[i]? with
    | none => rfl
    | some row =>
      simp only [Option.map_some', Option.some.injEq]
      by_cases h1 : idx = i
      · subst h1
        have h2 : ¬ (idx + 1 ≤ idx) := by omega
        simp [h2]
      · by_cases h3 : idx ≤ i
        · have h4 : idx + 1 ≤ i := by omega
          have h5 : i - idx = (i - (idx + 1)) + 1 := by omega
          simp [h1, h3, h4, h5]
        · have h4 : ¬ (idx + 1 ≤ i) := by omega
          simp [h1, h3, h4]

theorem getResults_get (op : Operation) (i : Nat) :
    op.getResults[i]? = (op.resultTypes[i]?).map (fun ty => Value.opResult op.id i ty) := by
  simp only [Operation.getResults, List.getElem?_map, List.getElem?_enum]
  cases op.resultTypes[i]? <;> rfl

theorem unpackLoop_spec (v : Value) (chs : List BundledChannel) (n : Nat)
    (hty : v.getType = Ty.array (Ty.bundle chs) n)
    (fcs : List (List Value)) (idxs : List Nat) :
    ∀ (b : Block) (tc : List (List Value)), (∀ i ∈ idxs, i < fcs.length) →
    tc.length = (UnpackBundleOp.resultTypes ⟨chs⟩).length →
    ∃ tc', idxs.foldlM (unpackStep v fcs) (b, tc) =
        some ({ b with ops := b.ops ++ unpackOps v chs fcs b.nextOp idxs,
                       nextOp := b.nextOp + 2 * idxs.length }, tc') ∧
      tc'.length = tc.length ∧
      ∀ i ty, (UnpackBundleOp.resultTypes ⟨chs⟩)[i]? = some ty →
        tc'[i]? = (tc[i]?).map (fun row => row ++ toColumn i ty b.nextOp idxs) := by
  induction idxs with
  | nil =>
    intro b tc _ _
    refine ⟨tc, by simp [unpackOps], rfl, ?_⟩
    intro i ty _
    cases tc[i]? <;> simp [toColumn]
  | cons j rest ih =>
    intro b tc hin htc
    have hj : j < fcs.length := hin j (by simp)
    obtain ⟨tc1, hpush, hlen1, hget1⟩ := pushToChannels_get
      (UnpackBundleOp.getToChannels
        ⟨b.nextOp + 1, OpKind.unpack,
          Value.opResult b.nextOp 0 (Ty.bundle chs) :: fcs.getD j [],
          UnpackBundleOp.resultTypes ⟨chs⟩⟩) 0 tc
      (by simp [UnpackBundleOp.getToChannels, Operation.getResults, htc])
    have hgetD : fcs.getD j [] = fcs[j] := by
      simp [List.getD, List.getElem?_eq_getElem hj]
    have hstep : unpackStep v fcs (b, tc) j =
        some ({ b with
                  ops := (b.ops ++ [⟨b.nextOp, OpKind.arrayGet j, [v], [Ty.bundle chs]⟩]) ++
                    [⟨b.nextOp + 1, OpKind.unpack,
                      Value.opResult b.nextOp 0 (Ty.bundle chs) :: fcs.getD j [],
                      UnpackBundleOp.resultTypes ⟨chs⟩⟩],
                  nextOp := b.nextOp + 1 + 1 }, tc1) := by
      have hres : (Value.opResult b.nextOp 0 (Ty.bundle chs)).getType = Ty.bundle chs := rfl
      rw [hgetD] at hpush ⊢
      simp [unpackStep, ArrayGetOp.create, hty, castArrayType, Block.create, Block.insert,
        Operation.getResult, Operation.getResults, ArrayType.getElementType,
        List.getElem?_eq_getElem hj, UnpackBundleOp.create, hres,
        castChannelBundleType, hpush]
    obtain ⟨tc', hrest, hlen, hget⟩ := ih
      { b with
          ops := (b.ops ++ [⟨b.nextOp, OpKind.arrayGet j, [v], [Ty.bundle chs]⟩]) ++
            [⟨b.nextOp + 1, OpKind.unpack,
              Value.opResult b.nextOp 0 (Ty.bundle chs) :: fcs.getD j [],
              UnpackBundleOp.resultTypes ⟨chs⟩⟩],
          nextOp := b.nextOp + 1 + 1 } tc1
      (by intro k hk; exact hin k (by simp [hk])) (by rw [hlen1, htc])
    refine ⟨tc', ?_, by rw [hlen, hlen1], ?_⟩
    · rw [List.foldlM_cons, hstep]
      simp only [Option.bind_eq_bind, Option.some_bind]
      rw [hrest]
      simp only [unpackOps, List.length_cons, List.append_assoc, List.singleton_append,
        Option.some.injEq, Prod.mk.injEq, and_true]
      congr 1
      omega
    · intro i ty hi
      rw [hget i ty hi, hget1 i]
      cases tc[i]? with
      | none => rfl
      | some row =>
        simp [toColumn, UnpackBundleOp.getToChannels, getResults_get, hi, Nat.add_assoc]

theorem arrayCreateLoop_spec (rows : List (List Value)) :
    ∀ (b : Block) (acc : List Value),
    rows.foldlM arrayCreateStep (b, acc) =
      some ({ b with ops := b.ops ++ createOps b.nextOp rows,
                     nextOp := b.nextOp + rows.length },
            acc ++ createVals b.nextOp rows) := by
  induction rows with
  | nil => intro b acc; simp [createOps, createVals]
  | cons row rest ih =>
    intro b acc
    have hstep : arrayCreateStep (b, acc) row =
        some ({ b with
                  ops := b.ops ++ [⟨b.nextOp, OpKind.arrayCreate, row,
                    [ArrayType.get ((row.head?.map Value.getType).getD Ty.none) row.length]⟩],
                  nextOp := b.nextOp + 1 },
              acc ++ [Value.opResult b.nextOp 0
                (ArrayType.get ((row.head?.map Value.getType).getD Ty.none) row.length)]) := by
      simp [arrayCreateStep, ArrayCreateOp.create, Block.create, Block.insert,
        Operation.getResult, Operation.getResults]
    rw [List.foldlM_cons, hstep]
    simp only [Option.bind_eq_bind, Option.some_bind]
    rw [ih]
    simp [createOps, createVals, Nat.add_assoc, Nat.add_comm 1]

theorem createVals_length (rows : List (List Value)) : ∀ n : Nat,
    (createVals n rows).length = rows.length := by
  induction rows with
  | nil => intro n; rfl
  | cons row rest ih => intro n; simp [createVals, ih]

theorem createOps_length (rows : List (List Value)) : ∀ n : Nat,
    (createOps n rows).length = rows.length := by
  induction rows with
  | nil => intro n; rfl
  | cons row rest ih => intro n; simp [createOps, ih]

/-- The result of `ArrayBundlePort::buildOutputSignals` on a module with a
body, written out: the block gains, in this order, the accesses to the new
inputs, the accesses to the original array each followed by its Unpack, and
the array constructions. -/
theorem arrayBuildOutputSignals_body (origPort : PortInfo) (chs : List BundledChannel)
    (numBundles : Nat) (c : PortConverterImpl) (b : Block) (v : Value)
    (hty : origPort.type = Ty.array (Ty.bundle chs) numBundles) (hb : c.body = some b)
    (hv : b.terminator.operands[origPort.argNum]? = some v)
    (hvt : v.getType = Ty.array (Ty.bundle chs) numBundles) :
    ∃ fc tc,
      (ArrayBundlePort.new origPort).buildOutputSignals c =
        some
          ({ origPort := origPort, newInputChannels := [],
             newOutputChannels :=
               (declaredOutputs origPort (fun ch => ArrayType.get ch.type numBundles)
                 (some (createVals (b.nextOp +
                   (chs.filter (fun ch => ch.direction = ChannelDirection.from)).length *
                     numBundles + 2 * numBundles) tc))
                 c.newOutputs.length 0
                 (chs.filter (fun ch => ch.direction = ChannelDirection.to))).map
                   NewPort.info },
           { body := some
               { arguments := b.arguments ++
                   (chs.filter (fun ch => ch.direction = ChannelDirection.from)).map
                     (fun ch => ArrayType.get ch.type numBundles),
                 ops := b.ops ++
                   (fromGets numBundles b.nextOp b.arguments.length
                     (chs.filter (fun ch => ch.direction = ChannelDirection.from)) ++
                   (unpackOps v chs fc (b.nextOp +
                     (chs.filter (fun ch => ch.direction = ChannelDirection.from)).length *
                       numBundles) (List.range numBundles) ++
                   createOps (b.nextOp +
                     (chs.filter (fun ch => ch.direction = ChannelDirection.from)).length *
                       numBundles + 2 * numBundles) tc)),
                 terminator := b.terminator,
                 nextOp := b.nextOp +
                   (chs.filter (fun ch => ch.direction = ChannelDirection.from)).length *
                     numBundles + 2 * numBundles + tc.length },
             newInputs := c.newInputs ++
               declaredInputs origPort (fun ch => ArrayType.get ch.type numBundles)
                 c.newInputs.length (some b.arguments.length)
                 (chs.filter (fun ch => ch.direction = ChannelDirection.from)),
             newOutputs := c.newOutputs ++
               declaredOutputs origPort (fun ch => ArrayType.get ch.type numBundles)
                 (some (createVals (b.nextOp +
                   (chs.filter (fun ch => ch.direction = ChannelDirection.from)).length *
                     numBundles + 2 * numBundles) tc))
                 c.newOutputs.length 0
                 (chs.filter (fun ch => ch.direction = ChannelDirection.to)) }) ∧
      fc.length = numBundles ∧
      (∀ j, j < numBundles → fc[j]? = some (fromRow numBundles j b.nextOp
        (chs.filter (fun ch => ch.direction = ChannelDirection.from)))) ∧
      tc.length = (chs.filter (fun ch => ch.direction = ChannelDirection.to)).length ∧
      (∀ i ty, (UnpackBundleOp.resultTypes ⟨chs⟩)[i]? = some ty →
        tc[i]? = some (toColumn i ty (b.nextOp +
          (chs.filter (fun ch => ch.direction = ChannelDirection.from)).length * numBundles)
          (List.range numBundles))) := by
  obtain ⟨body, ni, no⟩ := c
  simp only at hb
  subst hb
  obtain ⟨fc, hloop1, hlen1, hget1⟩ := fromChannelLoop_spec origPort numBundles
    (chs.filter (fun ch => ch.direction = ChannelDirection.from)) b ni no
    (List.replicate numBundles []) (by simp)
  have hT : (UnpackBundleOp.resultTypes ⟨chs⟩).length =
      (chs.filter (fun ch => ch.direction = ChannelDirection.to)).length := by
    simp [UnpackBundleOp.resultTypes, ChannelBundleType.getChannels]
  obtain ⟨tc, hloop2, hlen2, hget2⟩ := unpackLoop_spec v chs numBundles hvt fc
    (List.range numBundles)
    { arguments := b.arguments ++
        (chs.filter (fun ch => ch.direction = ChannelDirection.from)).map
          (fun ch => ArrayType.get ch.type numBundles),
      ops := b.ops ++ fromGets numBundles b.nextOp b.arguments.length
        (chs.filter (fun ch => ch.direction = ChannelDirection.from)),
      terminator := b.terminator,
      nextOp := b.nextOp +
        (chs.filter (fun ch => ch.direction = ChannelDirection.from)).length * numBundles }
    (List.replicate (chs.filter (fun ch => ch.direction = ChannelDirection.to)).length [])
    (by intro i hi; rw [hlen1]; exact List.mem_range.mp hi) (by simp [hT])
  have htc : tc.length = (chs.filter (fun ch => ch.direction = ChannelDirection.to)).length := by
    rw [hlen2]; simp
  have hout := createOutputsLoop_spec origPort (fun ch => ArrayType.get ch.type numBundles)
    (some (createVals (b.nextOp +
      (chs.filter (fun ch => ch.direction = ChannelDirection.from)).length * numBundles +
        2 * numBundles) tc))
    (chs.filter (fun ch => ch.direction = ChannelDirection.to)) 0
    { body := some
        { arguments := b.arguments ++
            (chs.filter (fun ch => ch.direction = ChannelDirection.from)).map
              (fun ch => ArrayType.get ch.type numBundles),
          ops := b.ops ++ fromGets numBundles b.nextOp b.arguments.length
              (chs.filter (fun ch => ch.direction = ChannelDirection.from)) ++
            unpackOps v chs fc (b.nextOp +
              (chs.filter (fun ch => ch.direction = ChannelDirection.from)).length *
                numBundles) (List.range numBundles) ++
            createOps (b.nextOp +
              (chs.filter (fun ch => ch.direction = ChannelDirection.from)).length *
                numBundles + 2 * numBundles) tc,
          terminator := b.terminator,
          nextOp := b.nextOp +
            (chs.filter (fun ch => ch.direction = ChannelDirection.from)).length *
              numBundles + 2 * numBundles + tc.length },
      newInputs := ni ++ declaredInputs origPort (fun ch => ArrayType.get ch.type numBundles)
        ni.length (some b.arguments.length)
        (chs.filter (fun ch => ch.direction = ChannelDirection.from)),
      newOutputs := no }
    (List.replicate (chs.filter (fun ch => ch.direction = ChannelDirection.to)).length
      PortInfo.default) (by simp) (by intro rs h; cases h; simp [createVals_length, htc])
  refine ⟨fc, tc, ?_, hlen1, ?_, htc, ?_⟩
  · simp only [ArrayBundlePort.buildOutputSignals, ArrayBundlePort.new, hty, castArrayType,
      Option.some_bind, ArrayType.getElementType, castChannelBundleType,
      ChannelBundleType.getChannels, ArrayType.getNumElements, hloop1,
      resizePorts_nil, Operation.getOperand, hv, hloop2, arrayCreateLoop_spec,
      List.length_range, List.nil_append, hout]
    simp [declaredOutputs_length]
  · intro j hj
    rw [hget1 j hj]
    simp [hj]
  · intro i ty hi
    have hlt : i < (chs.filter (fun ch => ch.direction = ChannelDirection.to)).length := by
      rw [← hT]
      by_contra hge
      rw [List.getElem?_eq_none (by omega)] at hi
      cases hi
    rw [hget2 i ty hi]
    simp [hlt]

theorem getOps_kind (a : Value) (e : Ty) (idxs : List Nat) : ∀ n : Nat,
    ∀ op ∈ getOps a e n idxs, ∃ j, op.kind = OpKind.arrayGet j := by
  induction idxs with
  | nil => intro n op h; simp [getOps] at h
  | cons j rest ih =>
    intro n op h
    simp only [getOps, List.mem_cons] at h
    rcases h with h | h
    · exact ⟨j, by rw [h]⟩
    · exact ih _ op h

theorem fromGets_kind (numBundles : Nat) (chs : List BundledChannel) : ∀ n a : Nat,
    ∀ op ∈ fromGets numBundles n a chs, ∃ j, op.kind = OpKind.arrayGet j := by
  induction chs with
  | nil => intro n a op h; simp [fromGets] at h
  | cons ch rest ih =>
    intro n a op h
    simp only [fromGets, List.mem_append] at h
    rcases h with h | h
    · exact getOps_kind _ _ _ _ op h
    · exact ih _ _ op h

theorem createOps_kind (rows : List (List Value)) : ∀ n : Nat,
    ∀ op ∈ createOps n rows, op.kind = OpKind.arrayCreate := by
  induction rows with
  | nil => intro n op h; simp [createOps] at h
  | cons row rest ih =>
    intro n op h
    simp only [createOps, List.mem_cons] at h
    rcases h with h | h
    · rw [h]
    · exact ih _ op h

theorem filter_kind_nil (k : OpKind) (l : List Operation) (h : ∀ op ∈ l, op.kind ≠ k) :
    l.filter (fun op => op.kind = k) = [] := by
  rw [List.filter_eq_nil_iff]
  intro op hop
  simpa using h op hop

theorem unpackOps_filter_unpack (v : Value) (chs : List BundledChannel)
    (fc : List (List Value)) (idxs : List Nat) : ∀ n : Nat,
    (unpackOps v chs fc n idxs).filter (fun op => op.kind = OpKind.unpack) =
      unpacksOf chs fc n idxs := by
  induction idxs with
  | nil => intro n; rfl
  | cons j rest ih =>
    intro n
    simp [unpackOps, unpacksOf, List.filter_cons, ih]

theorem unpackOps_filter_pack (v : Value) (chs : List BundledChannel)
    (fc : List (List Value)) (idxs : List Nat) : ∀ n : Nat,
    (unpackOps v chs fc n idxs).filter (fun op => op.kind = OpKind.pack) = [] := by
  induction idxs with
  | nil => intro n; rfl
  | cons j rest ih =>
    intro n
    simp [unpackOps, List.filter_cons, ih]

theorem unpacksOf_length (chs : List BundledChannel) (fc : List (List Value))
    (idxs : List Nat) : ∀ n : Nat, (unpacksOf chs fc n idxs).length = idxs.length := by
  induction idxs with
  | nil => intro n; rfl
  | cons j rest ih => intro n; simp [unpacksOf, ih]

theorem unpacksOf_range' (chs : List BundledChannel) (fc : List (List Value)) (len : Nat) :
    ∀ (n s k : Nat), k < len →
    (unpacksOf chs fc n (List.range' s len))[k]? =
      some { id := n + 2 * k + 1, kind := OpKind.unpack,
             operands := Value.opResult (n + 2 * k) 0 (Ty.bundle chs) :: fc.getD (s + k) [],
             resultTypes := UnpackBundleOp.resultTypes ⟨chs⟩ } := by
  induction len with
  | zero => intro n s k h; omega
  | succ len ih =>
    intro n s k h
    rw [List.range'_succ]
    cases k with
    | zero => simp [unpacksOf]
    | succ k =>
      simp only [unpacksOf, List.getElem?_cons_succ]
      rw [ih (n + 2) (s + 1) k (by omega)]
      have h1 : n + 2 + 2 * k + 1 = n + 2 * (k + 1) + 1 := by omega
      have h2 : n + 2 + 2 * k = n + 2 * (k + 1) := by omega
      have h3 : s + 1 + k = s + (k + 1) := by omega
      rw [h1, h2, h3]

theorem mem_unpackOps_range' (v : Value) (chs : List BundledChannel)
    (fc : List (List Value)) (len : Nat) : ∀ (n s k : Nat), k < len →
    ({ id := n + 2 * k, kind := OpKind.arrayGet (s + k), operands := [v],
       resultTypes := [Ty.bundle chs] } : Operation) ∈
      unpackOps v chs fc n (List.range' s len) := by
  induction len with
  | zero => intro n s k h; omega
  | succ len ih =>
    intro n s k h
    rw [List.range'_succ]
    cases k with
    | zero => simp [unpackOps]
    | succ k =>
      simp only [unpackOps, List.mem_cons]
      right; right
      have := ih (n + 2) (s + 1) k (by omega)
      have h2 : n + 2 + 2 * k = n + 2 * (k + 1) := by omega
      have h3 : s + 1 + k = s + (k + 1) := by omega
      rw [h2, h3] at this
      exact this

theorem toColumn_range' (i : Nat) (ty : Ty) (len : Nat) : ∀ (n s : Nat),
    (toColumn i ty n (List.range' s len)).length = len ∧
    ∀ k, k < len →
      (toColumn i ty n (List.range' s len))[k]? = some (Value.opResult (n + 2 * k + 1) i ty) := by
  induction len with
  | zero => intro n s; exact ⟨rfl, fun k h => by omega⟩
  | succ len ih =>
    intro n s
    rw [List.range'_succ]
    refine ⟨by simp [toColumn, (ih (n + 2) (s + 1)).1], ?_⟩
    intro k hk
    cases k with
    | zero => simp [toColumn]
    | succ k =>
      simp only [toColumn, List.getElem?_cons_succ]
      rw [(ih (n + 2) (s + 1)).2 k (by omega)]
      have h1 : n + 2 + 2 * k + 1 = n + 2 * (k + 1) + 1 := by omega
      rw [h1]

theorem fromRow_length (numBundles j : Nat) (chs : List BundledChannel) : ∀ n : Nat,
    (fromRow numBundles j n chs).length = chs.length := by
  induction chs with
  | nil => intro n; rfl
  | cons ch rest ih => intro n; simp [fromRow, ih]

theorem fromRow_fromGets (origPort : PortInfo) (numBundles j : Nat) (hj : j < numBundles)
    (chs : List BundledChannel) : ∀ (n a k m : Nat),
    m < chs.length →
    ∃ g ∈ fromGets numBundles n a chs, g.kind = OpKind.arrayGet j ∧
      (g.getResult 0).isSome ∧
      (fromRow numBundles j n chs)[m]? = g.getResult 0 ∧
      ∃ x, g.operands = [x] ∧
        ((declaredInputs origPort (fun ch => ArrayType.get ch.type numBundles) k (some a)
          chs).map NewPort.value)[m]? = some x := by
  induction chs with
  | nil => intro n a k m h; simp at h
  | cons ch rest ih =>
    intro n a k m h
    cases m with
    | zero =>
      refine ⟨{ id := n + j, kind := OpKind.arrayGet j,
                operands := [Value.blockArgument a (ArrayType.get ch.type numBundles)],
                resultTypes := [ch.type] }, ?_, rfl, ?_, ?_, ?_⟩
      · simp only [fromGets, List.mem_append]
        left
        exact mem_getOps_range _ _ n numBundles j hj
      · simp [Operation.getResult, Operation.getResults]
      · simp [fromRow, Operation.getResult, Operation.getResults]
      · exact ⟨_, rfl, by simp [declaredInputs, declaredInput]⟩
    | succ m =>
      simp only [List.length_cons, Nat.add_lt_add_iff_right] at h
      obtain ⟨g, hg, hk, hs, hr, x, hx, ho⟩ := ih (n + numBundles) (a + 1) (k + 1) m h
      refine ⟨g, ?_, hk, hs, ?_, x, hx, ?_⟩
      · simp only [fromGets, List.mem_append]
        right
        exact hg
      · simpa [fromRow] using hr
      · simpa [declaredInputs] using ho

theorem createOps_get (rows : List (List Value)) : ∀ (n i : Nat) (row : List Value),
    rows[i]? = some row →
    ∃ a ∈ createOps n rows, a.kind = OpKind.arrayCreate ∧ a.operands = row ∧
      (a.getResult 0).isSome ∧ (createVals n rows)[i]? = a.getResult 0 := by
  induction rows with
  | nil => intro n i row h; simp at h
  | cons r rest ih =>
    intro n i row h
    cases i with
    | zero =>
      simp only [List.getElem?_cons_zero, Option.some.injEq] at h
      subst h
      refine ⟨{ id := n, kind := OpKind.arrayCreate, operands := r,
                resultTypes := [ArrayType.get ((r.head?.map Value.getType).getD Ty.none)
                  r.length] }, ?_, rfl, rfl, ?_, ?_⟩
      · simp [createOps]
      · simp [Operation.getResult, Operation.getResults]
      · simp [createVals, Operation.getResult, Operation.getResults]
    | succ i =>
      simp only [List.getElem?_cons_succ] at h
      obtain ⟨a, ha, hk, ho, hs, hr⟩ := ih (n + 1) i row h
      refine ⟨a, ?_, hk, ho, hs, ?_⟩
      · simp only [createOps, List.mem_cons]
        right
        exact ha
      · simpa [createVals] using hr

theorem getElem_of_getElem_opt {α : Type} (l : List α) (i : Nat) (x : α) (h : i < l.length)
    (hx : l[i]? = some x) : l[i] = x := by
  rw [List.getElem?_eq_getElem h] at hx
  exact Option.some.inj hx

theorem unpackOps_filter_create (v : Value) (chs : List BundledChannel)
    (fc : List (List Value)) (idxs : List Nat) : ∀ n : Nat,
    (unpackOps v chs fc n idxs).filter (fun op => op.kind = OpKind.arrayCreate) = [] := by
  induction idxs with
  | nil => intro n; rfl
  | cons j rest ih =>
    intro n
    simp [unpackOps, List.filter_cons, ih]

/-- What `ArrayBundlePort::buildOutputSignals` creates, with or without a body:
one array input per `from` channel, one array output per `to` channel, and
with a body a list of appended operations that holds `numBundles` Unpacks and
no Pack. -/
theorem arrayBuildOutputSignals_unpacks (origPort : PortInfo) (chs : List BundledChannel)
    (numBundles : Nat) (c : PortConverterImpl)
    (hty : origPort.type = Ty.array (Ty.bundle chs) numBundles)
    (hout : isOutputOf origPort c) :
    ∃ bp c' ins outs, (ArrayBundlePort.new origPort).buildOutputSignals c = some (bp, c') ∧
      c'.newInputs = c.newInputs ++ ins ∧ c'.newOutputs = c.newOutputs ++ outs ∧
      ins.map (fun p => (p.suffix, p.info.dir, p.info.type)) =
        (chs.filter (fun ch => ch.direction = ChannelDirection.from)).map
          (fun ch => ("_" ++ ch.name, Direction.Input, Ty.array ch.type numBundles)) ∧
      outs.map (fun p => (p.suffix, p.info.dir, p.info.type)) =
        (chs.filter (fun ch => ch.direction = ChannelDirection.to)).map
          (fun ch => ("_" ++ ch.name, Direction.Output, Ty.array ch.type numBundles)) ∧
      (c.body = Option.none → c'.body = Option.none) ∧
      (∀ b, c.body = some b → ∃ b' added, c'.body = some b' ∧ b'.ops = b.ops ++ added ∧
        b'.terminator = b.terminator ∧
        (added.filter (fun op => op.kind = OpKind.unpack)).length = numBundles ∧
        added.filter (fun op => op.kind = OpKind.pack) = []) := by
  cases hb : c.body with
  | none =>
    obtain ⟨bp, c', r, h1, hi1, ho1, _, _, hb1, _⟩ :=
      arrayBuildOutputSignals_spec origPort chs numBundles c hty (by
        intro b hb'; rw [hb] at hb'; cases hb')
    refine ⟨bp, c', _, _, h1, hi1, ho1,
      declaredInputs_map origPort _ _ _ (fun _ _ _ => rfl) _ _ _,
      declaredOutputs_map origPort _ _ _ _ (fun _ _ _ => rfl) _ _ _,
      fun _ => (hb1 hb).2, ?_⟩
    intro b hb'
    cases hb'
  | some body =>
    obtain ⟨v, hv, hvt⟩ : ∃ v, body.terminator.operands[origPort.argNum]? = some v ∧
        v.getType = origPort.type := by
      simpa [isOutputOf, hb] using hout
    rw [hty] at hvt
    obtain ⟨fc, tc, hbuild, _, _, _, _⟩ :=
      arrayBuildOutputSignals_body origPort chs numBundles c body v hty hb hv hvt
    refine ⟨_, _, _, _, hbuild, rfl, rfl,
      declaredInputs_map origPort _ _ _ (fun _ _ _ => rfl) _ _ _,
      declaredOutputs_map origPort _ _ _ _ (fun _ _ _ => rfl) _ _ _,
      (fun h => by cases h), ?_⟩
    intro b hb'
    cases hb'
    refine ⟨_, _, rfl, rfl, rfl, ?_, ?_⟩
    · rw [List.filter_append, List.filter_append, unpackOps_filter_unpack,
        filter_kind_nil OpKind.unpack (fromGets _ _ _ _) (by
          intro op hop h
          obtain ⟨j, hj⟩ := fromGets_kind _ _ _ _ op hop
          rw [hj] at h
          cases h),
        filter_kind_nil OpKind.unpack (createOps _ _) (by
          intro op hop h
          rw [createOps_kind _ _ op hop] at h
          cases h)]
      simp [unpacksOf_length]
    · rw [List.filter_append, List.filter_append, unpackOps_filter_pack,
        filter_kind_nil OpKind.pack (fromGets _ _ _ _) (by
          intro op hop h
          obtain ⟨j, hj⟩ := fromGets_kind _ _ _ _ op hop
          rw [hj] at h
          cases h),
        filter_kind_nil OpKind.pack (createOps _ _) (by
          intro op hop h
          rw [createOps_kind _ _ op hop] at h
          cases h)]
      simp

/-- The output half of the case of an empty array: on an output port of type
array of 0 bundles, `ArrayBundlePort::buildOutputSignals` creates one port of
zero-length array type per channel and, with a body, appends operations none
of which is a Pack or an Unpack. -/
theorem arrayOutput_zero_bundles (origPort : PortInfo) (chs : List BundledChannel)
    (c : PortConverterImpl) (hty : origPort.type = Ty.array (Ty.bundle chs) 0)
    (hout : isOutputOf origPort c) :
    ∃ bp c' ins outs, (ArrayBundlePort.new origPort).buildOutputSignals c = some (bp, c') ∧
      c'.newInputs = c.newInputs ++ ins ∧ c'.newOutputs = c.newOutputs ++ outs ∧
      ins.map (fun p => (p.suffix, p.info.dir, p.info.type)) =
        (chs.filter (fun ch => ch.direction = ChannelDirection.from)).map
          (fun ch => ("_" ++ ch.name, Direction.Input, Ty.array ch.type 0)) ∧
      outs.map (fun p => (p.suffix, p.info.dir, p.info.type)) =
        (chs.filter (fun ch => ch.direction = ChannelDirection.to)).map
          (fun ch => ("_" ++ ch.name, Direction.Output, Ty.array ch.type 0)) ∧
      (∀ b, c.body = some b → ∃ b' added, c'.body = some b' ∧ b'.ops = b.ops ++ added ∧
        added.filter (fun op => op.kind = OpKind.unpack) = [] ∧
        added.filter (fun op => op.kind = OpKind.pack) = []) := by
  obtain ⟨bp, c', ins, outs, h, hi, ho, hmi, hmo, _, hbody⟩ :=
    arrayBuildOutputSignals_unpacks origPort chs 0 c hty hout
  refine ⟨bp, c', ins, outs, h, hi, ho, hmi, hmo, ?_⟩
  intro b hb
  obtain ⟨b', added, h1, h2, _, h3, h4⟩ := hbody b hb
  exact ⟨b', added, h1, h2, List.length_eq_zero.mp h3, h4⟩

/-! ## More lemmas on the pass -/

theorem convertModules_false_iff (run : ModuleOp → String → Bool × ModuleOp)
    (mods : List String) : ∀ st : ModuleOp × List Call,
    (convertModules run mods st).1 = false ↔
      ∃ pre m post, mods = pre ++ m :: post ∧ (convertModules run pre st).1 = true ∧
        (run (convertModules run pre st).2.1 m).1 = false := by
  induction mods with
  | nil =>
    intro st
    constructor
    · intro h; simp [convertModules] at h
    · rintro ⟨pre, m, post, h, _⟩
      simp at h
  | cons x rest ih =>
    intro st
    cases hx : (run st.1 x).1 with
    | false =>
      constructor
      · intro _
        exact ⟨[], x, rest, rfl, rfl, hx⟩
      · intro _
        simp [convertModules, hx]
    | true =>
      have hstep : convertModules run (x :: rest) st =
          convertModules run rest ((run st.1 x).2, st.2 ++ [Call.portConverter x]) := by
        simp [convertModules, hx]
      rw [hstep, ih]
      constructor
      · rintro ⟨pre, m, post, hrest, hpre, hfail⟩
        refine ⟨x :: pre, m, post, by simp [hrest], ?_, ?_⟩
        · simpa [convertModules, hx] using hpre
        · simpa [convertModules, hx] using hfail
      · rintro ⟨pre, m, post, hmods, hpre, hfail⟩
        cases pre with
        | nil =>
          simp only [List.nil_append, List.cons.injEq] at hmods
          obtain ⟨h1, _⟩ := hmods
          subst h1
          simp only [convertModules] at hfail
          rw [hx] at hfail
          cases hfail
        | cons y pre' =>
          simp only [List.cons_append, List.cons.injEq] at hmods
          obtain ⟨h1, h2⟩ := hmods
          subst h1
          refine ⟨pre', m, post, h2, ?_, ?_⟩
          · simpa [convertModules, hx] using hpre
          · simpa [convertModules, hx] using hfail

/-! ## Lemmas on insertion, replaced uses and connections -/

theorem insertBefore_split (id : Nat) (op : Operation) : ∀ ops : List Operation,
    ∃ pre post, ops = pre ++ post ∧ insertBefore id op ops = pre ++ op :: post ∧
      (∀ o ∈ pre, o.id ≠ id) ∧ (∀ x, post.head? = some x → x.id = id) := by
  intro ops
  induction ops with
  | nil => exact ⟨[], [], rfl, rfl, by simp, by simp⟩
  | cons x xs ih =>
    by_cases hx : x.id = id
    · refine ⟨[], x :: xs, rfl, by simp [insertBefore, hx], by simp, ?_⟩
      intro y hy
      simp at hy
      rw [← hy]; exact hx
    · obtain ⟨pre, post, h1, h2, h3, h4⟩ := ih
      refine ⟨x :: pre, post, by simp [h1], by simp [insertBefore, hx, h2], ?_, h4⟩
      intro o ho
      simp at ho
      rcases ho with h | h
      · rw [h]; exact hx
      · exact h3 o h

theorem Block.insert_split (b : Block) (pt : InsertPoint) (op : Operation) :
    ∃ pre post, b.ops = pre ++ post ∧ (b.insert pt op).ops = pre ++ op :: post ∧
      (pt = InsertPoint.blockBegin → pre = []) ∧
      (pt = InsertPoint.blockTerminator → post = []) ∧
      (∀ id, pt = InsertPoint.beforeOp id →
        (∀ o ∈ pre, o.id ≠ id) ∧ (∀ x, post.head? = some x → x.id = id)) := by
  cases pt with
  | blockBegin =>
    exact ⟨[], b.ops, rfl, rfl, fun _ => rfl, (fun h => by cases h), (fun id h => by cases h)⟩
  | beforeOp id =>
    obtain ⟨pre, post, h1, h2, h3, h4⟩ := insertBefore_split id op b.ops
    refine ⟨pre, post, h1, h2, (fun h => by cases h), (fun h => by cases h), ?_⟩
    intro id2 h
    injection h with h
    subst h
    exact ⟨h3, h4⟩
  | blockTerminator =>
    exact ⟨b.ops, [], by simp, by simp [Block.insert], (fun h => by cases h), (fun _ => rfl),
      (fun id h => by cases h)⟩

theorem not_mem_map_replace (old new : Value) (hne : new ≠ old) (l : List Value) :
    old ∉ l.map (fun v => if v = old then new else v) := by
  intro h
  rw [List.mem_map] at h
  obtain ⟨v, _, hv⟩ := h
  by_cases hvo : v = old
  · rw [if_pos hvo] at hv; exact hne hv
  · rw [if_neg hvo] at hv; exact hvo hv

theorem connectValue_not_mem (pairs : List (Value × Value)) (v : Value)
    (h : v ∉ pairs.map Prod.fst) : connectValue pairs v = v := by
  induction pairs with
  | nil => rfl
  | cons p rest ih =>
    simp only [List.map_cons, List.mem_cons, not_or] at h
    simp [connectValue, h.1, ih h.2]

theorem connectValue_map {α : Type} (f g : α → Value) : ∀ (l : List α),
    (l.map f).Nodup → ∀ x ∈ l, connectValue (l.map (fun x => (f x, g x))) (f x) = g x := by
  intro l
  induction l with
  | nil => intro _ x hx; cases hx
  | cons a l ih =>
    intro hnd x hx
    simp only [List.map_cons, List.nodup_cons] at hnd
    simp only [List.mem_cons] at hx
    rcases hx with h | h
    · subst h; simp [connectValue]
    · have hne : f x ≠ f a := by
        intro he
        apply hnd.1
        rw [← he]
        exact List.mem_map_of_mem f h
      simp [connectValue, hne, ih hnd.2 x h]

theorem map_connectValue {α : Type} (f g : α → Value) (l : List α) (hnd : (l.map f).Nodup) :
    (l.map f).map (connectValue (l.map (fun x => (f x, g x)))) = l.map g := by
  rw [List.map_map]
  apply List.map_congr_left
  intro x hx
  exact connectValue_map f g l hnd x hx

theorem declaredInputs_value_nodup (origPort : PortInfo) (portType : BundledChannel → Ty)
    (chs : List BundledChannel) : ∀ (n a : Nat),
    ((declaredInputs origPort portType n (some a) chs).map NewPort.value).Nodup := by
  induction chs with
  | nil => intro n a; simp [declaredInputs]
  | cons ch rest ih =>
    intro n a
    simp only [declaredInputs, List.map_cons, List.nodup_cons, Option.map_some']
    refine ⟨?_, ih (n + 1) (a + 1)⟩
    intro hmem
    obtain ⟨k, t, hk, hle⟩ := declaredInputs_value_ge origPort portType rest (n + 1) (a + 1) _ hmem
    simp only [declaredInput] at hk
    injection hk with h1 _
    omega

theorem nodup_map_getD (l : List Value) (hl : l.Nodup) (idx : List Nat) (hidx : idx.Nodup)
    (hlt : ∀ i ∈ idx, i < l.length) : (idx.map (fun i => l.getD i Value.null)).Nodup := by
  apply List.Nodup.map_on _ hidx
  intro i hi j hj h
  have h1 := hlt i hi
  have h2 := hlt j hj
  rw [List.getD_eq_getElem l Value.null h1, List.getD_eq_getElem l Value.null h2] at h
  exact (List.Nodup.getElem_inj_iff hl).1 h

theorem map_getD_of_map_some (l : List Value) (vs : List Value) (idx : List Nat)
    (h : vs.map some = idx.map (fun i => l[i]?)) :
    vs = idx.map (fun i => l.getD i Value.null) := by
  induction idx generalizing vs with
  | nil => simpa using h
  | cons i rest ih =>
    cases vs with
    | nil => simp at h
    | cons v vs =>
      simp only [List.map_cons, List.cons.injEq] at h
      simp only [List.map_cons, List.cons.injEq]
      refine ⟨?_, ih vs h.2⟩
      simp [List.getD, ← h.1]

/-! ## Lemmas on the Packs of a design -/

theorem mem_packOps (top : ModuleOp) (op : Operation) :
    op ∈ top.packOps ↔
      ∃ m ∈ top.ops, ∃ b, m.body = some b ∧ (op ∈ b.ops ∨ op = b.terminator) ∧
        op.kind = OpKind.pack := by
  simp only [ModuleOp.packOps, List.mem_flatMap]
  constructor
  · rintro ⟨m, hm, h⟩
    cases hb : m.body with
    | none => rw [hb] at h; simp at h
    | some b =>
      rw [hb] at h
      simp only [Block.packOps, List.mem_filter, List.mem_append, List.mem_singleton,
        decide_eq_true_eq] at h
      exact ⟨m, hm, b, hb, h.1, h.2⟩
  · rintro ⟨m, hm, b, hb, h1, h2⟩
    refine ⟨m, hm, ?_⟩
    rw [hb]
    simp only [Block.packOps, List.mem_filter, List.mem_append, List.mem_singleton,
      decide_eq_true_eq]
    exact ⟨h1, h2⟩

theorem packOps_eq_nil (top : ModuleOp) :
    top.packOps = [] ↔
      ∀ m ∈ top.ops, ∀ b, m.body = some b →
        (∀ op ∈ b.ops, op.kind ≠ OpKind.pack) ∧ b.terminator.kind ≠ OpKind.pack := by
  rw [List.eq_nil_iff_forall_not_mem]
  constructor
  · intro h m hm b hb
    refine ⟨fun op hop hk => h op ((mem_packOps top op).2 ⟨m, hm, b, hb, Or.inl hop, hk⟩),
      fun hk => h b.terminator ((mem_packOps top _).2 ⟨m, hm, b, hb, Or.inr rfl, hk⟩)⟩
  · intro h op hop
    obtain ⟨m, hm, b, hb, h1, h2⟩ := (mem_packOps top op).1 hop
    rcases h1 with h1 | h1
    · exact (h m hm b hb).1 op h1 h2
    · rw [h1] at h2; exact (h m hm b hb).2 h2

/-! ## The concrete designs, evaluated -/

/-- Scenario A evaluated: `BundlePort::buildInputSignals` on the body of the
module. The Pack is operation 9, fed by the new block argument 1; operation 7
and the terminator read result 0 of operation 9; the new output is wired to
result 1 of operation 9. -/
theorem exampleConverter_buildInputSignals :
    ((BundlePort.new examplePort).buildInputSignals exampleConverter).map
        (fun r => (r.2.body, r.2.newInputs.map NewPort.value,
          r.2.newOutputs.map NewPort.value)) =
      some
        (some
          { arguments := [Ty.bundle exampleChannels, Ty.channel (Ty.integer 1)],
            ops := [{ id := 9, kind := OpKind.pack,
                      operands := [Value.blockArgument 1 (Ty.channel (Ty.integer 1))],
                      resultTypes := [Ty.bundle exampleChannels, Ty.channel (Ty.integer 8)] },
                    { id := 7, kind := OpKind.other "use",
                      operands := [Value.opResult 9 0 (Ty.bundle exampleChannels)],
                      resultTypes := [] }],
            terminator := { id := 8, kind := OpKind.output,
                            operands := [Value.opResult 9 0 (Ty.bundle exampleChannels)],
                            resultTypes := [] },
            nextOp := 10 },
         [Value.blockArgument 1 (Ty.channel (Ty.integer 1))],
         [Value.opResult 9 1 (Ty.channel (Ty.integer 8))]) := by
  decide

/-- Scenario A evaluated: `BundlePort::mapInputSignals` at the instance. The
Unpack is operation 22, placed between operation 19 and the instance, fed by
`V` and the backedge; the new operand of the instance is result 0 of
operation 22. -/
theorem exampleBuilder_mapInputSignals :
    ((BundlePort.new examplePort).buildInputSignals exampleConverter).bind
        (fun r => r.1.mapInputSignals exampleBuilder exampleInstance [Value.null]
          [Value.backedge 0 (Ty.channel (Ty.integer 8))]) =
      some
        ({ arguments := [],
           ops := [{ id := 19, kind := OpKind.other "make", operands := [],
                     resultTypes := [Ty.bundle exampleChannels] },
                   { id := 22, kind := OpKind.unpack,
                     operands := [exampleBundleValue,
                                  Value.backedge 0 (Ty.channel (Ty.integer 8))],
                     resultTypes := [Ty.channel (Ty.integer 1)] },
                   exampleInstance],
           terminator := { id := 21, kind := OpKind.output, operands := [],
                           resultTypes := [] },
           nextOp := 23 },
         [Value.opResult 22 0 (Ty.channel (Ty.integer 1))]) := by
  decide

/-- Scenario A with `x` as an output, evaluated: `BundlePort::mapOutputSignals`
at the instance. The Pack is operation 23, placed before the instance, fed by
the backedge; operation 21 and the terminator read result 0 of operation 23;
the new operand of the instance is result 1 of operation 23. -/
theorem exampleOutBuilder_mapOutputSignals :
    ((BundlePort.new examplePort).buildOutputSignals exampleConverter).bind
        (fun r => r.1.mapOutputSignals exampleOutBuilder exampleOutInstance [Value.null]
          [Value.backedge 0 (Ty.channel (Ty.integer 1))]) =
      some
        ({ arguments := [],
           ops := [{ id := 23, kind := OpKind.pack,
                     operands := [Value.backedge 0 (Ty.channel (Ty.integer 1))],
                     resultTypes := [Ty.bundle exampleChannels, Ty.channel (Ty.integer 8)] },
                   exampleOutInstance,
                   { id := 21, kind := OpKind.other "use",
                     operands := [Value.opResult 23 0 (Ty.bundle exampleChannels)],
                     resultTypes := [] }],
           terminator := { id := 22, kind := OpKind.output,
                           operands := [Value.opResult 23 0 (Ty.bundle exampleChannels)],
                           resultTypes := [] },
           nextOp := 24 },
         [Value.opResult 23 1 (Ty.channel (Ty.integer 8))]) := by
  decide

/-- Scenario A evaluated: the connections the instance makes for the new ports,
the cancellation rule on the Pack and the Unpack read through these
connections, and the rule on the two operations as they stand in their blocks
(it does not apply there: the Pack reads block argument 1 and the Unpack reads
the backedge). -/
theorem exampleRoundTrip :
    ((BundlePort.new examplePort).buildInputSignals exampleConverter).bind
        (fun r =>
          (r.1.mapInputSignals exampleBuilder exampleInstance [Value.null]
            [Value.backedge 0 (Ty.channel (Ty.integer 8))]).map
            (fun s => (inputConnections r.2.newInputs s.2,
              outputConnections r.2.newOutputs
                [Value.backedge 0 (Ty.channel (Ty.integer 8))]))) =
      some
        ([(Value.blockArgument 1 (Ty.channel (Ty.integer 1)),
           Value.opResult 22 0 (Ty.channel (Ty.integer 1)))],
         [(Value.backedge 0 (Ty.channel (Ty.integer 8)),
           Value.opResult 9 1 (Ty.channel (Ty.integer 8)))]) ∧
    cancelPackOfUnpack
        (Operation.connectOperands
          [(Value.blockArgument 1 (Ty.channel (Ty.integer 1)),
            Value.opResult 22 0 (Ty.channel (Ty.integer 1)))]
          { id := 9, kind := OpKind.pack,
            operands := [Value.blockArgument 1 (Ty.channel (Ty.integer 1))],
            resultTypes := [Ty.bundle exampleChannels, Ty.channel (Ty.integer 8)] })
        (Operation.connectOperands
          [(Value.backedge 0 (Ty.channel (Ty.integer 8)),
            Value.opResult 9 1 (Ty.channel (Ty.integer 8)))]
          { id := 22, kind := OpKind.unpack,
            operands := [exampleBundleValue, Value.backedge 0 (Ty.channel (Ty.integer 8))],
            resultTypes := [Ty.channel (Ty.integer 1)] }) =
      some exampleBundleValue ∧
    cancelPackOfUnpack
        { id := 9, kind := OpKind.pack,
          operands := [Value.blockArgument 1 (Ty.channel (Ty.integer 1))],
          resultTypes := [Ty.bundle exampleChannels, Ty.channel (Ty.integer 8)] }
        { id := 22, kind := OpKind.unpack,
          operands := [exampleBundleValue, Value.backedge 0 (Ty.channel (Ty.integer 8))],
          resultTypes := [Ty.channel (Ty.integer 1)] } =
      Option.none := by
  decide

/-- The pass evaluated on the design that holds a Pack: it signals failure and
emits one diagnostic, on the Pack. -/
theorem examplePackDesign_run :
    ESIBundlesPass.runOnOperation exampleRunOk exampleCleanup examplePackDesign =
      { top := examplePackDesign, failed := true, diagnostics := [examplePack],
        calls := [Call.portConverter "A", Call.applyPatterns, Call.walk] } := by
  decide

/-- The pass evaluated on the design that holds an Unpack and no Pack: no
failure, no diagnostic. -/
theorem exampleUnpackDesign_run :
    ESIBundlesPass.runOnOperation exampleRunOk exampleCleanup exampleUnpackDesign =
      { top := exampleUnpackDesign, failed := false, diagnostics := [],
        calls := [Call.portConverter "A", Call.applyPatterns, Call.walk] } := by
  decide

/-! ## The claims -/

/-- C1: for a scalar bundle type with `k` channels, `BundlePort::buildInputSignals`
on an input port and `BundlePort::buildOutputSignals` on an output port each
return, and create exactly `k` new ports in total (new inputs plus new
outputs), one per channel: the requests, taken as pairs of suffix and type,
are a rearrangement of the pairs `("_" ++ name, type)` of the channels. -/
theorem C1_scalar_port_count (origPort : PortInfo) (chs : List BundledChannel)
    (c : PortConverterImpl) (hty : origPort.type = Ty.bundle chs) :
    (isInputOf origPort c →
      ∃ bp c' ins outs, (BundlePort.new origPort).buildInputSignals c = some (bp, c') ∧
        c'.newInputs = c.newInputs ++ ins ∧ c'.newOutputs = c.newOutputs ++ outs ∧
        ins.length + outs.length = chs.length ∧
        ((ins ++ outs).map (fun p => (p.suffix, p.info.type))).Perm
          (chs.map (fun ch => ("_" ++ ch.name, ch.type)))) ∧
    (isOutputOf origPort c →
      ∃ bp c' ins outs, (BundlePort.new origPort).buildOutputSignals c = some (bp, c') ∧
        c'.newInputs = c.newInputs ++ ins ∧ c'.newOutputs = c.newOutputs ++ outs ∧
        ins.length + outs.length = chs.length ∧
        ((ins ++ outs).map (fun p => (p.suffix, p.info.type))).Perm
          (chs.map (fun ch => ("_" ++ ch.name, ch.type)))) := by
  constructor
  · intro hin
    obtain ⟨bp, c', results, hcall, hi, ho⟩ := buildInputSignals_ports origPort chs c hty hin
    refine ⟨bp, c', _, _, hcall, hi, ho, ?_, ?_⟩
    · rw [declaredInputs_length, declaredOutputs_length]
      exact filter_to_from_length chs
    · rw [List.map_append,
        declaredInputs_map origPort BundledChannel.type _
          (fun ch => ("_" ++ ch.name, ch.type)) (fun _ _ _ => rfl),
        declaredOutputs_map origPort BundledChannel.type results _
          (fun ch => ("_" ++ ch.name, ch.type)) (fun _ _ _ => rfl)]
      exact filter_to_from_perm _ chs
  · intro hout
    obtain ⟨bp, c', results, hcall, hi, ho⟩ := buildOutputSignals_ports origPort chs c hty hout
    refine ⟨bp, c', _, _, hcall, hi, ho, ?_, ?_⟩
    · rw [declaredInputs_length, declaredOutputs_length, Nat.add_comm]
      exact filter_to_from_length chs
    · rw [List.map_append,
        declaredInputs_map origPort BundledChannel.type _
          (fun ch => ("_" ++ ch.name, ch.type)) (fun _ _ _ => rfl),
        declaredOutputs_map origPort BundledChannel.type results _
          (fun ch => ("_" ++ ch.name, ch.type)) (fun _ _ _ => rfl)]
      exact List.perm_append_comm.trans (filter_to_from_perm _ chs)

/-- Witness of C1 on the bundle of Scenario A, on a module with a body. -/
theorem C1_scalar_port_count_witness :
    examplePort.type = Ty.bundle exampleChannels ∧
    isInputOf examplePort exampleConverter ∧
    isOutputOf examplePort exampleConverter ∧
    (∃ bp c' ins outs,
      (BundlePort.new examplePort).buildInputSignals exampleConverter = some (bp, c') ∧
        c'.newInputs = exampleConverter.newInputs ++ ins ∧
        c'.newOutputs = exampleConverter.newOutputs ++ outs ∧
        ins.length + outs.length = exampleChannels.length ∧
        ((ins ++ outs).map (fun p => (p.suffix, p.info.type))).Perm
          (exampleChannels.map (fun ch => ("_" ++ ch.name, ch.type)))) ∧
    (∃ bp c' ins outs,
      (BundlePort.new examplePort).buildOutputSignals exampleConverter = some (bp, c') ∧
        c'.newInputs = exampleConverter.newInputs ++ ins ∧
        c'.newOutputs = exampleConverter.newOutputs ++ outs ∧
        ins.length + outs.length = exampleChannels.length ∧
        ((ins ++ outs).map (fun p => (p.suffix, p.info.type))).Perm
          (exampleChannels.map (fun ch => ("_" ++ ch.name, ch.type)))) :=
  ⟨rfl, by decide, by decide,
   (C1_scalar_port_count examplePort exampleChannels exampleConverter rfl).1 (by decide),
   (C1_scalar_port_count examplePort exampleChannels exampleConverter rfl).2 (by decide)⟩

/-- C2: for a scalar bundle on an input port, the new input ports are the
`to` channels and the new output ports are the `from` channels; for a scalar
bundle on an output port, the new input ports are the `from` channels and the
new output ports are the `to` channels. Each port is given by its suffix, its
type and its direction. -/
theorem C2_direction_mapping (origPort : PortInfo) (chs : List BundledChannel)
    (c : PortConverterImpl) (hty : origPort.type = Ty.bundle chs) :
    (isInputOf origPort c →
      ∃ bp c' ins outs, (BundlePort.new origPort).buildInputSignals c = some (bp, c') ∧
        c'.newInputs = c.newInputs ++ ins ∧ c'.newOutputs = c.newOutputs ++ outs ∧
        ins.map (fun p => (p.suffix, p.info.type, p.info.dir)) =
          (chs.filter (fun ch => ch.direction = ChannelDirection.to)).map
            (fun ch => ("_" ++ ch.name, ch.type, Direction.Input)) ∧
        outs.map (fun p => (p.suffix, p.info.type, p.info.dir)) =
          (chs.filter (fun ch => ch.direction = ChannelDirection.from)).map
            (fun ch => ("_" ++ ch.name, ch.type, Direction.Output))) ∧
    (isOutputOf origPort c →
      ∃ bp c' ins outs, (BundlePort.new origPort).buildOutputSignals c = some (bp, c') ∧
        c'.newInputs = c.newInputs ++ ins ∧ c'.newOutputs = c.newOutputs ++ outs ∧
        ins.map (fun p => (p.suffix, p.info.type, p.info.dir)) =
          (chs.filter (fun ch => ch.direction = ChannelDirection.from)).map
            (fun ch => ("_" ++ ch.name, ch.type, Direction.Input)) ∧
        outs.map (fun p => (p.suffix, p.info.type, p.info.dir)) =
          (chs.filter (fun ch => ch.direction = ChannelDirection.to)).map
            (fun ch => ("_" ++ ch.name, ch.type, Direction.Output))) := by
  constructor
  · intro hin
    obtain ⟨bp, c', results, hcall, hi, ho⟩ := buildInputSignals_ports origPort chs c hty hin
    exact ⟨bp, c', _, _, hcall, hi, ho,
      declaredInputs_map origPort BundledChannel.type _ _ (fun _ _ _ => rfl) _ _ _,
      declaredOutputs_map origPort BundledChannel.type results _ _ (fun _ _ _ => rfl) _ _ _⟩
  · intro hout
    obtain ⟨bp, c', results, hcall, hi, ho⟩ := buildOutputSignals_ports origPort chs c hty hout
    exact ⟨bp, c', _, _, hcall, hi, ho,
      declaredInputs_map origPort BundledChannel.type _ _ (fun _ _ _ => rfl) _ _ _,
      declaredOutputs_map origPort BundledChannel.type results _ _ (fun _ _ _ => rfl) _ _ _⟩

/-- Witness of C2 on the bundle of Scenario A, on a module with a body. -/
theorem C2_direction_mapping_witness :
    examplePort.type = Ty.bundle exampleChannels ∧
    isInputOf examplePort exampleConverter ∧
    isOutputOf examplePort exampleConverter ∧
    (∃ bp c' ins outs,
      (BundlePort.new examplePort).buildInputSignals exampleConverter = some (bp, c') ∧
        c'.newInputs = exampleConverter.newInputs ++ ins ∧
        c'.newOutputs = exampleConverter.newOutputs ++ outs ∧
        ins.map (fun p => (p.suffix, p.info.type, p.info.dir)) =
          [("_req", Ty.channel (Ty.integer 1), Direction.Input)] ∧
        outs.map (fun p => (p.suffix, p.info.type, p.info.dir)) =
          [("_resp", Ty.channel (Ty.integer 8), Direction.Output)]) ∧
    (∃ bp c' ins outs,
      (BundlePort.new examplePort).buildOutputSignals exampleConverter = some (bp, c') ∧
        c'.newInputs = exampleConverter.newInputs ++ ins ∧
        c'.newOutputs = exampleConverter.newOutputs ++ outs ∧
        ins.map (fun p => (p.suffix, p.info.type, p.info.dir)) =
          [("_resp", Ty.channel (Ty.integer 8), Direction.Input)] ∧
        outs.map (fun p => (p.suffix, p.info.type, p.info.dir)) =
          [("_req", Ty.channel (Ty.integer 1), Direction.Output)]) :=
  ⟨rfl, by decide, by decide,
   (C2_direction_mapping examplePort exampleChannels exampleConverter rfl).1 (by decide),
   (C2_direction_mapping examplePort exampleChannels exampleConverter rfl).2 (by decide)⟩

/-- C3: for a scalar bundle port (input or output) and for an output port of
type array of bundles, every new port is requested for the original port with
the suffix `"_" ++ name` of its channel and is named
`origPort.name ++ "_" ++ name`; the new inputs, in creation order, are the
channels of one direction in declaration order, and the new outputs are the
channels of the other direction in declaration order. -/
theorem C3_names_and_order (origPort : PortInfo) (chs : List BundledChannel)
    (c : PortConverterImpl) :
    (origPort.type = Ty.bundle chs → isInputOf origPort c →
      ∃ bp c' ins outs, (BundlePort.new origPort).buildInputSignals c = some (bp, c') ∧
        c'.newInputs = c.newInputs ++ ins ∧ c'.newOutputs = c.newOutputs ++ outs ∧
        ins.map (fun p => (p.origPort, p.suffix, p.info.name)) =
          (chs.filter (fun ch => ch.direction = ChannelDirection.to)).map
            (fun ch => (origPort, "_" ++ ch.name, origPort.name ++ "_" ++ ch.name)) ∧
        outs.map (fun p => (p.origPort, p.suffix, p.info.name)) =
          (chs.filter (fun ch => ch.direction = ChannelDirection.from)).map
            (fun ch => (origPort, "_" ++ ch.name, origPort.name ++ "_" ++ ch.name))) ∧
    (origPort.type = Ty.bundle chs → isOutputOf origPort c →
      ∃ bp c' ins outs, (BundlePort.new origPort).buildOutputSignals c = some (bp, c') ∧
        c'.newInputs = c.newInputs ++ ins ∧ c'.newOutputs = c.newOutputs ++ outs ∧
        ins.map (fun p => (p.origPort, p.suffix, p.info.name)) =
          (chs.filter (fun ch => ch.direction = ChannelDirection.from)).map
            (fun ch => (origPort, "_" ++ ch.name, origPort.name ++ "_" ++ ch.name)) ∧
        outs.map (fun p => (p.origPort, p.suffix, p.info.name)) =
          (chs.filter (fun ch => ch.direction = ChannelDirection.to)).map
            (fun ch => (origPort, "_" ++ ch.name, origPort.name ++ "_" ++ ch.name))) ∧
    (∀ numBundles, origPort.type = Ty.array (Ty.bundle chs) numBundles →
      isOutputOf origPort c →
      ∃ bp c' ins outs, (ArrayBundlePort.new origPort).buildOutputSignals c = some (bp, c') ∧
        c'.newInputs = c.newInputs ++ ins ∧ c'.newOutputs = c.newOutputs ++ outs ∧
        ins.map (fun p => (p.origPort, p.suffix, p.info.name)) =
          (chs.filter (fun ch => ch.direction = ChannelDirection.from)).map
            (fun ch => (origPort, "_" ++ ch.name, origPort.name ++ "_" ++ ch.name)) ∧
        outs.map (fun p => (p.origPort, p.suffix, p.info.name)) =
          (chs.filter (fun ch => ch.direction = ChannelDirection.to)).map
            (fun ch => (origPort, "_" ++ ch.name, origPort.name ++ "_" ++ ch.name))) := by
  refine ⟨?_, ?_, ?_⟩
  · intro hty hin
    obtain ⟨bp, c', results, hcall, hi, ho⟩ := buildInputSignals_ports origPort chs c hty hin
    exact ⟨bp, c', _, _, hcall, hi, ho,
      declaredInputs_map origPort BundledChannel.type _ _
        (fun _ _ ch => by simp [declaredInput, String.append_assoc]) _ _ _,
      declaredOutputs_map origPort BundledChannel.type results _ _
        (fun _ _ ch => by simp [declaredOutput, String.append_assoc]) _ _ _⟩
  · intro hty hout
    obtain ⟨bp, c', results, hcall, hi, ho⟩ := buildOutputSignals_ports origPort chs c hty hout
    exact ⟨bp, c', _, _, hcall, hi, ho,
      declaredInputs_map origPort BundledChannel.type _ _
        (fun _ _ ch => by simp [declaredInput, String.append_assoc]) _ _ _,
      declaredOutputs_map origPort BundledChannel.type results _ _
        (fun _ _ ch => by simp [declaredOutput, String.append_assoc]) _ _ _⟩
  · intro numBundles hty hout
    obtain ⟨bp, c', results, hcall, hi, ho⟩ :=
      arrayBuildOutputSignals_ports origPort chs numBundles c hty hout
    exact ⟨bp, c', _, _, hcall, hi, ho,
      declaredInputs_map origPort _ _ _
        (fun _ _ ch => by simp [declaredInput, String.append_assoc]) _ _ _,
      declaredOutputs_map origPort _ results _ _
        (fun _ _ ch => by simp [declaredOutput, String.append_assoc]) _ _ _⟩

/-- Witness of C3: the scalar port `x` of Scenario A as input and as output,
and the array port `y` of 2 bundles as output, on modules with a body. -/
theorem C3_names_and_order_witness :
    (examplePort.type = Ty.bundle exampleChannels ∧
      isInputOf examplePort exampleConverter ∧ isOutputOf examplePort exampleConverter ∧
      exampleArrayPort.type = Ty.array (Ty.bundle exampleChannels) 2 ∧
      isOutputOf exampleArrayPort exampleArrayConverter) ∧
    (∃ bp c' ins outs,
      (BundlePort.new examplePort).buildInputSignals exampleConverter = some (bp, c') ∧
        c'.newInputs = exampleConverter.newInputs ++ ins ∧
        c'.newOutputs = exampleConverter.newOutputs ++ outs ∧
        ins.map (fun p => (p.origPort, p.suffix, p.info.name)) =
          [(examplePort, "_req", "x_req")] ∧
        outs.map (fun p => (p.origPort, p.suffix, p.info.name)) =
          [(examplePort, "_resp", "x_resp")]) ∧
    (∃ bp c' ins outs,
      (BundlePort.new examplePort).buildOutputSignals exampleConverter = some (bp, c') ∧
        c'.newInputs = exampleConverter.newInputs ++ ins ∧
        c'.newOutputs = exampleConverter.newOutputs ++ outs ∧
        ins.map (fun p => (p.origPort, p.suffix, p.info.name)) =
          [(examplePort, "_resp", "x_resp")] ∧
        outs.map (fun p => (p.origPort, p.suffix, p.info.name)) =
          [(examplePort, "_req", "x_req")]) ∧
    (∃ bp c' ins outs,
      (ArrayBundlePort.new exampleArrayPort).buildOutputSignals exampleArrayConverter =
          some (bp, c') ∧
        c'.newInputs = exampleArrayConverter.newInputs ++ ins ∧
        c'.newOutputs = exampleArrayConverter.newOutputs ++ outs ∧
        ins.map (fun p => (p.origPort, p.suffix, p.info.name)) =
          [(exampleArrayPort, "_resp", "y_resp")] ∧
        outs.map (fun p => (p.origPort, p.suffix, p.info.name)) =
          [(exampleArrayPort, "_req", "y_req")]) :=
  ⟨⟨rfl, by decide, by decide, rfl, by decide⟩,
   (C3_names_and_order examplePort exampleChannels exampleConverter).1 rfl (by decide),
   (C3_names_and_order examplePort exampleChannels exampleConverter).2.1 rfl (by decide),
   (C3_names_and_order exampleArrayPort exampleChannels exampleArrayConverter).2.2 2 rfl
     (by decide)⟩

/-- C4: for an output port of type array of `numBundles` bundles with `k`
channels, `ArrayBundlePort::buildOutputSignals` returns and creates exactly
`k` new ports: one new input per `from` channel and one new output per `to`
channel, each of type array of `numBundles` of the channel's type, with or
without a body and whatever the directions of the channels. -/
theorem C4_array_output_ports (origPort : PortInfo) (chs : List BundledChannel)
    (numBundles : Nat) (c : PortConverterImpl)
    (hty : origPort.type = Ty.array (Ty.bundle chs) numBundles)
    (hout : isOutputOf origPort c) :
    ∃ bp c' ins outs, (ArrayBundlePort.new origPort).buildOutputSignals c = some (bp, c') ∧
      c'.newInputs = c.newInputs ++ ins ∧ c'.newOutputs = c.newOutputs ++ outs ∧
      ins.length + outs.length = chs.length ∧
      ins.map (fun p => (p.suffix, p.info.type, p.info.dir)) =
        (chs.filter (fun ch => ch.direction = ChannelDirection.from)).map
          (fun ch => ("_" ++ ch.name, Ty.array ch.type numBundles, Direction.Input)) ∧
      outs.map (fun p => (p.suffix, p.info.type, p.info.dir)) =
        (chs.filter (fun ch => ch.direction = ChannelDirection.to)).map
          (fun ch => ("_" ++ ch.name, Ty.array ch.type numBundles, Direction.Output)) := by
  obtain ⟨bp, c', results, hcall, hi, ho⟩ :=
    arrayBuildOutputSignals_ports origPort chs numBundles c hty hout
  refine ⟨bp, c', _, _, hcall, hi, ho, ?_,
    declaredInputs_map origPort _ _ _ (fun _ _ _ => rfl) _ _ _,
    declaredOutputs_map origPort _ results _ _ (fun _ _ _ => rfl) _ _ _⟩
  rw [declaredInputs_length, declaredOutputs_length, Nat.add_comm]
  exact filter_to_from_length chs

/-- Witness of C4 on the array port `y` of 2 bundles, on a module with a body. -/
theorem C4_array_output_ports_witness :
    exampleArrayPort.type = Ty.array (Ty.bundle exampleChannels) 2 ∧
    isOutputOf exampleArrayPort exampleArrayConverter ∧
    ∃ bp c' ins outs,
      (ArrayBundlePort.new exampleArrayPort).buildOutputSignals exampleArrayConverter =
          some (bp, c') ∧
      c'.newInputs = exampleArrayConverter.newInputs ++ ins ∧
      c'.newOutputs = exampleArrayConverter.newOutputs ++ outs ∧
      ins.length + outs.length = exampleChannels.length ∧
      ins.map (fun p => (p.suffix, p.info.type, p.info.dir)) =
        [("_resp", Ty.array (Ty.channel (Ty.integer 8)) 2, Direction.Input)] ∧
      outs.map (fun p => (p.suffix, p.info.type, p.info.dir)) =
        [("_req", Ty.array (Ty.channel (Ty.integer 1)) 2, Direction.Output)] :=
  ⟨rfl, by decide,
   C4_array_output_ports exampleArrayPort exampleChannels 2 exampleArrayConverter rfl
     (by decide)⟩

/-- C5: round trip for a scalar bundle input port of a module with a body,
instantiated with bundle operand `V`. `buildInputSignals` puts a Pack first in
the body; in every operation and in the terminator each operand that was the
old argument is now the Pack's bundle, and the old argument occurs nowhere.
`mapInputSignals` puts an Unpack of `V` in the block of the builder, between
`pre` and `post`. For every `i`, operand `i` of the Pack is the value of the
`i`-th new input port, and the new operand at that port's position is result
`i` of the Unpack; channel operand `i` of the Unpack is the new result at the
position of the `i`-th new output port, and the body wires that port to
from-channel result `i` of the Pack. Hence, reading the operands of the two
operations through what the instance connects (`inputConnections`,
`outputConnections`), the operands of the Pack are all the results of the
Unpack, the operands of the Unpack are `V` and all the from-channel results of
the Pack, and the cancellation rule gives `V` for the bundle of the Pack, the
value every consumer in the body reads. The new results are taken pairwise
distinct and different from `V`, as the placeholders of the new results of the
instance are. -/
theorem C5_round_trip (origPort : PortInfo) (chs : List BundledChannel)
    (c : PortConverterImpl) (body : Block) (b : OpBuilder) (inst : Operation)
    (newOperands newResults : List Value) (V : Value)
    (hty : origPort.type = Ty.bundle chs) (hbody : c.body = some body)
    (hin : origPort.argNum < body.arguments.length)
    (hV : inst.getOperand origPort.argNum = some V) (hVt : V.getType = origPort.type)
    (hops : c.newInputs.length +
      (chs.filter (fun ch => ch.direction = ChannelDirection.to)).length ≤ newOperands.length)
    (hres : c.newOutputs.length +
      (chs.filter (fun ch => ch.direction = ChannelDirection.from)).length ≤
        newResults.length)
    (hnodup : newResults.Nodup) (hVres : V ∉ newResults) :
    ∃ bp c' ins outs pack body' old packBundle unpack blk newOperands' pre post,
      (BundlePort.new origPort).buildInputSignals c = some (bp, c') ∧
      c'.newInputs = c.newInputs ++ ins ∧ c'.newOutputs = c.newOutputs ++ outs ∧
      c'.body = some body' ∧
      body'.ops = pack :: body.ops.map (fun op =>
        { op with operands := op.operands.map (fun v => if v = old then packBundle else v) }) ∧
      body'.terminator = { body.terminator with
        operands := body.terminator.operands.map (fun v => if v = old then packBundle else v) } ∧
      (∀ op ∈ body'.ops, old ∉ op.operands) ∧
      old ∉ body'.terminator.operands ∧
      pack.kind = OpKind.pack ∧
      body.getArgument origPort.argNum = some old ∧
      PackBundleOp.getBundle pack = some packBundle ∧
      bp.mapInputSignals b inst newOperands newResults = some (blk, newOperands') ∧
      b.block.ops = pre ++ post ∧
      blk.ops = pre ++ unpack :: post ∧
      (b.point = InsertPoint.blockBegin → pre = []) ∧
      (b.point = InsertPoint.blockTerminator → post = []) ∧
      (∀ id, b.point = InsertPoint.beforeOp id →
        (∀ o ∈ pre, o.id ≠ id) ∧ (∀ x, post.head? = some x → x.id = id)) ∧
      blk.terminator = b.block.terminator ∧
      unpack.kind = OpKind.unpack ∧
      UnpackBundleOp.getBundle unpack = some V ∧
      pack.operands = ins.map NewPort.value ∧
      (∀ i (h : i < ins.length),
        (unpack.getResult i).isSome ∧
        newOperands'[(ins[i]).info.argNum]? = unpack.getResult i) ∧
      (UnpackBundleOp.getFromChannels unpack).map some =
        outs.map (fun q => newResults[q.info.argNum]?) ∧
      outs.map NewPort.value = PackBundleOp.getFromChannels pack ∧
      pack.operands.map (connectValue (inputConnections ins newOperands')) =
        UnpackBundleOp.getToChannels unpack ∧
      unpack.operands.map (connectValue (outputConnections outs newResults)) =
        V :: PackBundleOp.getFromChannels pack ∧
      PackBundleOp.getBundle (pack.connectOperands (inputConnections ins newOperands')) =
        some packBundle ∧
      cancelPackOfUnpack (pack.connectOperands (inputConnections ins newOperands'))
        (unpack.connectOperands (outputConnections outs newResults)) = some V := by
  have hbuild := buildInputSignals_body origPort chs c body hty hbody _
    (List.getElem?_eq_getElem hin)
  have hge := declaredInputs_value_ge origPort BundledChannel.type
    (chs.filter (fun ch => ch.direction = ChannelDirection.to)) c.newInputs.length
    body.arguments.length
  have hvnd := declaredInputs_value_nodup origPort BundledChannel.type
    (chs.filter (fun ch => ch.direction = ChannelDirection.to)) c.newInputs.length
    body.arguments.length
  generalize hins : declaredInputs origPort BundledChannel.type c.newInputs.length
    (some body.arguments.length)
    (chs.filter (fun ch => ch.direction = ChannelDirection.to)) = ins at hbuild hge hvnd
  generalize houts : declaredOutputs origPort BundledChannel.type
    (some (PackBundleOp.getFromChannels (inputPack body chs []))) c.newOutputs.length 0
    (chs.filter (fun ch => ch.direction = ChannelDirection.from)) = outs at hbuild
  have hai : ins.map (fun p => p.info.argNum) = List.range' c.newInputs.length
      (chs.filter (fun ch => ch.direction = ChannelDirection.to)).length := by
    rw [← hins]; exact declaredInputs_argNum _ _ _ _ _
  have hao : outs.map (fun p => p.info.argNum) = List.range' c.newOutputs.length
      (chs.filter (fun ch => ch.direction = ChannelDirection.from)).length := by
    rw [← houts]; exact declaredOutputs_argNum _ _ _ _ _ _
  have hilen : ins.length =
      (chs.filter (fun ch => ch.direction = ChannelDirection.to)).length := by
    rw [← hins]; exact declaredInputs_length _ _ _ _ _
  have hbi' := range'_bound _ _ (ins.map NewPort.info) (by rw [map_info_argNum, hai])
  have hbo' := range'_bound _ _ (outs.map NewPort.info) (by rw [map_info_argNum, hao])
  obtain ⟨fromChannels, ops', hmap, hfrom, hl', _, hset⟩ :=
    mapInputSignals_spec ⟨origPort, ins.map NewPort.info, outs.map NewPort.info⟩ b inst
      newOperands newResults V chs hV (by rw [hVt, hty])
      (fun p hp => Nat.lt_of_lt_of_le (hbo'.1 p hp) hres)
      (fun p hp => Nat.lt_of_lt_of_le (hbi'.1 p hp) hops)
      (by simp [hilen])
  obtain ⟨pre, post, hsplit, hinsert, hbeg, hend, hbefore⟩ :=
    Block.insert_split b.block b.point
      (b.block.create b.point OpKind.unpack (V :: fromChannels)
        (UnpackBundleOp.resultTypes ⟨chs⟩)).1
  have hpack : Operation.replaceUses
      (Value.blockArgument origPort.argNum body.arguments[origPort.argNum])
      (Value.opResult body.nextOp 0 (Ty.bundle chs))
      (inputPack body chs (ins.map NewPort.value)) =
      inputPack body chs (ins.map NewPort.value) :=
    replaceUses_inputPack body chs _ _ _ _ hin hge
  have hne : Value.opResult body.nextOp 0 (Ty.bundle chs) ≠
      Value.blockArgument origPort.argNum body.arguments[origPort.argNum] := by
    intro h; cases h
  have hbops : (Block.replaceAllUsesWith
      { arguments := body.arguments ++
          (chs.filter (fun ch => ch.direction = ChannelDirection.to)).map BundledChannel.type,
        ops := inputPack body chs (ins.map NewPort.value) :: body.ops,
        terminator := body.terminator,
        nextOp := body.nextOp + 1 }
      (Value.blockArgument origPort.argNum body.arguments[origPort.argNum])
      (Value.opResult body.nextOp 0 (Ty.bundle chs))).ops =
      inputPack body chs (ins.map NewPort.value) ::
      body.ops.map (fun op => { op with operands := op.operands.map (fun v =>
        if v = Value.blockArgument origPort.argNum body.arguments[origPort.argNum]
        then Value.opResult body.nextOp 0 (Ty.bundle chs) else v) }) := by
    simp only [Block.replaceAllUsesWith, List.map_cons, hpack]
    rfl
  have hwired : outs.map NewPort.value =
      PackBundleOp.getFromChannels (inputPack body chs (ins.map NewPort.value)) := by
    rw [← houts]
    rw [declaredOutputs_value _ _ _ _ _ 0 (by
      simp [PackBundleOp.getFromChannels, Operation.getResults, inputPack,
        PackBundleOp.resultTypes, ChannelBundleType.getChannels])]
    simp [PackBundleOp.getFromChannels, Operation.getResults, inputPack]
  have hres_i : ∀ i (h : i < ins.length),
      ((b.block.create b.point OpKind.unpack (V :: fromChannels)
          (UnpackBundleOp.resultTypes ⟨chs⟩)).1.getResult i).isSome ∧
      ops'[(ins[i]).info.argNum]? =
        (b.block.create b.point OpKind.unpack (V :: fromChannels)
          (UnpackBundleOp.resultTypes ⟨chs⟩)).1.getResult i := by
    intro i h
    have hk := hset hbi'.2 i (by simpa using h)
    have hi' : i < (chs.filter (fun ch => ch.direction = ChannelDirection.to)).length := by
      rw [← hilen]; exact h
    constructor
    · simp [Operation.getResult, Operation.getResults, Block.create,
        UnpackBundleOp.resultTypes, ChannelBundleType.getChannels, hi']
    · simpa [Operation.getResult] using hk
  have hdrive : ins.map (fun p => ops'.getD p.info.argNum Value.null) =
      (b.block.create b.point OpKind.unpack (V :: fromChannels)
        (UnpackBundleOp.resultTypes ⟨chs⟩)).1.getResults := by
    apply map_eq_of_getElem_opt
    · simp [Operation.getResults, Block.create, UnpackBundleOp.resultTypes,
        ChannelBundleType.getChannels, hilen]
    · intro i hi
      have := (hres_i i hi).2
      rw [Operation.getResult] at this
      rw [← this]
      cases hget : ops'[(ins[i]).info.argNum]? with
      | none =>
        have hs := (hres_i i hi).1
        rw [← (hres_i i hi).2, hget] at hs
        simp at hs
      | some v => simp [List.getD, hget]
  have hfromD : fromChannels = outs.map (fun q => newResults.getD q.info.argNum Value.null) := by
    have := map_getD_of_map_some newResults fromChannels (outs.map (fun q => q.info.argNum))
      (by simpa [List.map_map, Function.comp_def] using hfrom)
    simpa [List.map_map, Function.comp_def] using this
  have hond : (outs.map (fun q => newResults.getD q.info.argNum Value.null)).Nodup := by
    have := nodup_map_getD newResults hnodup (outs.map (fun q => q.info.argNum))
      (by rw [hao]; exact List.nodup_range' _ _)
      (by
        intro i hi
        rw [List.mem_map] at hi
        obtain ⟨q, hq, rfl⟩ := hi
        exact Nat.lt_of_lt_of_le (hbo'.1 q.info (List.mem_map_of_mem _ hq)) hres)
    simpa [List.map_map, Function.comp_def] using this
  have hVout : V ∉ (outputConnections outs newResults).map Prod.fst := by
    intro hmem
    simp only [outputConnections, List.map_map, List.mem_map, Function.comp_apply] at hmem
    obtain ⟨q, hq, hqv⟩ := hmem
    have hlt : q.info.argNum < newResults.length :=
      Nat.lt_of_lt_of_le (hbo'.1 q.info (List.mem_map_of_mem _ hq)) hres
    apply hVres
    rw [← hqv]
    simp [List.getD, List.getElem?_eq_getElem hlt]
  have hPin : (ins.map NewPort.value).map (connectValue (inputConnections ins ops')) =
      (b.block.create b.point OpKind.unpack (V :: fromChannels)
        (UnpackBundleOp.resultTypes ⟨chs⟩)).1.getResults := by
    rw [← hdrive]
    exact map_connectValue NewPort.value (fun p => ops'.getD p.info.argNum Value.null) ins hvnd
  have hUout : (V :: fromChannels).map (connectValue (outputConnections outs newResults)) =
      V :: PackBundleOp.getFromChannels (inputPack body chs (ins.map NewPort.value)) := by
    rw [List.map_cons, connectValue_not_mem _ _ hVout, hfromD, ← hwired]
    congr 1
    exact map_connectValue (fun q => newResults.getD q.info.argNum Value.null) NewPort.value
      outs hond
  refine ⟨_, _, ins, outs, inputPack body chs (ins.map NewPort.value), _,
    Value.blockArgument origPort.argNum body.arguments[origPort.argNum],
    Value.opResult body.nextOp 0 (Ty.bundle chs), _, _, ops', pre, post, hbuild, rfl, rfl, rfl,
    hbops, rfl, ?_, ?_, rfl,
    ?_, ?_, hmap, hsplit, hinsert, hbeg, hend, hbefore, ?_, rfl, ?_, rfl, hres_i, ?_, hwired,
    hPin, hUout, ?_, ?_⟩
  · intro op hop
    rw [hbops] at hop
    simp only [List.mem_cons, List.mem_map] at hop
    rcases hop with h | ⟨o, _, h⟩
    · rw [h]
      intro hmem
      obtain ⟨k, t, hk, hle⟩ := hge _ hmem
      injection hk with h1 _
      omega
    · rw [← h]
      exact not_mem_map_replace _ _ hne _
  · exact not_mem_map_replace _ _ hne _
  · simp [Block.getArgument, List.getElem?_eq_getElem hin]
  · simp [PackBundleOp.getBundle, Operation.getResult, Operation.getResults, inputPack,
      PackBundleOp.resultTypes, ChannelBundleType.toTy]
  · cases hp : b.point <;> simp [Block.create, Block.insert, hp]
  · simp [UnpackBundleOp.getBundle, Operation.getOperand, Block.create]
  · simpa [UnpackBundleOp.getFromChannels, Block.create, List.map_map, Function.comp_def]
      using hfrom
  · simp [PackBundleOp.getBundle, Operation.getResult, Operation.getResults, inputPack,
      PackBundleOp.resultTypes, ChannelBundleType.toTy, Operation.connectOperands]
  · simp only [cancelPackOfUnpack, UnpackBundleOp.getToChannels, UnpackBundleOp.getFromChannels,
      UnpackBundleOp.getBundle, Operation.getOperand, PackBundleOp.getFromChannels,
      Operation.connectOperands]
    rw [if_pos]
    · have := congrArg (fun l => l[0]?) hUout
      simpa [Block.create] using this
    · refine ⟨?_, ?_, ?_, ?_⟩
      · rfl
      · rfl
      · simpa [Operation.getResults, Block.create, inputPack] using hPin
      · have := congrArg (fun l => l.drop 1) hUout
        simpa [PackBundleOp.getFromChannels, Operation.getResults, inputPack, Block.create]
          using this

/-- Witness of C5: Scenario A, the module with a body and its instance driven
by `V` (`exampleConverter_buildInputSignals`, `exampleBuilder_mapInputSignals`
and `exampleRoundTrip` give the same run evaluated). -/
theorem C5_round_trip_witness :
    (examplePort.type = Ty.bundle exampleChannels ∧
      exampleConverter.body = some exampleBody ∧
      examplePort.argNum < exampleBody.arguments.length ∧
      exampleInstance.getOperand examplePort.argNum = some exampleBundleValue ∧
      exampleBundleValue.getType = examplePort.type ∧
      exampleConverter.newInputs.length +
        (exampleChannels.filter (fun ch => ch.direction = ChannelDirection.to)).length ≤
          [Value.null].length ∧
      exampleConverter.newOutputs.length +
        (exampleChannels.filter (fun ch => ch.direction = ChannelDirection.from)).length ≤
          [Value.backedge 0 (Ty.channel (Ty.integer 8))].length ∧
      [Value.backedge 0 (Ty.channel (Ty.integer 8))].Nodup ∧
      exampleBundleValue ∉ [Value.backedge 0 (Ty.channel (Ty.integer 8))]) ∧
    ∃ bp c' ins outs pack body' old packBundle unpack blk newOperands' pre post,
      (BundlePort.new examplePort).buildInputSignals exampleConverter = some (bp, c') ∧
      c'.newInputs = exampleConverter.newInputs ++ ins ∧
      c'.newOutputs = exampleConverter.newOutputs ++ outs ∧
      c'.body = some body' ∧
      body'.ops = pack :: exampleBody.ops.map (fun op =>
        { op with operands := op.operands.map (fun v => if v = old then packBundle else v) }) ∧
      body'.terminator = { exampleBody.terminator with
        operands := exampleBody.terminator.operands.map
          (fun v => if v = old then packBundle else v) } ∧
      (∀ op ∈ body'.ops, old ∉ op.operands) ∧
      old ∉ body'.terminator.operands ∧
      pack.kind = OpKind.pack ∧
      exampleBody.getArgument examplePort.argNum = some old ∧
      PackBundleOp.getBundle pack = some packBundle ∧
      bp.mapInputSignals exampleBuilder exampleInstance [Value.null]
          [Value.backedge 0 (Ty.channel (Ty.integer 8))] = some (blk, newOperands') ∧
      exampleBuilder.block.ops = pre ++ post ∧
      blk.ops = pre ++ unpack :: post ∧
      (exampleBuilder.point = InsertPoint.blockBegin → pre = []) ∧
      (exampleBuilder.point = InsertPoint.blockTerminator → post = []) ∧
      (∀ id, exampleBuilder.point = InsertPoint.beforeOp id →
        (∀ o ∈ pre, o.id ≠ id) ∧ (∀ x, post.head? = some x → x.id = id)) ∧
      blk.terminator = exampleBuilder.block.terminator ∧
      unpack.kind = OpKind.unpack ∧
      UnpackBundleOp.getBundle unpack = some exampleBundleValue ∧
      pack.operands = ins.map NewPort.value ∧
      (∀ i (h : i < ins.length),
        (unpack.getResult i).isSome ∧
        newOperands'[(ins[i]).info.argNum]? = unpack.getResult i) ∧
      (UnpackBundleOp.getFromChannels unpack).map some =
        outs.map (fun q => [Value.backedge 0 (Ty.channel (Ty.integer 8))][q.info.argNum]?) ∧
      outs.map NewPort.value = PackBundleOp.getFromChannels pack ∧
      pack.operands.map (connectValue (inputConnections ins newOperands')) =
        UnpackBundleOp.getToChannels unpack ∧
      unpack.operands.map (connectValue (outputConnections outs
          [Value.backedge 0 (Ty.channel (Ty.integer 8))])) =
        exampleBundleValue :: PackBundleOp.getFromChannels pack ∧
      PackBundleOp.getBundle (pack.connectOperands (inputConnections ins newOperands')) =
        some packBundle ∧
      cancelPackOfUnpack (pack.connectOperands (inputConnections ins newOperands'))
        (unpack.connectOperands (outputConnections outs
          [Value.backedge 0 (Ty.channel (Ty.integer 8))])) = some exampleBundleValue :=
  ⟨⟨rfl, rfl, by decide, rfl, rfl, by decide, by decide, by decide, by decide⟩,
   C5_round_trip examplePort exampleChannels exampleConverter exampleBody exampleBuilder
     exampleInstance [Value.null] [Value.backedge 0 (Ty.channel (Ty.integer 8))]
     exampleBundleValue rfl rfl (by decide) rfl rfl (by decide) (by decide) (by decide)
     (by decide)⟩

/-- C6: for an instance of a module whose original port was a scalar bundle
input, `BundlePort::mapInputSignals` inserts exactly one operation, an Unpack:
the operations of the block were `pre ++ post` and are `pre ++ unpack :: post`
afterwards, `pre` and `post` being split at the builder's insertion point, and
the terminator and the arguments are untouched. The bundle operand of the
Unpack is the operand of the old instance at the port's index, its channel
operands are, in order, the new results at the indices of the new
output-channel ports, and for every `idx` the new operand at the index of the
`idx`-th new input-channel port is the Unpack's `idx`-th result; the new
operands at all other indices are unchanged. -/
theorem C6_mapInputSignals (origPort : PortInfo) (chs : List BundledChannel)
    (c : PortConverterImpl) (b : OpBuilder) (inst : Operation)
    (newOperands newResults : List Value) (V : Value)
    (hty : origPort.type = Ty.bundle chs) (hin : isInputOf origPort c)
    (hV : inst.getOperand origPort.argNum = some V) (hVt : V.getType = origPort.type)
    (hops : c.newInputs.length +
      (chs.filter (fun ch => ch.direction = ChannelDirection.to)).length ≤ newOperands.length)
    (hres : c.newOutputs.length +
      (chs.filter (fun ch => ch.direction = ChannelDirection.from)).length ≤
        newResults.length) :
    ∃ bp c' unpack blk newOperands' pre post,
      (BundlePort.new origPort).buildInputSignals c = some (bp, c') ∧
      bp.newInputChannels = (c'.newInputs.drop c.newInputs.length).map NewPort.info ∧
      bp.newOutputChannels = (c'.newOutputs.drop c.newOutputs.length).map NewPort.info ∧
      bp.mapInputSignals b inst newOperands newResults = some (blk, newOperands') ∧
      b.block.ops = pre ++ post ∧
      blk.ops = pre ++ unpack :: post ∧
      (b.point = InsertPoint.blockBegin → pre = []) ∧
      (b.point = InsertPoint.blockTerminator → post = []) ∧
      (∀ id, b.point = InsertPoint.beforeOp id →
        (∀ o ∈ pre, o.id ≠ id) ∧ (∀ x, post.head? = some x → x.id = id)) ∧
      blk.terminator = b.block.terminator ∧
      blk.arguments = b.block.arguments ∧
      blk.nextOp = b.block.nextOp + 1 ∧
      unpack.id = b.block.nextOp ∧
      unpack.kind = OpKind.unpack ∧
      UnpackBundleOp.getBundle unpack = inst.getOperand origPort.argNum ∧
      (UnpackBundleOp.getFromChannels unpack).map some =
        bp.newOutputChannels.map (fun p => newResults[p.argNum]?) ∧
      newOperands'.length = newOperands.length ∧
      (∀ j, (∀ p ∈ bp.newInputChannels, p.argNum ≠ j) → newOperands'[j]? = newOperands[j]?) ∧
      (∀ idx (h : idx < bp.newInputChannels.length),
        (unpack.getResult idx).isSome ∧
        newOperands'[(bp.newInputChannels[idx]).argNum]? = unpack.getResult idx) := by
  obtain ⟨bp, c', ins, outs, hcall, horig, hi, ho, hbi, hbo, hai, hao⟩ :=
    buildInputSignals_members origPort chs c hty hin
  have hbi' := range'_bound _ _ bp.newInputChannels (by rw [hbi, map_info_argNum, hai])
  have hbo' := range'_bound _ _ bp.newOutputChannels (by rw [hbo, map_info_argNum, hao])
  have hlen : bp.newInputChannels.length =
      (chs.filter (fun ch => ch.direction = ChannelDirection.to)).length := by
    have := congrArg List.length hai
    simpa [hbi] using this
  obtain ⟨fromChannels, ops', hmap, hfrom, hl, hkeep, hset⟩ :=
    mapInputSignals_spec bp b inst newOperands newResults V chs
      (by rw [horig]; exact hV) (by rw [hVt, hty])
      (fun p hp => Nat.lt_of_lt_of_le (hbo'.1 p hp) hres)
      (fun p hp => Nat.lt_of_lt_of_le (hbi'.1 p hp) hops)
      (Nat.le_of_eq hlen)
  obtain ⟨pre, post, hsplit, hins, hbeg, hend, hbefore⟩ := Block.insert_split b.block b.point
    (b.block.create b.point OpKind.unpack (V :: fromChannels)
      (UnpackBundleOp.resultTypes ⟨chs⟩)).1
  refine ⟨bp, c', _, _, ops', pre, post, hcall, by simp [hi, hbi], by simp [ho, hbo], hmap,
    hsplit, hins, hbeg, hend, hbefore, ?_, ?_, rfl, rfl, rfl, ?_, ?_, hl, hkeep, ?_⟩
  · cases hp : b.point <;> simp [Block.create, Block.insert, hp]
  · cases hp : b.point <;> simp [Block.create, Block.insert, hp]
  · simp [UnpackBundleOp.getBundle, Operation.getOperand, Block.create] at hV ⊢
    exact hV.symm
  · simpa [UnpackBundleOp.getFromChannels, Block.create] using hfrom
  · intro idx h
    refine ⟨?_, hset hbi'.2 idx h⟩
    have : idx < (chs.filter (fun ch => ch.direction = ChannelDirection.to)).length := by
      rw [← hlen]; exact h
    simp [Operation.getResult, Operation.getResults, Block.create,
      UnpackBundleOp.resultTypes, ChannelBundleType.getChannels, this]

/-- Witness of C6: the instance of Scenario A, driven by the bundle value `V`,
with one new operand slot and one backedge (`exampleBuilder_mapInputSignals`
gives the same run evaluated). -/
theorem C6_mapInputSignals_witness :
    (examplePort.type = Ty.bundle exampleChannels ∧
      isInputOf examplePort exampleConverter ∧
      exampleInstance.getOperand examplePort.argNum = some exampleBundleValue ∧
      exampleBundleValue.getType = examplePort.type ∧
      exampleConverter.newInputs.length +
        (exampleChannels.filter (fun ch => ch.direction = ChannelDirection.to)).length ≤
          [Value.null].length ∧
      exampleConverter.newOutputs.length +
        (exampleChannels.filter (fun ch => ch.direction = ChannelDirection.from)).length ≤
          [Value.backedge 0 (Ty.channel (Ty.integer 8))].length) ∧
    ∃ bp c' unpack blk newOperands' pre post,
      (BundlePort.new examplePort).buildInputSignals exampleConverter = some (bp, c') ∧
      bp.newInputChannels =
        (c'.newInputs.drop exampleConverter.newInputs.length).map NewPort.info ∧
      bp.newOutputChannels =
        (c'.newOutputs.drop exampleConverter.newOutputs.length).map NewPort.info ∧
      bp.mapInputSignals exampleBuilder exampleInstance [Value.null]
          [Value.backedge 0 (Ty.channel (Ty.integer 8))] = some (blk, newOperands') ∧
      exampleBuilder.block.ops = pre ++ post ∧
      blk.ops = pre ++ unpack :: post ∧
      (exampleBuilder.point = InsertPoint.blockBegin → pre = []) ∧
      (exampleBuilder.point = InsertPoint.blockTerminator → post = []) ∧
      (∀ id, exampleBuilder.point = InsertPoint.beforeOp id →
        (∀ o ∈ pre, o.id ≠ id) ∧ (∀ x, post.head? = some x → x.id = id)) ∧
      blk.terminator = exampleBuilder.block.terminator ∧
      blk.arguments = exampleBuilder.block.arguments ∧
      blk.nextOp = exampleBuilder.block.nextOp + 1 ∧
      unpack.id = exampleBuilder.block.nextOp ∧
      unpack.kind = OpKind.unpack ∧
      UnpackBundleOp.getBundle unpack = exampleInstance.getOperand examplePort.argNum ∧
      (UnpackBundleOp.getFromChannels unpack).map some =
        bp.newOutputChannels.map
          (fun p => [Value.backedge 0 (Ty.channel (Ty.integer 8))][p.argNum]?) ∧
      newOperands'.length = [Value.null].length ∧
      (∀ j, (∀ p ∈ bp.newInputChannels, p.argNum ≠ j) →
        newOperands'[j]? = [Value.null][j]?) ∧
      (∀ idx (h : idx < bp.newInputChannels.length),
        (unpack.getResult idx).isSome ∧
        newOperands'[(bp.newInputChannels[idx]).argNum]? = unpack.getResult idx) :=
  ⟨⟨rfl, by decide, rfl, rfl, by decide, by decide⟩,
   C6_mapInputSignals examplePort exampleChannels exampleConverter exampleBuilder
     exampleInstance [Value.null] [Value.backedge 0 (Ty.channel (Ty.integer 8))]
     exampleBundleValue rfl (by decide) rfl rfl (by decide) (by decide)⟩

/-- C7: for an instance of a module whose original port was a scalar bundle
output, `BundlePort::mapOutputSignals` inserts exactly one operation, a Pack of
the original bundle type: the operations of the block were `pre ++ post` and
are `pre ++ pack :: post` afterwards, `pre` and `post` being split at the
builder's insertion point. The operands of the Pack are, in order, the new
results at the indices of the new output-channel ports. In every operation of
the block and in the terminator each operand that was the old result of the
old instance is now the Pack's bundle and all other operands are as before, so
the old result occurs nowhere in the block. For every `idx` the new operand at
the index of the `idx`-th new input-channel port is the Pack's `idx`-th
from-channel result; the new operands at all other indices are unchanged. The
old instance is an operation that exists already: its identity is below the
one the next created operation receives. -/
theorem C7_mapOutputSignals (origPort : PortInfo) (chs : List BundledChannel)
    (c : PortConverterImpl) (b : OpBuilder) (inst : Operation)
    (newOperands newResults : List Value)
    (hty : origPort.type = Ty.bundle chs) (hout : isOutputOf origPort c)
    (hinst : origPort.argNum < inst.resultTypes.length)
    (hfresh : inst.id < b.block.nextOp)
    (hops : c.newInputs.length +
      (chs.filter (fun ch => ch.direction = ChannelDirection.from)).length ≤
        newOperands.length)
    (hres : c.newOutputs.length +
      (chs.filter (fun ch => ch.direction = ChannelDirection.to)).length ≤
        newResults.length) :
    ∃ bp c' pack old bundle blk newOperands' pre post,
      (BundlePort.new origPort).buildOutputSignals c = some (bp, c') ∧
      bp.newInputChannels = (c'.newInputs.drop c.newInputs.length).map NewPort.info ∧
      bp.newOutputChannels = (c'.newOutputs.drop c.newOutputs.length).map NewPort.info ∧
      bp.mapOutputSignals b inst newOperands newResults = some (blk, newOperands') ∧
      b.block.ops = pre ++ post ∧
      blk.ops = (pre ++ pack :: post).map (fun op =>
        { op with operands := op.operands.map (fun v => if v = old then bundle else v) }) ∧
      blk.terminator = { b.block.terminator with
        operands := b.block.terminator.operands.map (fun v => if v = old then bundle else v) } ∧
      (b.point = InsertPoint.blockBegin → pre = []) ∧
      (b.point = InsertPoint.blockTerminator → post = []) ∧
      (∀ id, b.point = InsertPoint.beforeOp id →
        (∀ o ∈ pre, o.id ≠ id) ∧ (∀ x, post.head? = some x → x.id = id)) ∧
      (∀ op ∈ blk.ops, old ∉ op.operands) ∧
      old ∉ blk.terminator.operands ∧
      blk.arguments = b.block.arguments ∧
      blk.nextOp = b.block.nextOp + 1 ∧
      pack.id = b.block.nextOp ∧
      pack.kind = OpKind.pack ∧
      pack.resultTypes = PackBundleOp.resultTypes ⟨chs⟩ ∧
      inst.getResult origPort.argNum = some old ∧
      PackBundleOp.getBundle pack = some bundle ∧
      bundle.getType = origPort.type ∧
      pack.operands.map some = bp.newOutputChannels.map (fun p => newResults[p.argNum]?) ∧
      newOperands'.length = newOperands.length ∧
      (∀ j, (∀ p ∈ bp.newInputChannels, p.argNum ≠ j) → newOperands'[j]? = newOperands[j]?) ∧
      (∀ idx (h : idx < bp.newInputChannels.length),
        ((PackBundleOp.getFromChannels pack)[idx]?).isSome ∧
        newOperands'[(bp.newInputChannels[idx]).argNum]? =
          (PackBundleOp.getFromChannels pack)[idx]?) := by
  obtain ⟨bp, c', ins, outs, hcall, horig, hi, ho, hbi, hbo, hai, hao⟩ :=
    buildOutputSignals_members origPort chs c hty hout
  obtain ⟨bo, bni, bno⟩ := bp
  simp only at horig hbi hbo
  subst horig
  have hbi' := range'_bound _ _ bni (by rw [hbi, map_info_argNum, hai])
  have hbo' := range'_bound _ _ bno (by rw [hbo, map_info_argNum, hao])
  have hlen : bni.length =
      (chs.filter (fun ch => ch.direction = ChannelDirection.from)).length := by
    have := congrArg List.length hai
    simpa [hbi] using this
  obtain ⟨toChannels, ops', hmap, hto, hl, hkeep, hset⟩ :=
    mapOutputSignals_spec ⟨bo, bni, bno⟩ b inst newOperands newResults chs
      hty hinst
      (fun p hp => Nat.lt_of_lt_of_le (hbo'.1 p hp) hres)
      (fun p hp => Nat.lt_of_lt_of_le (hbi'.1 p hp) hops)
      (Nat.le_of_eq hlen)
  obtain ⟨pre, post, hsplit, hins, hbeg, hend, hbefore⟩ := Block.insert_split b.block b.point
    (b.block.create b.point OpKind.pack toChannels (PackBundleOp.resultTypes ⟨chs⟩)).1
  have hne : Value.opResult b.block.nextOp 0 (Ty.bundle chs) ≠
      Value.opResult inst.id bo.argNum inst.resultTypes[bo.argNum] := by
    intro h
    injection h with h1 _ _
    omega
  have hblk : (Block.replaceAllUsesWith
      (b.block.create b.point OpKind.pack toChannels (PackBundleOp.resultTypes ⟨chs⟩)).2
      (Value.opResult inst.id bo.argNum inst.resultTypes[bo.argNum])
      (Value.opResult b.block.nextOp 0 (Ty.bundle chs))).ops =
      (pre ++ (b.block.create b.point OpKind.pack toChannels
          (PackBundleOp.resultTypes ⟨chs⟩)).1 :: post).map (fun op =>
        { op with operands := op.operands.map (fun v =>
          if v = Value.opResult inst.id bo.argNum inst.resultTypes[bo.argNum]
          then Value.opResult b.block.nextOp 0 (Ty.bundle chs) else v) }) := by
    rw [← hins]
    rfl
  refine ⟨_, c', _, _, _, _, ops', pre, post, hcall, by simp [hi, hbi], by simp [ho, hbo], hmap,
    hsplit, hblk, ?_, hbeg, hend, hbefore, ?_, ?_, ?_, rfl, rfl, rfl, rfl,
    ?_, ?_, ?_, ?_, hl, hkeep, ?_⟩
  · cases hp : b.point <;> rfl
  · intro op hop
    rw [hblk, List.mem_map] at hop
    obtain ⟨o, _, h⟩ := hop
    rw [← h]
    exact not_mem_map_replace _ _ hne _
  · have ht : (Block.replaceAllUsesWith
        (b.block.create b.point OpKind.pack toChannels (PackBundleOp.resultTypes ⟨chs⟩)).2
        (Value.opResult inst.id bo.argNum inst.resultTypes[bo.argNum])
        (Value.opResult b.block.nextOp 0 (Ty.bundle chs))).terminator.operands =
        b.block.terminator.operands.map (fun v =>
          if v = Value.opResult inst.id bo.argNum inst.resultTypes[bo.argNum]
          then Value.opResult b.block.nextOp 0 (Ty.bundle chs) else v) := by
      cases hp : b.point <;> rfl
    rw [ht]
    exact not_mem_map_replace _ _ hne _
  · cases hp : b.point <;> rfl
  · simp [Operation.getResult, Operation.getResults, List.getElem?_eq_getElem hinst]
  · simp [PackBundleOp.getBundle, Operation.getResult, Operation.getResults, Block.create,
      PackBundleOp.resultTypes, ChannelBundleType.toTy]
  · simp [Value.getType, hty]
  · simpa [Block.create] using hto
  · intro idx h
    refine ⟨?_, hset hbi'.2 idx h⟩
    have : idx < (chs.filter (fun ch => ch.direction = ChannelDirection.from)).length := by
      rw [← hlen]; exact h
    simp [PackBundleOp.getFromChannels, Operation.getResults, Block.create,
      PackBundleOp.resultTypes, ChannelBundleType.getChannels, this]

/-- Witness of C7: an instance of a module whose output port `x` has the bundle
of Scenario A, with one new operand slot and one backedge
(`exampleOutBuilder_mapOutputSignals` gives the same run evaluated). -/
theorem C7_mapOutputSignals_witness :
    (examplePort.type = Ty.bundle exampleChannels ∧
      isOutputOf examplePort exampleConverter ∧
      examplePort.argNum < exampleOutInstance.resultTypes.length ∧
      exampleOutInstance.id < exampleOutBuilder.block.nextOp ∧
      exampleConverter.newInputs.length +
        (exampleChannels.filter (fun ch => ch.direction = ChannelDirection.from)).length ≤
          [Value.null].length ∧
      exampleConverter.newOutputs.length +
        (exampleChannels.filter (fun ch => ch.direction = ChannelDirection.to)).length ≤
          [Value.backedge 0 (Ty.channel (Ty.integer 1))].length) ∧
    ∃ bp c' pack old bundle blk newOperands' pre post,
      (BundlePort.new examplePort).buildOutputSignals exampleConverter = some (bp, c') ∧
      bp.newInputChannels =
        (c'.newInputs.drop exampleConverter.newInputs.length).map NewPort.info ∧
      bp.newOutputChannels =
        (c'.newOutputs.drop exampleConverter.newOutputs.length).map NewPort.info ∧
      bp.mapOutputSignals exampleOutBuilder exampleOutInstance [Value.null]
          [Value.backedge 0 (Ty.channel (Ty.integer 1))] = some (blk, newOperands') ∧
      exampleOutBuilder.block.ops = pre ++ post ∧
      blk.ops = (pre ++ pack :: post).map (fun op =>
        { op with operands := op.operands.map (fun v => if v = old then bundle else v) }) ∧
      blk.terminator = { exampleOutBuilder.block.terminator with
        operands := exampleOutBuilder.block.terminator.operands.map
          (fun v => if v = old then bundle else v) } ∧
      (exampleOutBuilder.point = InsertPoint.blockBegin → pre = []) ∧
      (exampleOutBuilder.point = InsertPoint.blockTerminator → post = []) ∧
      (∀ id, exampleOutBuilder.point = InsertPoint.beforeOp id →
        (∀ o ∈ pre, o.id ≠ id) ∧ (∀ x, post.head? = some x → x.id = id)) ∧
      (∀ op ∈ blk.ops, old ∉ op.operands) ∧
      old ∉ blk.terminator.operands ∧
      blk.arguments = exampleOutBuilder.block.arguments ∧
      blk.nextOp = exampleOutBuilder.block.nextOp + 1 ∧
      pack.id = exampleOutBuilder.block.nextOp ∧
      pack.kind = OpKind.pack ∧
      pack.resultTypes = PackBundleOp.resultTypes ⟨exampleChannels⟩ ∧
      exampleOutInstance.getResult examplePort.argNum = some old ∧
      PackBundleOp.getBundle pack = some bundle ∧
      bundle.getType = examplePort.type ∧
      pack.operands.map some = bp.newOutputChannels.map
        (fun p => [Value.backedge 0 (Ty.channel (Ty.integer 1))][p.argNum]?) ∧
      newOperands'.length = [Value.null].length ∧
      (∀ j, (∀ p ∈ bp.newInputChannels, p.argNum ≠ j) →
        newOperands'[j]? = [Value.null][j]?) ∧
      (∀ idx (h : idx < bp.newInputChannels.length),
        ((PackBundleOp.getFromChannels pack)[idx]?).isSome ∧
        newOperands'[(bp.newInputChannels[idx]).argNum]? =
          (PackBundleOp.getFromChannels pack)[idx]?) :=
  ⟨⟨rfl, by decide, by decide, by decide, by decide, by decide⟩,
   C7_mapOutputSignals examplePort exampleChannels exampleConverter exampleOutBuilder
     exampleOutInstance [Value.null] [Value.backedge 0 (Ty.channel (Ty.integer 1))]
     rfl (by decide) (by decide) (by decide) (by decide) (by decide)⟩

/-- C8: `ESIBundleConversionBuilder::build` gives a `BundlePort` exactly when
the port's type is a bundle type, an `ArrayBundlePort` exactly when it is an
array type whose element type is a bundle type, and otherwise the result of
the default handler (so for an array of arrays of bundles); two ports of the
same type get the same one of the three. -/
theorem C8_selector {α : Type} (baseBuild : PortInfo → Option α) (port : PortInfo) :
    ((∃ p, ESIBundleConversionBuilder.build baseBuild port =
        some (PortConversion.bundlePort p)) ↔ isaChannelBundleType port.type = true) ∧
    (isaChannelBundleType port.type = true →
      ESIBundleConversionBuilder.build baseBuild port =
        some (PortConversion.bundlePort (BundlePort.new port))) ∧
    ((∃ p, ESIBundleConversionBuilder.build baseBuild port =
        some (PortConversion.arrayBundlePort p)) ↔
      ∃ e n, port.type = Ty.array e n ∧ isaChannelBundleType e = true) ∧
    ((∃ e n, port.type = Ty.array e n ∧ isaChannelBundleType e = true) →
      ESIBundleConversionBuilder.build baseBuild port =
        some (PortConversion.arrayBundlePort (ArrayBundlePort.new port))) ∧
    (isaChannelBundleType port.type = false →
      (¬ ∃ e n, port.type = Ty.array e n ∧ isaChannelBundleType e = true) →
      ESIBundleConversionBuilder.build baseBuild port =
        (baseBuild port).map PortConversion.base) ∧
    (∀ chs n m, port.type = Ty.array (Ty.array (Ty.bundle chs) n) m →
      ESIBundleConversionBuilder.build baseBuild port =
        (baseBuild port).map PortConversion.base) ∧
    (∀ port2 : PortInfo, port2.type = port.type →
      ((∃ p, ESIBundleConversionBuilder.build baseBuild port2 =
          some (PortConversion.bundlePort p)) ↔
        (∃ p, ESIBundleConversionBuilder.build baseBuild port =
          some (PortConversion.bundlePort p))) ∧
      ((∃ p, ESIBundleConversionBuilder.build baseBuild port2 =
          some (PortConversion.arrayBundlePort p)) ↔
        (∃ p, ESIBundleConversionBuilder.build baseBuild port =
          some (PortConversion.arrayBundlePort p)))) := by
  have key : ∀ q : PortInfo,
      ((∃ p, ESIBundleConversionBuilder.build baseBuild q =
          some (PortConversion.bundlePort p)) ↔ isaChannelBundleType q.type = true) ∧
      ((∃ p, ESIBundleConversionBuilder.build baseBuild q =
          some (PortConversion.arrayBundlePort p)) ↔
        ∃ e n, q.type = Ty.array e n ∧ isaChannelBundleType e = true) := by
    intro q
    obtain ⟨name, type, dir, argNum⟩ := q
    cases type with
    | none => cases h : baseBuild ⟨name, Ty.none, dir, argNum⟩ <;>
        simp [ESIBundleConversionBuilder.build, isaChannelBundleType, h]
    | integer w => cases h : baseBuild ⟨name, Ty.integer w, dir, argNum⟩ <;>
        simp [ESIBundleConversionBuilder.build, isaChannelBundleType, h]
    | channel t => cases h : baseBuild ⟨name, Ty.channel t, dir, argNum⟩ <;>
        simp [ESIBundleConversionBuilder.build, isaChannelBundleType, h]
    | bundle chs => simp [ESIBundleConversionBuilder.build, isaChannelBundleType]
    | array e n =>
      have h0 : isaChannelBundleType (Ty.array e n) = false := rfl
      cases he : isaChannelBundleType e <;>
        cases h : baseBuild ⟨name, Ty.array e n, dir, argNum⟩ <;>
        simp [ESIBundleConversionBuilder.build, h0, h, he]
  refine ⟨(key port).1, ?_, (key port).2, ?_, ?_, ?_, ?_⟩
  · intro h
    obtain ⟨name, type, dir, argNum⟩ := port
    cases type <;> simp [isaChannelBundleType] at h
    simp [ESIBundleConversionBuilder.build]
  · rintro ⟨e, n, hty, he⟩
    obtain ⟨name, type, dir, argNum⟩ := port
    simp only at hty
    subst hty
    simp [ESIBundleConversionBuilder.build, he]
  · intro h1 h2
    obtain ⟨name, type, dir, argNum⟩ := port
    cases type with
    | none => rfl
    | integer w => rfl
    | channel t => rfl
    | bundle chs => simp [isaChannelBundleType] at h1
    | array e n =>
      have he : isaChannelBundleType e = false := by
        cases hh : isaChannelBundleType e
        · rfl
        · exact absurd ⟨e, n, rfl, hh⟩ h2
      simp [ESIBundleConversionBuilder.build, he]
  · intro chs n m hty
    obtain ⟨name, type, dir, argNum⟩ := port
    simp only at hty
    subst hty
    simp [ESIBundleConversionBuilder.build, isaChannelBundleType]
  · intro port2 h2
    rw [(key port2).1, (key port2).2, (key port).1, (key port).2, h2]
    exact ⟨Iff.rfl, Iff.rfl⟩

/-- C9: if `ESIBundlesPass::runOnOperation` ends without signalling failure, no
operation and no terminator of any body in the design it leaves is a Pack; and
when all conversions succeed, the design it leaves is the one the cleanup
rewrite left, the diagnostics are exactly the Packs of that design, body by
body in order, and every operation or terminator of a body that is a Pack
makes the pass signal failure and gets a diagnostic. -/
theorem C9_no_residual_pack (run : ModuleOp → String → Bool × ModuleOp)
    (applyPatterns : ModuleOp → Bool × ModuleOp) (top : ModuleOp) :
    ((ESIBundlesPass.runOnOperation run applyPatterns top).failed = false →
      ∀ m ∈ (ESIBundlesPass.runOnOperation run applyPatterns top).top.ops,
        ∀ b, m.body = some b →
          (∀ op ∈ b.ops, op.kind ≠ OpKind.pack) ∧ b.terminator.kind ≠ OpKind.pack) ∧
    ((convertModules run
        ((top.ops.filter (fun m => m.isMutableModule)).map (fun m => m.name)) (top, [])).1 =
          true →
      (ESIBundlesPass.runOnOperation run applyPatterns top).top =
        (applyPatterns (convertModules run
          ((top.ops.filter (fun m => m.isMutableModule)).map (fun m => m.name))
          (top, [])).2.1).2 ∧
      (ESIBundlesPass.runOnOperation run applyPatterns top).diagnostics =
        (ESIBundlesPass.runOnOperation run applyPatterns top).top.ops.flatMap (fun m =>
          match m.body with
          | Option.none => []
          | some b => (b.ops ++ [b.terminator]).filter (fun op => op.kind = OpKind.pack)) ∧
      ∀ m ∈ (ESIBundlesPass.runOnOperation run applyPatterns top).top.ops,
        ∀ b, m.body = some b →
          ∀ pack, (pack ∈ b.ops ∨ pack = b.terminator) → pack.kind = OpKind.pack →
            (ESIBundlesPass.runOnOperation run applyPatterns top).failed = true ∧
            pack ∈ (ESIBundlesPass.runOnOperation run applyPatterns top).diagnostics) := by
  constructor
  · intro h
    cases hc : (convertModules run
        ((top.ops.filter (fun m => m.isMutableModule)).map (fun m => m.name)) (top, [])).1
    · simp [ESIBundlesPass.runOnOperation, hc] at h
    · simp only [ESIBundlesPass.runOnOperation, hc, if_true, walk_foldl] at h ⊢
      simp only [Bool.or_eq_false_iff, Bool.not_eq_false', List.isEmpty_iff] at h
      exact (packOps_eq_nil _).1 h.2
  · intro hc
    simp only [ESIBundlesPass.runOnOperation, hc, if_true, walk_foldl]
    refine ⟨trivial, by simp only [List.nil_append]; rfl, ?_⟩
    intro m hm b hb pack hp hk
    have hmem : pack ∈ (applyPatterns (convertModules run
        ((top.ops.filter (fun m => m.isMutableModule)).map (fun m => m.name))
        (top, [])).2.1).2.packOps := (mem_packOps _ _).2 ⟨m, hm, b, hb, hp, hk⟩
    refine ⟨?_, by simpa using hmem⟩
    have : (applyPatterns (convertModules run
        ((top.ops.filter (fun m => m.isMutableModule)).map (fun m => m.name))
        (top, [])).2.1).2.packOps ≠ [] := List.ne_nil_of_mem hmem
    simp [this]

/-- Witness of C9, with a converter and a cleanup that succeed: on the design
whose module holds an Unpack and no Pack the pass does not signal failure and
no Pack is left; on the design whose module holds a Pack the pass signals
failure and the Pack gets a diagnostic. -/
theorem C9_no_residual_pack_witness :
    ((ESIBundlesPass.runOnOperation exampleRunOk exampleCleanup exampleUnpackDesign).failed =
        false ∧
      ∀ m ∈ (ESIBundlesPass.runOnOperation exampleRunOk exampleCleanup
          exampleUnpackDesign).top.ops,
        ∀ b, m.body = some b →
          (∀ op ∈ b.ops, op.kind ≠ OpKind.pack) ∧ b.terminator.kind ≠ OpKind.pack) ∧
    ((ESIBundlesPass.runOnOperation exampleRunOk exampleCleanup examplePackDesign).top =
        examplePackDesign ∧
      examplePack ∈ examplePackBody.ops ∧
      (ESIBundlesPass.runOnOperation exampleRunOk exampleCleanup examplePackDesign).failed =
        true ∧
      examplePack ∈
        (ESIBundlesPass.runOnOperation exampleRunOk exampleCleanup
          examplePackDesign).diagnostics) :=
  ⟨⟨by decide,
    (C9_no_residual_pack exampleRunOk exampleCleanup exampleUnpackDesign).1 (by decide)⟩,
   ⟨by decide, by decide,
    ((C9_no_residual_pack exampleRunOk exampleCleanup examplePackDesign).2 (by decide)).2.2
      { name := "A", isMutableModule := true, body := some examplePackBody } (by decide)
      examplePackBody rfl examplePack (Or.inl (by decide)) rfl⟩⟩

/-- C10: when the conversion of module `m` fails after the conversions of the
modules `pre` before it succeeded, the pass signals failure, the only calls it
made are the port conversions of `pre` and of `m` (none for the modules `post`
after `m`, no cleanup rewrite, no walk over the Packs), no diagnostic is
emitted and the design is as the failed conversion left it. -/
theorem C10_fail_fast (run : ModuleOp → String → Bool × ModuleOp)
    (applyPatterns : ModuleOp → Bool × ModuleOp) (top : ModuleOp)
    (pre : List String) (m : String) (post : List String)
    (hmods : (top.ops.filter (fun m => m.isMutableModule)).map (fun m => m.name) =
      pre ++ m :: post)
    (hpre : (convertModules run pre (top, [])).1 = true)
    (hfail : (run (convertModules run pre (top, [])).2.1 m).1 = false) :
    (ESIBundlesPass.runOnOperation run applyPatterns top).failed = true ∧
    (ESIBundlesPass.runOnOperation run applyPatterns top).calls =
      (pre ++ [m]).map Call.portConverter ∧
    Call.applyPatterns ∉ (ESIBundlesPass.runOnOperation run applyPatterns top).calls ∧
    Call.walk ∉ (ESIBundlesPass.runOnOperation run applyPatterns top).calls ∧
    (ESIBundlesPass.runOnOperation run applyPatterns top).diagnostics = [] ∧
    (ESIBundlesPass.runOnOperation run applyPatterns top).top =
      (run (convertModules run pre (top, [])).2.1 m).2 := by
  have hcalls := convertModules_calls run pre (top, []) hpre
  have hrun : convertModules run (pre ++ m :: post) (top, []) =
      (false, (run (convertModules run pre (top, [])).2.1 m).2,
        (pre ++ [m]).map Call.portConverter) := by
    rw [convertModules_append, if_pos hpre]
    simp only [convertModules, hfail]
    simp [hcalls]
  simp only [ESIBundlesPass.runOnOperation, hmods, hrun]
  simp

/-- Witness of C10: on the design with modules `A`, `B`, `C`, the conversion of
`B` fails after that of `A`. -/
theorem C10_fail_fast_witness :
    ((exampleDesign.ops.filter (fun m => m.isMutableModule)).map (fun m => m.name) =
        ["A"] ++ "B" :: ["C"] ∧
      (convertModules exampleRun ["A"] (exampleDesign, [])).1 = true ∧
      (exampleRun (convertModules exampleRun ["A"] (exampleDesign, [])).2.1 "B").1 = false) ∧
    ((ESIBundlesPass.runOnOperation exampleRun exampleCleanup exampleDesign).failed = true ∧
    (ESIBundlesPass.runOnOperation exampleRun exampleCleanup exampleDesign).calls =
      (["A"] ++ ["B"]).map Call.portConverter ∧
    Call.applyPatterns ∉
      (ESIBundlesPass.runOnOperation exampleRun exampleCleanup exampleDesign).calls ∧
    Call.walk ∉ (ESIBundlesPass.runOnOperation exampleRun exampleCleanup exampleDesign).calls ∧
    (ESIBundlesPass.runOnOperation exampleRun exampleCleanup exampleDesign).diagnostics = [] ∧
    (ESIBundlesPass.runOnOperation exampleRun exampleCleanup exampleDesign).top =
      (exampleRun (convertModules exampleRun ["A"] (exampleDesign, [])).2.1 "B").2) :=
  ⟨⟨by decide, by decide, by decide⟩,
   C10_fail_fast exampleRun exampleCleanup exampleDesign ["A"] "B" ["C"]
     (by decide) (by decide) (by decide)⟩

/-- C11: on a module with no body, `BundlePort::buildInputSignals`,
`BundlePort::buildOutputSignals` and `ArrayBundlePort::buildOutputSignals`
create the same new ports (same original port, suffix, name, type, direction
and position, in the same order) as on the same module given a body `body`,
the module still has no body afterwards (so no Pack, Unpack, array access or
array construction was inserted), and the value wired to every new output is
absent (null). -/
theorem C11_no_body (origPort : PortInfo) (chs : List BundledChannel)
    (c : PortConverterImpl) (body : Block) (hc : c.body = Option.none) :
    (origPort.type = Ty.bundle chs → isInputOf origPort { c with body := some body } →
      ∃ bp c' bp2 c2',
        (BundlePort.new origPort).buildInputSignals c = some (bp, c') ∧
        (BundlePort.new origPort).buildInputSignals { c with body := some body } =
          some (bp2, c2') ∧
        c'.newInputs.map (fun p => (p.origPort, p.suffix, p.info)) =
          c2'.newInputs.map (fun p => (p.origPort, p.suffix, p.info)) ∧
        c'.newOutputs.map (fun p => (p.origPort, p.suffix, p.info)) =
          c2'.newOutputs.map (fun p => (p.origPort, p.suffix, p.info)) ∧
        c'.body = Option.none ∧
        ∀ p ∈ c'.newOutputs.drop c.newOutputs.length, p.value = Value.null) ∧
    (origPort.type = Ty.bundle chs → isOutputOf origPort { c with body := some body } →
      ∃ bp c' bp2 c2',
        (BundlePort.new origPort).buildOutputSignals c = some (bp, c') ∧
        (BundlePort.new origPort).buildOutputSignals { c with body := some body } =
          some (bp2, c2') ∧
        c'.newInputs.map (fun p => (p.origPort, p.suffix, p.info)) =
          c2'.newInputs.map (fun p => (p.origPort, p.suffix, p.info)) ∧
        c'.newOutputs.map (fun p => (p.origPort, p.suffix, p.info)) =
          c2'.newOutputs.map (fun p => (p.origPort, p.suffix, p.info)) ∧
        c'.body = Option.none ∧
        ∀ p ∈ c'.newOutputs.drop c.newOutputs.length, p.value = Value.null) ∧
    (∀ numBundles, origPort.type = Ty.array (Ty.bundle chs) numBundles →
      isOutputOf origPort { c with body := some body } →
      ∃ bp c' bp2 c2',
        (ArrayBundlePort.new origPort).buildOutputSignals c = some (bp, c') ∧
        (ArrayBundlePort.new origPort).buildOutputSignals { c with body := some body } =
          some (bp2, c2') ∧
        c'.newInputs.map (fun p => (p.origPort, p.suffix, p.info)) =
          c2'.newInputs.map (fun p => (p.origPort, p.suffix, p.info)) ∧
        c'.newOutputs.map (fun p => (p.origPort, p.suffix, p.info)) =
          c2'.newOutputs.map (fun p => (p.origPort, p.suffix, p.info)) ∧
        c'.body = Option.none ∧
        ∀ p ∈ c'.newOutputs.drop c.newOutputs.length, p.value = Value.null) := by
  refine ⟨?_, ?_, ?_⟩
  · intro hty hin
    have h1 := buildInputSignals_noBody origPort chs c hty hc
    obtain ⟨bp2, c2', r2, h2, hi2, ho2⟩ :=
      buildInputSignals_ports origPort chs { c with body := some body } hty hin
    refine ⟨_, _, bp2, c2', h1, h2, ?_, ?_, rfl, ?_⟩
    · rw [hi2]
      simp only [List.map_append]
      rw [declaredInputs_proj origPort BundledChannel.type _ _ Option.none
        (Option.map (fun b => b.arguments.length) (some body))]
    · rw [ho2]
      simp only [List.map_append]
      rw [declaredOutputs_proj origPort BundledChannel.type Option.none r2]
    · simp only [List.drop_left]
      exact declaredOutputs_null _ _ _ _ _
  · intro hty hout
    have h1 := buildOutputSignals_noBody origPort chs c hty hc
    obtain ⟨bp2, c2', r2, h2, hi2, ho2⟩ :=
      buildOutputSignals_ports origPort chs { c with body := some body } hty hout
    refine ⟨_, _, bp2, c2', h1, h2, ?_, ?_, rfl, ?_⟩
    · rw [hi2]
      simp only [List.map_append]
      rw [declaredInputs_proj origPort BundledChannel.type _ _ Option.none
        (Option.map (fun b => b.arguments.length) (some body))]
    · rw [ho2]
      simp only [List.map_append]
      rw [declaredOutputs_proj origPort BundledChannel.type Option.none r2]
    · simp only [List.drop_left]
      exact declaredOutputs_null _ _ _ _ _
  · intro numBundles hty hout
    obtain ⟨bp, c', r, h1, hi1, ho1, _, _, hb1, _⟩ :=
      arrayBuildOutputSignals_spec origPort chs numBundles c hty (by
        intro b hb; rw [hc] at hb; cases hb)
    obtain ⟨bp2, c2', r2, h2, hi2, ho2⟩ :=
      arrayBuildOutputSignals_ports origPort chs numBundles { c with body := some body } hty hout
    obtain ⟨hr, hbody⟩ := hb1 hc
    subst hr
    refine ⟨bp, c', bp2, c2', h1, h2, ?_, ?_, hbody, ?_⟩
    · rw [hi1, hi2]
      simp only [List.map_append]
      rw [declaredInputs_proj origPort _ _ _ (Option.map (fun b => b.arguments.length) c.body)
        (Option.map (fun b => b.arguments.length) (some body))]
    · rw [ho1, ho2]
      simp only [List.map_append]
      rw [declaredOutputs_proj origPort _ Option.none r2]
    · rw [ho1]
      simp only [List.drop_left]
      exact declaredOutputs_null _ _ _ _ _

/-- Witness of C11: the scalar port `x` of Scenario A and the array port `y`,
on a module without a body, compared with the bodies of the examples. -/
theorem C11_no_body_witness :
    (exampleExternConverter.body = Option.none ∧
      examplePort.type = Ty.bundle exampleChannels ∧
      isInputOf examplePort { exampleExternConverter with body := some exampleBody } ∧
      isOutputOf examplePort { exampleExternConverter with body := some exampleBody } ∧
      exampleArrayPort.type = Ty.array (Ty.bundle exampleChannels) 2 ∧
      isOutputOf exampleArrayPort
        { exampleExternConverter with body := some exampleArrayBody }) ∧
    (∃ bp c' bp2 c2',
        (BundlePort.new examplePort).buildInputSignals exampleExternConverter =
          some (bp, c') ∧
        (BundlePort.new examplePort).buildInputSignals
          { exampleExternConverter with body := some exampleBody } = some (bp2, c2') ∧
        c'.newInputs.map (fun p => (p.origPort, p.suffix, p.info)) =
          c2'.newInputs.map (fun p => (p.origPort, p.suffix, p.info)) ∧
        c'.newOutputs.map (fun p => (p.origPort, p.suffix, p.info)) =
          c2'.newOutputs.map (fun p => (p.origPort, p.suffix, p.info)) ∧
        c'.body = Option.none ∧
        ∀ p ∈ c'.newOutputs.drop exampleExternConverter.newOutputs.length,
          p.value = Value.null) ∧
    (∃ bp c' bp2 c2',
        (BundlePort.new examplePort).buildOutputSignals exampleExternConverter =
          some (bp, c') ∧
        (BundlePort.new examplePort).buildOutputSignals
          { exampleExternConverter with body := some exampleBody } = some (bp2, c2') ∧
        c'.newInputs.map (fun p => (p.origPort, p.suffix, p.info)) =
          c2'.newInputs.map (fun p => (p.origPort, p.suffix, p.info)) ∧
        c'.newOutputs.map (fun p => (p.origPort, p.suffix, p.info)) =
          c2'.newOutputs.map (fun p => (p.origPort, p.suffix, p.info)) ∧
        c'.body = Option.none ∧
        ∀ p ∈ c'.newOutputs.drop exampleExternConverter.newOutputs.length,
          p.value = Value.null) ∧
    (∃ bp c' bp2 c2',
        (ArrayBundlePort.new exampleArrayPort).buildOutputSignals exampleExternConverter =
          some (bp, c') ∧
        (ArrayBundlePort.new exampleArrayPort).buildOutputSignals
          { exampleExternConverter with body := some exampleArrayBody } = some (bp2, c2') ∧
        c'.newInputs.map (fun p => (p.origPort, p.suffix, p.info)) =
          c2'.newInputs.map (fun p => (p.origPort, p.suffix, p.info)) ∧
        c'.newOutputs.map (fun p => (p.origPort, p.suffix, p.info)) =
          c2'.newOutputs.map (fun p => (p.origPort, p.suffix, p.info)) ∧
        c'.body = Option.none ∧
        ∀ p ∈ c'.newOutputs.drop exampleExternConverter.newOutputs.length,
          p.value = Value.null) :=
  ⟨⟨rfl, rfl, by decide, by decide, rfl, by decide⟩,
   (C11_no_body examplePort exampleChannels exampleExternConverter exampleBody rfl).1 rfl
     (by decide),
   (C11_no_body examplePort exampleChannels exampleExternConverter exampleBody rfl).2.1 rfl
     (by decide),
   (C11_no_body exampleArrayPort exampleChannels exampleExternConverter exampleArrayBody
     rfl).2.2 2 rfl (by decide)⟩

/-- C12 (the code at the failing input): on the input port `z` of type array of
2 bundles, which the selector gives to `ArrayBundlePort`,
`ArrayBundlePort::buildInputSignals` casts the port type itself to a bundle
type; the cast fails, with a body and without one, and no port is created. -/
theorem C12_array_input_cast_fails :
    ESIBundleConversionBuilder.build (fun _ => (Option.none : Option Unit))
        exampleArrayInPort =
      some (PortConversion.arrayBundlePort (ArrayBundlePort.new exampleArrayInPort)) ∧
    isInputOf exampleArrayInPort exampleArrayInConverter ∧
    castChannelBundleType exampleArrayInPort.type = Option.none ∧
    (ArrayBundlePort.new exampleArrayInPort).buildInputSignals exampleArrayInConverter =
      Option.none ∧
    (ArrayBundlePort.new exampleArrayInPort).buildInputSignals exampleExternConverter =
      Option.none :=
  ⟨rfl, by decide, rfl, rfl, rfl⟩

/-- C13 (the code at the failing input): for the instance of a module whose
output port `y` is an array of 2 bundles, `ArrayBundlePort::mapOutputSignals`,
run on the object that `buildOutputSignals` left, casts the array type of the
port to a bundle type and fails: no Pack is inserted (and that object has
recorded no new input-channel port). For the instance of a
module whose input port `z` is an array of 2 bundles, `mapInputSignals` builds
an Unpack of an operand that is an array, not a bundle, and fails as well. -/
theorem C13_array_instance_adapter_fails :
    (∃ bp c',
      (ArrayBundlePort.new exampleArrayPort).buildOutputSignals exampleArrayConverter =
        some (bp, c') ∧
      bp.newInputChannels = [] ∧
      bp.mapOutputSignals exampleArrayOutBuilder exampleArrayOutInstance [Value.null]
        [Value.backedge 0 (Ty.array (Ty.channel (Ty.integer 1)) 2)] = Option.none) ∧
    (ArrayBundlePort.new exampleArrayInPort).mapInputSignals exampleArrayInBuilder
      exampleArrayInInstance [Value.null]
      [Value.backedge 0 (Ty.array (Ty.channel (Ty.integer 8)) 2)] = Option.none := by
  refine ⟨?_, rfl⟩
  obtain ⟨bp, c', _, h, _, _, hni, _, _, _⟩ := arrayBuildOutputSignals_spec exampleArrayPort
    exampleChannels 2 exampleArrayConverter rfl (by
      intro b hb
      cases hb
      exact ⟨_, rfl, rfl⟩)
  refine ⟨bp, c', h, hni, ?_⟩
  have ho : bp.origPort = exampleArrayPort := by
    have h2 := h
    simp only [ArrayBundlePort.buildOutputSignals, Option.bind_eq_some] at h2
    obtain ⟨_, _, _, _, _, _, _, _, _, _, heq⟩ := h2
    cases heq
    rfl
  exact arrayMapOutputSignals_none bp (Ty.bundle exampleChannels) 2 _ _ _ _ (by rw [ho]; rfl)

/-- C14 (the code at the failing input): on an input port of type array of 0
bundles, on a module with a body, `ArrayBundlePort::buildInputSignals` fails at
its cast of the port type to a bundle type and creates no port at all. -/
theorem C14_empty_array_input_fails :
    isInputOf exampleEmptyArrayInPort exampleEmptyArrayInConverter ∧
    exampleEmptyArrayInPort.type = Ty.array (Ty.bundle exampleChannels) 0 ∧
    (ArrayBundlePort.new exampleEmptyArrayInPort).buildInputSignals
      exampleEmptyArrayInConverter = Option.none :=
  ⟨by decide, rfl, rfl⟩

/-- C15: on an output port of type array of 1 bundle `B`,
`ArrayBundlePort::buildOutputSignals` creates the same sequence of new inputs
and of new outputs (same suffix and direction, in the same order) as
`BundlePort::buildOutputSignals` on an output port of type `B`, each type `T`
being replaced by the array of length 1 of `T`; and with a body it appends
operations of which exactly one is an Unpack, as the scalar method appends
exactly one operation, an Unpack. -/
theorem C15_singleton_array (arrayPort scalarPort : PortInfo) (chs : List BundledChannel)
    (ca cs : PortConverterImpl)
    (hta : arrayPort.type = Ty.array (Ty.bundle chs) 1)
    (hts : scalarPort.type = Ty.bundle chs)
    (hoa : isOutputOf arrayPort ca) (hos : isOutputOf scalarPort cs) :
    ∃ bpa ca' bps cs' ia oa is os,
      (ArrayBundlePort.new arrayPort).buildOutputSignals ca = some (bpa, ca') ∧
      (BundlePort.new scalarPort).buildOutputSignals cs = some (bps, cs') ∧
      ca'.newInputs = ca.newInputs ++ ia ∧ ca'.newOutputs = ca.newOutputs ++ oa ∧
      cs'.newInputs = cs.newInputs ++ is ∧ cs'.newOutputs = cs.newOutputs ++ os ∧
      ia.map (fun p => (p.suffix, p.info.dir, p.info.type)) =
        is.map (fun p => (p.suffix, p.info.dir, Ty.array p.info.type 1)) ∧
      oa.map (fun p => (p.suffix, p.info.dir, p.info.type)) =
        os.map (fun p => (p.suffix, p.info.dir, Ty.array p.info.type 1)) ∧
      (∀ ba, ca.body = some ba → ∃ ba' added u, ca'.body = some ba' ∧
        ba'.ops = ba.ops ++ added ∧
        added.filter (fun op => op.kind = OpKind.unpack) = [u]) ∧
      (∀ bs, cs.body = some bs → ∃ bs' u, cs'.body = some bs' ∧
        bs'.ops = bs.ops ++ [u] ∧ u.kind = OpKind.unpack) := by
  obtain ⟨bpa, ca', ia, oa, ha, hia, hoa', hmi, hmo, _, hbody⟩ :=
    arrayBuildOutputSignals_unpacks arrayPort chs 1 ca hta hoa
  have hscalar : ∃ bps cs' is os,
      (BundlePort.new scalarPort).buildOutputSignals cs = some (bps, cs') ∧
      cs'.newInputs = cs.newInputs ++ is ∧ cs'.newOutputs = cs.newOutputs ++ os ∧
      is.map (fun p => (p.suffix, p.info.dir, Ty.array p.info.type 1)) =
        (chs.filter (fun ch => ch.direction = ChannelDirection.from)).map
          (fun ch => ("_" ++ ch.name, Direction.Input, Ty.array ch.type 1)) ∧
      os.map (fun p => (p.suffix, p.info.dir, Ty.array p.info.type 1)) =
        (chs.filter (fun ch => ch.direction = ChannelDirection.to)).map
          (fun ch => ("_" ++ ch.name, Direction.Output, Ty.array ch.type 1)) ∧
      (∀ bs, cs.body = some bs → ∃ bs' u, cs'.body = some bs' ∧
        bs'.ops = bs.ops ++ [u] ∧ u.kind = OpKind.unpack) := by
    cases hb : cs.body with
    | none =>
      refine ⟨_, _, _, _, buildOutputSignals_noBody scalarPort chs cs hts hb, rfl, rfl,
        declaredInputs_map scalarPort _ _ _ (fun _ _ _ => rfl) _ _ _,
        declaredOutputs_map scalarPort _ _ _ _ (fun _ _ _ => rfl) _ _ _, ?_⟩
      intro bs hbs
      cases hbs
    | some body =>
      obtain ⟨v, hv, hvt⟩ : ∃ v, body.terminator.operands[scalarPort.argNum]? = some v ∧
          v.getType = scalarPort.type := by
        simpa [isOutputOf, hb] using hos
      rw [hts] at hvt
      refine ⟨_, _, _, _, buildOutputSignals_body scalarPort chs cs body hts hb v hv hvt,
        rfl, rfl,
        declaredInputs_map scalarPort _ _ _ (fun _ _ _ => rfl) _ _ _,
        declaredOutputs_map scalarPort _ _ _ _ (fun _ _ _ => rfl) _ _ _, ?_⟩
      intro bs hbs
      cases hbs
      exact ⟨_, _, rfl, rfl, rfl⟩
  obtain ⟨bps, cs', is, os, hs, his, hos', hsi, hso, hsbody⟩ := hscalar
  refine ⟨bpa, ca', bps, cs', ia, oa, is, os, ha, hs, hia, hoa', his, hos',
    by rw [hmi, hsi], by rw [hmo, hso], ?_, hsbody⟩
  intro ba hba
  obtain ⟨ba', added, h1, h2, _, h3, _⟩ := hbody ba hba
  obtain ⟨u, hu⟩ := List.length_eq_one.mp h3
  exact ⟨ba', added, u, h1, h2, hu⟩

/-- Witness of C15: the array port `w` of 1 bundle and the scalar port `x`, both
on modules with a body. -/
theorem C15_singleton_array_witness :
    (exampleSingletonPort.type = Ty.array (Ty.bundle exampleChannels) 1 ∧
      examplePort.type = Ty.bundle exampleChannels ∧
      isOutputOf exampleSingletonPort exampleSingletonConverter ∧
      isOutputOf examplePort exampleConverter) ∧
    ∃ bpa ca' bps cs' ia oa is os,
      (ArrayBundlePort.new exampleSingletonPort).buildOutputSignals
        exampleSingletonConverter = some (bpa, ca') ∧
      (BundlePort.new examplePort).buildOutputSignals exampleConverter = some (bps, cs') ∧
      ca'.newInputs = exampleSingletonConverter.newInputs ++ ia ∧
      ca'.newOutputs = exampleSingletonConverter.newOutputs ++ oa ∧
      cs'.newInputs = exampleConverter.newInputs ++ is ∧
      cs'.newOutputs = exampleConverter.newOutputs ++ os ∧
      ia.map (fun p => (p.suffix, p.info.dir, p.info.type)) =
        is.map (fun p => (p.suffix, p.info.dir, Ty.array p.info.type 1)) ∧
      oa.map (fun p => (p.suffix, p.info.dir, p.info.type)) =
        os.map (fun p => (p.suffix, p.info.dir, Ty.array p.info.type 1)) ∧
      (∀ ba, exampleSingletonConverter.body = some ba → ∃ ba' added u, ca'.body = some ba' ∧
        ba'.ops = ba.ops ++ added ∧
        added.filter (fun op => op.kind = OpKind.unpack) = [u]) ∧
      (∀ bs, exampleConverter.body = some bs → ∃ bs' u, cs'.body = some bs' ∧
        bs'.ops = bs.ops ++ [u] ∧ u.kind = OpKind.unpack) :=
  ⟨⟨rfl, rfl, by decide, by decide⟩,
   C15_singleton_array exampleSingletonPort examplePort exampleChannels
     exampleSingletonConverter exampleConverter rfl rfl (by decide) (by decide)⟩

/-- C16: transpose for an output port of type array of `numBundles` bundles on
a module with a body. `ArrayBundlePort::buildOutputSignals` appends operations
to the body, among them exactly `numBundles` Unpacks. Unpack `j` takes as
bundle the result of an access to element `j` of the original output array
(the terminator's operand at the port's index), and as channel operands, one
per new input port and in the order of these ports (the `from` channels in
declaration order), the result of an access to element `j` of that input. The
`i`-th new output port (the `i`-th `to` channel) is wired to the result of an
array construction with `numBundles` operands, the `j`-th of which is result
`i` of Unpack `j`; there is one array construction per new output port. -/
theorem C16_array_transpose (origPort : PortInfo) (chs : List BundledChannel)
    (numBundles : Nat) (c : PortConverterImpl) (body : Block)
    (hty : origPort.type = Ty.array (Ty.bundle chs) numBundles)
    (hbody : c.body = some body) (hout : isOutputOf origPort c) :
    ∃ bp c' ins outs body' added unpacks origArray,
      (ArrayBundlePort.new origPort).buildOutputSignals c = some (bp, c') ∧
      c'.newInputs = c.newInputs ++ ins ∧ c'.newOutputs = c.newOutputs ++ outs ∧
      ins.map (fun p => p.suffix) =
        (chs.filter (fun ch => ch.direction = ChannelDirection.from)).map
          (fun ch => "_" ++ ch.name) ∧
      outs.map (fun p => p.suffix) =
        (chs.filter (fun ch => ch.direction = ChannelDirection.to)).map
          (fun ch => "_" ++ ch.name) ∧
      c'.body = some body' ∧ body'.ops = body.ops ++ added ∧
      body.terminator.getOperand origPort.argNum = some origArray ∧
      added.filter (fun op => op.kind = OpKind.unpack) = unpacks ∧
      unpacks.length = numBundles ∧
      (added.filter (fun op => op.kind = OpKind.arrayCreate)).length = outs.length ∧
      (∀ j (hj : j < unpacks.length),
        (∃ g ∈ added, g.kind = OpKind.arrayGet j ∧ g.operands = [origArray] ∧
          (g.getResult 0).isSome ∧ UnpackBundleOp.getBundle unpacks[j] = g.getResult 0) ∧
        (UnpackBundleOp.getFromChannels unpacks[j]).length = ins.length ∧
        (∀ m (hm : m < ins.length),
          ∃ g ∈ added, g.kind = OpKind.arrayGet j ∧ g.operands = [(ins[m]).value] ∧
            (g.getResult 0).isSome ∧
            (UnpackBundleOp.getFromChannels unpacks[j])[m]? = g.getResult 0)) ∧
      (∀ i (hi : i < outs.length),
        ∃ a ∈ added, a.kind = OpKind.arrayCreate ∧ a.getResult 0 = some (outs[i]).value ∧
          a.operands.length = numBundles ∧
          ∀ j (hj : j < unpacks.length),
            (unpacks[j].getResult i).isSome ∧ a.operands[j]? = unpacks[j].getResult i) := by
  obtain ⟨v, hv, hvt⟩ : ∃ v, body.terminator.operands[origPort.argNum]? = some v ∧
      v.getType = origPort.type := by
    simpa [isOutputOf, hbody] using hout
  rw [hty] at hvt
  obtain ⟨fc, tc, hbuild, hfcl, hfc, htcl, htc⟩ :=
    arrayBuildOutputSignals_body origPort chs numBundles c body v hty hbody hv hvt
  -- abbreviations
  generalize hfroms : chs.filter (fun ch => ch.direction = ChannelDirection.from) = froms
    at hbuild hfc htc
  generalize htos : chs.filter (fun ch => ch.direction = ChannelDirection.to) = tos
    at hbuild htcl
  generalize hn1 : body.nextOp + froms.length * numBundles = n1 at hbuild htc
  have hTy : UnpackBundleOp.resultTypes ⟨chs⟩ = tos.map BundledChannel.type := by
    simp [UnpackBundleOp.resultTypes, ChannelBundleType.getChannels, htos]
  have hUlen : (unpacksOf chs fc n1 (List.range numBundles)).length = numBundles := by
    rw [unpacksOf_length, List.length_range]
  have hU : ∀ j (hj : j < (unpacksOf chs fc n1 (List.range numBundles)).length),
      (unpacksOf chs fc n1 (List.range numBundles))[j] =
        { id := n1 + 2 * j + 1, kind := OpKind.unpack,
          operands := Value.opResult (n1 + 2 * j) 0 (Ty.bundle chs) ::
            fromRow numBundles j body.nextOp froms,
          resultTypes := UnpackBundleOp.resultTypes ⟨chs⟩ } := by
    intro j hj
    have hjN : j < numBundles := by rw [hUlen] at hj; exact hj
    apply getElem_of_getElem_opt _ _ _ hj
    rw [List.range_eq_range', unpacksOf_range' chs fc numBundles n1 0 j hjN]
    simp [List.getD, hfc j hjN]
  have hwired := declaredOutputs_value origPort (fun ch => ArrayType.get ch.type numBundles)
    (createVals (n1 + 2 * numBundles) tc) tos c.newOutputs.length 0 (by
      simp [createVals_length, htcl])
  refine ⟨_, _, _, _, _,
    fromGets numBundles body.nextOp body.arguments.length froms ++
      (unpackOps v chs fc n1 (List.range numBundles) ++ createOps (n1 + 2 * numBundles) tc),
    unpacksOf chs fc n1 (List.range numBundles), v, hbuild, rfl, rfl, ?_, ?_, rfl, rfl, ?_,
    ?_, hUlen, ?_, ?_, ?_⟩
  · exact declaredInputs_map origPort _ _ _ (fun _ _ _ => rfl) _ _ _
  · exact declaredOutputs_map origPort _ _ _ _ (fun _ _ _ => rfl) _ _ _
  · simp [Operation.getOperand, hv]
  · rw [List.filter_append, List.filter_append, unpackOps_filter_unpack,
      filter_kind_nil OpKind.unpack (fromGets _ _ _ _) (by
        intro op hop h
        obtain ⟨j, hj⟩ := fromGets_kind _ _ _ _ op hop
        rw [hj] at h
        cases h),
      filter_kind_nil OpKind.unpack (createOps _ _) (by
        intro op hop h
        rw [createOps_kind _ _ op hop] at h
        cases h)]
    simp
  · rw [List.filter_append, List.filter_append,
      filter_kind_nil OpKind.arrayCreate (fromGets _ _ _ _) (by
        intro op hop h
        obtain ⟨j, hj⟩ := fromGets_kind _ _ _ _ op hop
        rw [hj] at h
        cases h),
      filter_kind_nil OpKind.arrayCreate (unpackOps _ _ _ _ _) (by
        intro op hop h
        have hmem : op ∈ (unpackOps v chs fc n1 (List.range numBundles)).filter
            (fun op => op.kind = OpKind.arrayCreate) := by
          simp [List.mem_filter, hop, h]
        have hnil : (unpackOps v chs fc n1 (List.range numBundles)).filter
            (fun op => op.kind = OpKind.arrayCreate) = [] := by
          generalize List.range numBundles = idxs
          generalize n1 = n
          induction idxs generalizing n with
          | nil => rfl
          | cons j rest ih => simp [unpackOps, List.filter_cons, ih]
        rw [hnil] at hmem
        cases hmem)]
    have hall : (createOps (n1 + 2 * numBundles) tc).filter
        (fun op => op.kind = OpKind.arrayCreate) = createOps (n1 + 2 * numBundles) tc := by
      rw [List.filter_eq_self]
      intro op hop
      simp [createOps_kind _ _ op hop]
    rw [hall]
    simp [createOps_length, htcl, declaredOutputs_length]
  · intro j hj
    have hjN : j < numBundles := by rw [hUlen] at hj; exact hj
    rw [hU j hj]
    refine ⟨?_, ?_, ?_⟩
    · refine ⟨{ id := n1 + 2 * j, kind := OpKind.arrayGet j, operands := [v],
                resultTypes := [Ty.bundle chs] }, ?_, rfl, rfl, ?_, ?_⟩
      · have := mem_unpackOps_range' v chs fc numBundles n1 0 j hjN
        rw [← List.range_eq_range', Nat.zero_add] at this
        simp [this]
      · simp [Operation.getResult, Operation.getResults]
      · simp [UnpackBundleOp.getBundle, Operation.getOperand, Operation.getResult,
          Operation.getResults]
    · simp [UnpackBundleOp.getFromChannels, fromRow_length, declaredInputs_length]
    · intro m hm
      have hm' : m < froms.length := by
        rw [declaredInputs_length] at hm; exact hm
      obtain ⟨g, hg, hk, hs, hr, x, hx, ho⟩ := fromRow_fromGets origPort numBundles j hjN
        froms body.nextOp body.arguments.length c.newInputs.length m hm'
      refine ⟨g, by simp [hg], hk, ?_, hs, ?_⟩
      · rw [hx]
        congr 1
        have h1 : (List.map NewPort.value (declaredInputs origPort
            (fun ch => ArrayType.get ch.type numBundles) c.newInputs.length
            (some body.arguments.length) froms))[m]? =
            some ((declaredInputs origPort (fun ch => ArrayType.get ch.type numBundles)
              c.newInputs.length (some body.arguments.length) froms)[m]).value := by
          simp [List.getElem?_eq_getElem hm]
        rw [ho] at h1
        exact Option.some.inj h1
      · simpa [UnpackBundleOp.getFromChannels] using hr
  · intro i hi
    have hi' : i < tos.length := by
      rw [declaredOutputs_length] at hi; exact hi
    have hty_i : (UnpackBundleOp.resultTypes ⟨chs⟩)[i]? = some (tos[i]).type := by
      rw [hTy]
      simp [List.getElem?_eq_getElem hi']
    have hrow := htc i _ hty_i
    obtain ⟨a, ha, hk, ho, hs, hr⟩ := createOps_get tc (n1 + 2 * numBundles) i _ hrow
    have hval : (createVals (n1 + 2 * numBundles) tc)[i]? =
        some ((declaredOutputs origPort (fun ch => ArrayType.get ch.type numBundles)
          (some (createVals (n1 + 2 * numBundles) tc)) c.newOutputs.length 0 tos)[i]).value := by
      have h1 : (List.map NewPort.value (declaredOutputs origPort
          (fun ch => ArrayType.get ch.type numBundles)
          (some (createVals (n1 + 2 * numBundles) tc)) c.newOutputs.length 0 tos))[i]? =
          some ((declaredOutputs origPort (fun ch => ArrayType.get ch.type numBundles)
            (some (createVals (n1 + 2 * numBundles) tc)) c.newOutputs.length 0 tos)[i]).value := by
        simp [List.getElem?_eq_getElem hi]
      rw [hwired] at h1
      simpa using h1
    have hcol := toColumn_range' i (tos[i]).type numBundles n1 0
    rw [← List.range_eq_range'] at hcol
    refine ⟨a, by simp [ha], hk, by rw [← hr, hval], by rw [ho, hcol.1], ?_⟩
    intro j hj
    have hjN : j < numBundles := by rw [hUlen] at hj; exact hj
    rw [hU j hj, ho, hcol.2 j hjN]
    simp [Operation.getResult, getResults_get, hty_i]

/-- Witness of C16: Scenario B, the array port `y` of 2 bundles on a module
with a body. -/
theorem C16_array_transpose_witness :
    (exampleArrayPort.type = Ty.array (Ty.bundle exampleChannels) 2 ∧
      exampleArrayConverter.body = some exampleArrayBody ∧
      isOutputOf exampleArrayPort exampleArrayConverter) ∧
    ∃ bp c' ins outs body' added unpacks origArray,
      (ArrayBundlePort.new exampleArrayPort).buildOutputSignals exampleArrayConverter =
        some (bp, c') ∧
      c'.newInputs = exampleArrayConverter.newInputs ++ ins ∧
      c'.newOutputs = exampleArrayConverter.newOutputs ++ outs ∧
      ins.map (fun p => p.suffix) =
        (exampleChannels.filter (fun ch => ch.direction = ChannelDirection.from)).map
          (fun ch => "_" ++ ch.name) ∧
      outs.map (fun p => p.suffix) =
        (exampleChannels.filter (fun ch => ch.direction = ChannelDirection.to)).map
          (fun ch => "_" ++ ch.name) ∧
      c'.body = some body' ∧ body'.ops = exampleArrayBody.ops ++ added ∧
      exampleArrayBody.terminator.getOperand exampleArrayPort.argNum = some origArray ∧
      added.filter (fun op => op.kind = OpKind.unpack) = unpacks ∧
      unpacks.length = 2 ∧
      (added.filter (fun op => op.kind = OpKind.arrayCreate)).length = outs.length ∧
      (∀ j (hj : j < unpacks.length),
        (∃ g ∈ added, g.kind = OpKind.arrayGet j ∧ g.operands = [origArray] ∧
          (g.getResult 0).isSome ∧ UnpackBundleOp.getBundle unpacks[j] = g.getResult 0) ∧
        (UnpackBundleOp.getFromChannels unpacks[j]).length = ins.length ∧
        (∀ m (hm : m < ins.length),
          ∃ g ∈ added, g.kind = OpKind.arrayGet j ∧ g.operands = [(ins[m]).value] ∧
            (g.getResult 0).isSome ∧
            (UnpackBundleOp.getFromChannels unpacks[j])[m]? = g.getResult 0)) ∧
      (∀ i (hi : i < outs.length),
        ∃ a ∈ added, a.kind = OpKind.arrayCreate ∧ a.getResult 0 = some (outs[i]).value ∧
          a.operands.length = 2 ∧
          ∀ j (hj : j < unpacks.length),
            (unpacks[j].getResult i).isSome ∧ a.operands[j]? = unpacks[j].getResult i) :=
  ⟨⟨rfl, rfl, by decide⟩,
   C16_array_transpose exampleArrayPort exampleChannels 2 exampleArrayConverter
     exampleArrayBody rfl rfl (by decide)⟩

/-- C17: for a scalar bundle input port of a module with a body,
`BundlePort::buildInputSignals` inserts exactly one operation, a Pack of the
original bundle type, first in the body; its operands are the values of the
new input ports, which are the `to` channels in declaration order; in every
operation of the body and in the terminator each operand that was the old
argument is now the Pack's bundle and all other operands are as before, so the
old argument occurs nowhere in the body; and the `j`-th new output port, the
`j`-th `from` channel, is wired to the Pack's `j`-th from-channel result. -/
theorem C17_input_pack (origPort : PortInfo) (chs : List BundledChannel)
    (c : PortConverterImpl) (body : Block)
    (hty : origPort.type = Ty.bundle chs) (hbody : c.body = some body)
    (hin : origPort.argNum < body.arguments.length) :
    ∃ bp c' ins outs pack body' old bundle,
      (BundlePort.new origPort).buildInputSignals c = some (bp, c') ∧
      c'.newInputs = c.newInputs ++ ins ∧ c'.newOutputs = c.newOutputs ++ outs ∧
      c'.body = some body' ∧
      body'.ops = pack :: body.ops.map (fun op =>
        { op with operands := op.operands.map (fun v => if v = old then bundle else v) }) ∧
      body'.terminator = { body.terminator with
        operands := body.terminator.operands.map (fun v => if v = old then bundle else v) } ∧
      (∀ op ∈ body'.ops, old ∉ op.operands) ∧
      old ∉ body'.terminator.operands ∧
      pack.id = body.nextOp ∧
      pack.kind = OpKind.pack ∧
      pack.resultTypes = PackBundleOp.resultTypes ⟨chs⟩ ∧
      body.getArgument origPort.argNum = some old ∧
      PackBundleOp.getBundle pack = some bundle ∧
      bundle.getType = origPort.type ∧
      ins.map (fun p => p.suffix) =
        (chs.filter (fun ch => ch.direction = ChannelDirection.to)).map
          (fun ch => "_" ++ ch.name) ∧
      pack.operands = ins.map NewPort.value ∧
      outs.map (fun p => p.suffix) =
        (chs.filter (fun ch => ch.direction = ChannelDirection.from)).map
          (fun ch => "_" ++ ch.name) ∧
      (∀ j (h : j < outs.length),
        (PackBundleOp.getFromChannels pack)[j]? = some (outs[j]).value) := by
  have hbuild := buildInputSignals_body origPort chs c body hty hbody _
    (List.getElem?_eq_getElem hin)
  have hge := declaredInputs_value_ge origPort BundledChannel.type
    (chs.filter (fun ch => ch.direction = ChannelDirection.to)) c.newInputs.length
    body.arguments.length
  have hpack : Operation.replaceUses
      (Value.blockArgument origPort.argNum body.arguments[origPort.argNum])
      (Value.opResult body.nextOp 0 (Ty.bundle chs))
      (inputPack body chs
        ((declaredInputs origPort BundledChannel.type c.newInputs.length
          (some body.arguments.length)
          (chs.filter (fun ch => ch.direction = ChannelDirection.to))).map NewPort.value)) =
      inputPack body chs
        ((declaredInputs origPort BundledChannel.type c.newInputs.length
          (some body.arguments.length)
          (chs.filter (fun ch => ch.direction = ChannelDirection.to))).map NewPort.value) :=
    replaceUses_inputPack body chs _ _ _ _ hin hge
  have hwired := declaredOutputs_value origPort BundledChannel.type
    (PackBundleOp.getFromChannels (inputPack body chs []))
    (chs.filter (fun ch => ch.direction = ChannelDirection.from)) c.newOutputs.length 0 (by
      simp [PackBundleOp.getFromChannels, Operation.getResults, inputPack,
        PackBundleOp.resultTypes, ChannelBundleType.getChannels])
  have hne : Value.opResult body.nextOp 0 (Ty.bundle chs) ≠
      Value.blockArgument origPort.argNum body.arguments[origPort.argNum] := by
    intro h; cases h
  have hops : (Block.replaceAllUsesWith
      { arguments := body.arguments ++
          (chs.filter (fun ch => ch.direction = ChannelDirection.to)).map BundledChannel.type,
        ops := inputPack body chs
            ((declaredInputs origPort BundledChannel.type c.newInputs.length
              (some body.arguments.length)
              (chs.filter (fun ch => ch.direction = ChannelDirection.to))).map NewPort.value) ::
          body.ops,
        terminator := body.terminator,
        nextOp := body.nextOp + 1 }
      (Value.blockArgument origPort.argNum body.arguments[origPort.argNum])
      (Value.opResult body.nextOp 0 (Ty.bundle chs))).ops =
      inputPack body chs
        ((declaredInputs origPort BundledChannel.type c.newInputs.length
          (some body.arguments.length)
          (chs.filter (fun ch => ch.direction = ChannelDirection.to))).map NewPort.value) ::
      body.ops.map (fun op => { op with operands := op.operands.map (fun v =>
        if v = Value.blockArgument origPort.argNum body.arguments[origPort.argNum]
        then Value.opResult body.nextOp 0 (Ty.bundle chs) else v) }) := by
    simp only [Block.replaceAllUsesWith, List.map_cons, hpack]
    rfl
  refine ⟨_, _, _, _, inputPack body chs _, _,
    Value.blockArgument origPort.argNum body.arguments[origPort.argNum],
    Value.opResult body.nextOp 0 (Ty.bundle chs), hbuild, rfl, rfl, rfl, hops, rfl, ?_, ?_,
    rfl, rfl, rfl,
    ?_, ?_, ?_, ?_, rfl, ?_, ?_⟩
  · intro op hop
    rw [hops] at hop
    simp only [List.mem_cons, List.mem_map] at hop
    rcases hop with h | ⟨o, _, h⟩
    · rw [h]
      intro hmem
      obtain ⟨k, t, hk, hle⟩ := hge _ hmem
      injection hk with h1 _
      omega
    · rw [← h]
      exact not_mem_map_replace _ _ hne _
  · exact not_mem_map_replace _ _ hne _
  · simp [Block.getArgument, List.getElem?_eq_getElem hin]
  · simp [PackBundleOp.getBundle, Operation.getResult, Operation.getResults, inputPack,
      PackBundleOp.resultTypes, ChannelBundleType.toTy]
  · simp [Value.getType, hty]
  · exact declaredInputs_map origPort BundledChannel.type _ _ (fun _ _ _ => rfl) _ _ _
  · exact declaredOutputs_map origPort BundledChannel.type _ _ _ (fun _ _ _ => rfl) _ _ _
  · intro j h
    have hj : (List.map NewPort.value (declaredOutputs origPort BundledChannel.type
        (some (PackBundleOp.getFromChannels (inputPack body chs []))) c.newOutputs.length 0
        (chs.filter (fun ch => ch.direction = ChannelDirection.from))))[j]? =
        some ((declaredOutputs origPort BundledChannel.type
          (some (PackBundleOp.getFromChannels (inputPack body chs []))) c.newOutputs.length 0
          (chs.filter (fun ch => ch.direction = ChannelDirection.from)))[j]).value := by
      simp [List.getElem?_eq_getElem h]
    rw [hwired] at hj
    simpa [PackBundleOp.getFromChannels, Operation.getResults, inputPack] using hj

/-- Witness of C17 on the input port `x` of Scenario A
(`exampleConverter_buildInputSignals` gives the same run evaluated). -/
theorem C17_input_pack_witness :
    (examplePort.type = Ty.bundle exampleChannels ∧
      exampleConverter.body = some exampleBody ∧
      examplePort.argNum < exampleBody.arguments.length) ∧
    ∃ bp c' ins outs pack body' old bundle,
      (BundlePort.new examplePort).buildInputSignals exampleConverter = some (bp, c') ∧
      c'.newInputs = exampleConverter.newInputs ++ ins ∧
      c'.newOutputs = exampleConverter.newOutputs ++ outs ∧
      c'.body = some body' ∧
      body'.ops = pack :: exampleBody.ops.map (fun op =>
        { op with operands := op.operands.map (fun v => if v = old then bundle else v) }) ∧
      body'.terminator = { exampleBody.terminator with
        operands := exampleBody.terminator.operands.map
          (fun v => if v = old then bundle else v) } ∧
      (∀ op ∈ body'.ops, old ∉ op.operands) ∧
      old ∉ body'.terminator.operands ∧
      pack.id = exampleBody.nextOp ∧
      pack.kind = OpKind.pack ∧
      pack.resultTypes = PackBundleOp.resultTypes ⟨exampleChannels⟩ ∧
      exampleBody.getArgument examplePort.argNum = some old ∧
      PackBundleOp.getBundle pack = some bundle ∧
      bundle.getType = examplePort.type ∧
      ins.map (fun p => p.suffix) =
        (exampleChannels.filter (fun ch => ch.direction = ChannelDirection.to)).map
          (fun ch => "_" ++ ch.name) ∧
      pack.operands = ins.map NewPort.value ∧
      outs.map (fun p => p.suffix) =
        (exampleChannels.filter (fun ch => ch.direction = ChannelDirection.from)).map
          (fun ch => "_" ++ ch.name) ∧
      (∀ j (h : j < outs.length),
        (PackBundleOp.getFromChannels pack)[j]? = some (outs[j]).value) :=
  ⟨⟨rfl, rfl, by decide⟩,
   C17_input_pack examplePort exampleChannels exampleConverter exampleBody rfl rfl
     (by decide)⟩

/-- C18: for a scalar bundle output port of a module with a body,
`BundlePort::buildOutputSignals` inserts exactly one operation, an Unpack, as
the last operation before the terminator; its bundle operand is the
terminator's operand at the port's index and its channel operands are the
values of the new input ports, which are the `from` channels in declaration
order; and the `j`-th new output port, the `j`-th `to` channel, is wired to the
Unpack's `j`-th to-channel result. -/
theorem C18_output_unpack (origPort : PortInfo) (chs : List BundledChannel)
    (c : PortConverterImpl) (body : Block)
    (hty : origPort.type = Ty.bundle chs) (hbody : c.body = some body)
    (hout : isOutputOf origPort c) :
    ∃ bp c' ins outs unpack body',
      (BundlePort.new origPort).buildOutputSignals c = some (bp, c') ∧
      c'.newInputs = c.newInputs ++ ins ∧ c'.newOutputs = c.newOutputs ++ outs ∧
      c'.body = some body' ∧
      body'.ops = body.ops ++ [unpack] ∧
      body'.terminator = body.terminator ∧
      unpack.kind = OpKind.unpack ∧
      UnpackBundleOp.getBundle unpack = body.terminator.getOperand origPort.argNum ∧
      (UnpackBundleOp.getBundle unpack).isSome ∧
      ins.map (fun p => p.suffix) =
        (chs.filter (fun ch => ch.direction = ChannelDirection.from)).map
          (fun ch => "_" ++ ch.name) ∧
      UnpackBundleOp.getFromChannels unpack = ins.map NewPort.value ∧
      outs.map (fun p => p.suffix) =
        (chs.filter (fun ch => ch.direction = ChannelDirection.to)).map
          (fun ch => "_" ++ ch.name) ∧
      (∀ j (h : j < outs.length),
        (UnpackBundleOp.getToChannels unpack)[j]? = some (outs[j]).value) := by
  obtain ⟨v, hv, hvt⟩ : ∃ v, body.terminator.operands[origPort.argNum]? = some v ∧
      v.getType = origPort.type := by
    simpa [isOutputOf, hbody] using hout
  rw [hty] at hvt
  have hbuild := buildOutputSignals_body origPort chs c body hty hbody v hv hvt
  have hwired := declaredOutputs_value origPort BundledChannel.type
    (UnpackBundleOp.getToChannels (outputUnpack body chs []))
    (chs.filter (fun ch => ch.direction = ChannelDirection.to)) c.newOutputs.length 0 (by
      simp [UnpackBundleOp.getToChannels, Operation.getResults, outputUnpack,
        UnpackBundleOp.resultTypes, ChannelBundleType.getChannels])
  refine ⟨_, _, _, _, _, _, hbuild, rfl, rfl, rfl, rfl, rfl, rfl, ?_, ?_, ?_, ?_, ?_, ?_⟩
  · simp [UnpackBundleOp.getBundle, Operation.getOperand, outputUnpack, hv]
  · simp [UnpackBundleOp.getBundle, Operation.getOperand, outputUnpack]
  · exact declaredInputs_map origPort BundledChannel.type _ _ (fun _ _ _ => rfl) _ _ _
  · simp [UnpackBundleOp.getFromChannels, outputUnpack]
  · exact declaredOutputs_map origPort BundledChannel.type _ _ _ (fun _ _ _ => rfl) _ _ _
  · intro j h
    have hj : (List.map NewPort.value (declaredOutputs origPort BundledChannel.type
        (some (UnpackBundleOp.getToChannels (outputUnpack body chs []))) c.newOutputs.length 0
        (chs.filter (fun ch => ch.direction = ChannelDirection.to))))[j]? =
        some ((declaredOutputs origPort BundledChannel.type
          (some (UnpackBundleOp.getToChannels (outputUnpack body chs []))) c.newOutputs.length
          0 (chs.filter (fun ch => ch.direction = ChannelDirection.to)))[j]).value := by
      simp [List.getElem?_eq_getElem h]
    rw [hwired] at hj
    simpa [UnpackBundleOp.getToChannels, Operation.getResults, outputUnpack] using hj

/-- Witness of C18 on the port `x` of Scenario A taken as an output. -/
theorem C18_output_unpack_witness :
    (examplePort.type = Ty.bundle exampleChannels ∧
      exampleConverter.body = some exampleBody ∧
      isOutputOf examplePort exampleConverter) ∧
    ∃ bp c' ins outs unpack body',
      (BundlePort.new examplePort).buildOutputSignals exampleConverter = some (bp, c') ∧
      c'.newInputs = exampleConverter.newInputs ++ ins ∧
      c'.newOutputs = exampleConverter.newOutputs ++ outs ∧
      c'.body = some body' ∧
      body'.ops = exampleBody.ops ++ [unpack] ∧
      body'.terminator = exampleBody.terminator ∧
      unpack.kind = OpKind.unpack ∧
      UnpackBundleOp.getBundle unpack =
        exampleBody.terminator.getOperand examplePort.argNum ∧
      (UnpackBundleOp.getBundle unpack).isSome ∧
      ins.map (fun p => p.suffix) =
        (exampleChannels.filter (fun ch => ch.direction = ChannelDirection.from)).map
          (fun ch => "_" ++ ch.name) ∧
      UnpackBundleOp.getFromChannels unpack = ins.map NewPort.value ∧
      outs.map (fun p => p.suffix) =
        (exampleChannels.filter (fun ch => ch.direction = ChannelDirection.to)).map
          (fun ch => "_" ++ ch.name) ∧
      (∀ j (h : j < outs.length),
        (UnpackBundleOp.getToChannels unpack)[j]? = some (outs[j]).value) :=
  ⟨⟨rfl, rfl, by decide⟩,
   C18_output_unpack examplePort exampleChannels exampleConverter exampleBody rfl rfl
     (by decide)⟩

/-- C19 (the code at the failing input): the selector routes the port `z` of
type array of 2 bundles to `ArrayBundlePort`; the cast to a bundle type in
`buildInputSignals` and in `mapOutputSignals` is applied to the port type,
which is an array type and not a bundle type, so both callbacks fail. -/
theorem C19_array_casts_fail :
    ESIBundleConversionBuilder.build (fun _ => (Option.none : Option Unit))
        exampleArrayInPort =
      some (PortConversion.arrayBundlePort (ArrayBundlePort.new exampleArrayInPort)) ∧
    isaChannelBundleType exampleArrayInPort.type = false ∧
    castChannelBundleType exampleArrayInPort.type = Option.none ∧
    (ArrayBundlePort.new exampleArrayInPort).buildInputSignals exampleArrayInConverter =
      Option.none ∧
    (∀ ins outs b inst newOperands newResults,
      ArrayBundlePort.mapOutputSignals ⟨exampleArrayInPort, ins, outs⟩ b inst newOperands
        newResults = Option.none) :=
  ⟨rfl, rfl, rfl, rfl, fun ins outs b inst newOperands newResults =>
    arrayMapOutputSignals_none ⟨exampleArrayInPort, ins, outs⟩ (Ty.bundle exampleChannels) 2
      b inst newOperands newResults rfl⟩

/-- C20: `ESIBundlesPass::runOnOperation` signals failure if and only if the
loop over the modules stopped on a failed conversion, or all conversions
succeeded and the cleanup rewrite reported failure or some operation or
terminator of a body of the design it left is a Pack. The loop stops on a
failed conversion exactly when the conversion of some module `m` fails after
those before it succeeded. So a run in which all conversions and the cleanup
succeed and no operation or terminator of a body is a Pack (whatever Unpacks
remain) does not signal failure, emits no diagnostic and leaves the design of
the cleanup. -/
theorem C20_failure_iff (run : ModuleOp → String → Bool × ModuleOp)
    (applyPatterns : ModuleOp → Bool × ModuleOp) (top : ModuleOp) :
    ((ESIBundlesPass.runOnOperation run applyPatterns top).failed = true ↔
      (convertModules run
          ((top.ops.filter (fun m => m.isMutableModule)).map (fun m => m.name))
          (top, [])).1 = false ∨
      ((convertModules run
          ((top.ops.filter (fun m => m.isMutableModule)).map (fun m => m.name))
          (top, [])).1 = true ∧
        ((applyPatterns (convertModules run
            ((top.ops.filter (fun m => m.isMutableModule)).map (fun m => m.name))
            (top, [])).2.1).1 = false ∨
         ∃ m ∈ (applyPatterns (convertModules run
            ((top.ops.filter (fun m => m.isMutableModule)).map (fun m => m.name))
            (top, [])).2.1).2.ops,
           ∃ b, m.body = some b ∧
             ∃ op, (op ∈ b.ops ∨ op = b.terminator) ∧ op.kind = OpKind.pack))) ∧
    ((convertModules run
          ((top.ops.filter (fun m => m.isMutableModule)).map (fun m => m.name))
          (top, [])).1 = false ↔
      ∃ pre m post,
        (top.ops.filter (fun m => m.isMutableModule)).map (fun m => m.name) =
          pre ++ m :: post ∧
        (convertModules run pre (top, [])).1 = true ∧
        (run (convertModules run pre (top, [])).2.1 m).1 = false) ∧
    ((convertModules run
          ((top.ops.filter (fun m => m.isMutableModule)).map (fun m => m.name))
          (top, [])).1 = true →
      (applyPatterns (convertModules run
          ((top.ops.filter (fun m => m.isMutableModule)).map (fun m => m.name))
          (top, [])).2.1).1 = true →
      (∀ m ∈ (applyPatterns (convertModules run
          ((top.ops.filter (fun m => m.isMutableModule)).map (fun m => m.name))
          (top, [])).2.1).2.ops,
        ∀ b, m.body = some b →
          (∀ op ∈ b.ops, op.kind ≠ OpKind.pack) ∧ b.terminator.kind ≠ OpKind.pack) →
      (ESIBundlesPass.runOnOperation run applyPatterns top).failed = false ∧
      (ESIBundlesPass.runOnOperation run applyPatterns top).diagnostics = [] ∧
      (ESIBundlesPass.runOnOperation run applyPatterns top).top =
        (applyPatterns (convertModules run
          ((top.ops.filter (fun m => m.isMutableModule)).map (fun m => m.name))
          (top, [])).2.1).2) := by
  have hex : ∀ t : ModuleOp, t.packOps ≠ [] ↔
      ∃ m ∈ t.ops, ∃ b, m.body = some b ∧
        ∃ op, (op ∈ b.ops ∨ op = b.terminator) ∧ op.kind = OpKind.pack := by
    intro t
    constructor
    · intro h
      obtain ⟨op, hop⟩ := List.exists_mem_of_ne_nil _ h
      obtain ⟨m, hm, b, hb, h1, h2⟩ := (mem_packOps t op).1 hop
      exact ⟨m, hm, b, hb, op, h1, h2⟩
    · rintro ⟨m, hm, b, hb, op, h1, h2⟩
      exact List.ne_nil_of_mem ((mem_packOps t op).2 ⟨m, hm, b, hb, h1, h2⟩)
  refine ⟨?_, convertModules_false_iff run _ (top, []), ?_⟩
  · cases hc : (convertModules run
        ((top.ops.filter (fun m => m.isMutableModule)).map (fun m => m.name)) (top, [])).1
    · simp [ESIBundlesPass.runOnOperation, hc]
    · simp only [ESIBundlesPass.runOnOperation, hc, if_true, walk_foldl]
      rw [← hex]
      simp
  · intro hc hp hk
    have hk' := (packOps_eq_nil _).2 hk
    simp only [ESIBundlesPass.runOnOperation, hc, if_true, walk_foldl, hp, hk']
    simp

/-- Witness of C20: success on the design whose module holds an Unpack and no
Pack; failure on the design whose module holds a Pack; failure when the
cleanup reports failure; failure when the conversion of module `B` fails. -/
theorem C20_failure_iff_witness :
    ((ESIBundlesPass.runOnOperation exampleRunOk exampleCleanup exampleUnpackDesign).failed =
        false ∧
      (ESIBundlesPass.runOnOperation exampleRunOk exampleCleanup
        exampleUnpackDesign).diagnostics = [] ∧
      (ESIBundlesPass.runOnOperation exampleRunOk exampleCleanup exampleUnpackDesign).top =
        exampleUnpackDesign) ∧
    (examplePack ∈ examplePackBody.ops ∧
      (ESIBundlesPass.runOnOperation exampleRunOk exampleCleanup examplePackDesign).failed =
        true) ∧
    (ESIBundlesPass.runOnOperation exampleRunOk exampleCleanupFails exampleUnpackDesign).failed =
      true ∧
    (ESIBundlesPass.runOnOperation exampleRun exampleCleanup exampleDesign).failed = true :=
  ⟨(C20_failure_iff exampleRunOk exampleCleanup exampleUnpackDesign).2.2 (by decide)
     (by decide) (by
       intro m hm b hb
       have hm' : m ∈ exampleUnpackDesign.ops := hm
       simp only [exampleUnpackDesign, List.mem_singleton] at hm'
       subst hm'
       simp only [Option.some.injEq] at hb
       subst hb
       decide),
   ⟨by decide,
    (C20_failure_iff exampleRunOk exampleCleanup examplePackDesign).1.2
      (Or.inr ⟨by decide, Or.inr
        ⟨{ name := "A", isMutableModule := true, body := some examplePackBody }, by decide,
         examplePackBody, rfl, examplePack, Or.inl (by decide), rfl⟩⟩)⟩,
   (C20_failure_iff exampleRunOk exampleCleanupFails exampleUnpackDesign).1.2
     (Or.inr ⟨by decide, Or.inl (by decide)⟩),
   (C20_failure_iff exampleRun exampleCleanup exampleDesign).1.2 (Or.inl (by decide))⟩

end circt
